import Mathlib

/-! # proxyprober: exact request padding and header-size bisection

A shallow embedding of `proxyprober.go`.

* Go `int` is taken on a 64-bit platform, where it is the two's-complement
  integer of 64 bits.  Its values are modelled by the integers between
  `MinInt64` and `MaxInt64`; the operations of the program
  whose result can leave that range (`maxSize - cw.Count()`,
  `maxLine - headerOverhead`, `maxSize - minimumRequestSize`, `minSize += 1`,
  `minSize + maxSize`) are `intAdd` and `intSub`, which wrap around.  The other
  operations stay within the range for operands in the range and are the
  operations of `Int`.
* Go `string` is modelled by `String`; Go's `len` is the UTF-8 byte length.
  Memory is not bounded: a request is built however large it is.
* `net/http` is not part of the repository.  `Request.wire` follows the wire
  format `(*http.Request).Write` produces for a request without body: request
  line, `Host`, `User-Agent`, `Content-Length: 0` for the methods that get one,
  the remaining header lines, and the empty line.  The library writes the
  header lines sorted by key; the embedding writes them in list order, which
  changes the order of the lines and not their byte count.
* `log.Printf` is modelled by recording the arguments of the call, `log.Fatal`
  by an error result.  The progress estimate printed with every trial is
  computed in floating point and steers nothing; it is left out, as is the
  dump of requests and responses to standard output.
* `main` is modelled from the check of `-max-line` on: the URL has been parsed
  and has a hostname, and the TLS and redirect settings of the client are part
  of the transport.
* The detection loop of `main` need not end (a wrapped `midSize` can widen the
  interval again), so `detectLoop` and `main` take the number of trials to
  follow, and their result says whether the loop was still running then.
-/

namespace ProxyProber

/-! ## Strings -/

/-- Go's builtin `len` on a string: the number of bytes. -/
def len (s : String) : Int := s.utf8ByteSize

/-- Go's `strings.Repeat(s, count)` for a non-negative count. -/
def stringsRepeat (s : String) (count : Nat) : String :=
  String.join (List.replicate count s)

/-- Go's `fmt.Sprintf("%s%d", s, d)` for a non-negative `d`. -/
def sprintfSD (s : String) (d : Nat) : String := s ++ toString d

/-! ## Go `int` -/

/-- The constant `math.MinInt64`, the least value of an `int`. -/
def MinInt64 : Int := -9223372036854775808

/-- The constant `math.MaxInt64`, the greatest value of an `int`. -/
def MaxInt64 : Int := 9223372036854775807

/-- The integer is a value of a Go `int`. -/
def InRange (x : Int) : Prop := MinInt64 ≤ x ∧ x ≤ MaxInt64

instance (x : Int) : Decidable (InRange x) :=
  inferInstanceAs (Decidable (MinInt64 ≤ x ∧ x ≤ MaxInt64))

/-- Two's-complement wrap-around into the range of `int`. -/
def wrap64 (x : Int) : Int := (x - MinInt64) % 18446744073709551616 + MinInt64

/-- Go's `a + b` on `int`: the sum, wrapped around when it leaves the range.
Integers outside the range are no values of an `int`; for them the sum is the
sum of integers. -/
def intAdd (a b : Int) : Int :=
  if InRange a ∧ InRange b then wrap64 (a + b) else a + b

/-- Go's `a - b` on `int`: the difference, wrapped around when it leaves the
range.  Integers outside the range are no values of an `int`; for them the
difference is the difference of integers. -/
def intSub (a b : Int) : Int :=
  if InRange a ∧ InRange b then wrap64 (a - b) else a - b

/-! ## CountingWriter -/

/-- The struct `CountingWriter`; the embedded `io.Writer` is never used. -/
structure CountingWriter where
  Written : Int := 0
deriving DecidableEq, Repr

/-- Method `(w *CountingWriter) Write(b []byte) (int, error)`: the updated
writer, the reported byte count and the error (always nil). -/
def CountingWriter.Write (w : CountingWriter) (b : ByteArray) :
    CountingWriter × Int × Option String :=
  ({ w with Written := w.Written + b.size }, b.size, none)

/-- Method `(w *CountingWriter) Count() int`: the returned count and the
reset writer. -/
def CountingWriter.Count (w : CountingWriter) : Int × CountingWriter :=
  (w.Written, { w with Written := 0 })

/-! ## Requests (the part of `net/http` the program relies on) -/

/-- The type `http.Header`, a map from canonical key to values, kept as an
association list. -/
abbrev Header := List (String × List String)

/-- The method `http.Header.Set(key, value)` for a key already in canonical
form (`X-Pad` followed by decimal digits is): the entry is replaced. -/
def Header.Set (h : Header) (key value : String) : Header :=
  (key, [value]) :: h.filter (fun e => e.1 != key)

/-- The fields of `http.Request` that determine its serialization. -/
structure Request where
  Method : String
  RequestURI : String
  Host : String
  Header : Header
deriving DecidableEq, Repr

/-- The keys `(*http.Request).Write` does not take from the header map
(`reqWriteExcludeHeader`). -/
def reqWriteExcludeHeader : List String :=
  ["Host", "User-Agent", "Content-Length", "Transfer-Encoding", "Trailer"]

/-- The helper `valueOrDefault` of `net/http`. -/
def valueOrDefault (value deflt : String) : String :=
  if value = "" then deflt else value

/-- The replacer `headerNewlineToSpace` of `net/http`: line feed and carriage
return become a space. -/
def headerNewlineToSpace (s : String) : String :=
  ⟨s.data.map (fun c => if c = Char.ofNat 10 ∨ c = Char.ofNat 13 then Char.ofNat 32 else c)⟩

/-- The ASCII white space `textproto.TrimString` removes: space, tab, line feed
and carriage return. -/
def isASCIISpace (c : Char) : Bool :=
  c = Char.ofNat 32 || c = Char.ofNat 9 || c = Char.ofNat 10 || c = Char.ofNat 13

/-- The function `textproto.TrimString`: leading and trailing ASCII white space
is removed. -/
def trimString (s : String) : String :=
  ⟨((s.data.dropWhile isASCIISpace).reverse.dropWhile isASCIISpace).reverse⟩

/-- A header value as it is written: line breaks replaced, then trimmed. -/
def headerValue (v : String) : String := trimString (headerNewlineToSpace v)

/-- The `User-Agent` line: the header's value if the key is present, the
library default otherwise; no line for an empty value. -/
def userAgentLine (h : Header) : String :=
  let userAgent :=
    match h.lookup "User-Agent" with
    | some (v :: _) => v
    | some [] => ""
    | none => "Go-http-client/1.1"
  if userAgent = "" then "" else "User-Agent: " ++ headerValue userAgent ++ "\r\n"

/-- The line the transfer writer adds for a request without body: the methods
`POST`, `PUT` and `PATCH` get `Content-Length: 0`. -/
def contentLengthLine (method : String) : String :=
  if method = "POST" ∨ method = "PUT" ∨ method = "PATCH" then "Content-Length: 0\r\n"
  else ""

/-- The lines of one header entry: one `key: value` line per value. -/
def entryLines (e : String × List String) : String :=
  if e.1 ∈ reqWriteExcludeHeader then ""
  else String.join (e.2.map (fun v => e.1 ++ ": " ++ headerValue v ++ "\r\n"))

/-- The header lines written by `Header.WriteSubset`. -/
def headerLines (h : Header) : String := String.join (h.map entryLines)

/-- The bytes `(*http.Request).Write` produces. -/
def Request.wire (r : Request) : String :=
  valueOrDefault r.Method "GET" ++ " " ++ r.RequestURI ++ " HTTP/1.1\r\n"
    ++ "Host: " ++ r.Host ++ "\r\n"
    ++ userAgentLine r.Header
    ++ contentLengthLine (valueOrDefault r.Method "GET")
    ++ headerLines r.Header
    ++ "\r\n"

/-- The call `r.Write(cw)` on a `CountingWriter`. -/
def Request.Write (r : Request) (cw : CountingWriter) : CountingWriter :=
  (cw.Write r.wire.toUTF8).1

/-- The measuring idiom `cw := &CountingWriter{}; r.Write(cw); cw.Count()`. -/
def measure (r : Request) : Int :=
  ((r.Write { Written := 0 }).Count).1

/-! ## padRequest -/

/-- The constant `headerKey`. -/
def headerKey : String := "X-Pad"

/-- The constant `lineOverhead`. -/
def lineOverhead : Int := len ": \r\n"

/-- The constant `minimumOverhead`: room for two header fields with a
one-character suffix. -/
def minimumOverhead : Int := 2 * (len headerKey + lineOverhead + 1)

/-- The function `min` of the source. -/
def min (a b : Int) : Int := if a < b then a else b

/-- What `padRequest` leaves behind: the returned request, the calls
`r.Header.Set(key, value)` it made, in order, and the arguments `(key, -n)` of
the shortfall warning if that branch was taken. -/
structure PadResult where
  r : Request
  sets : List (String × String)
  shortfall : Option (String × Int)
deriving DecidableEq, Repr

/-- The loop `for i := 0; n > 0; i++` of `padRequest`, entered with the
request `r` built so far, the budget `n`, the current `key` and counter `i`.
The difference `maxLine - headerOverhead` wraps around for a `maxLine` close to
`MinInt64`.  The budget is positive inside the loop and a key overhead is a
few bytes, so the other differences stay in the range of `int`. -/
def padLoop (maxLine : Int) (r : Request) (sets : List (String × String))
    (n : Int) (key : String) (i : Nat) : PadResult :=
  if n > 0 then
    let nextkey := sprintfSD headerKey (i + 1)
    let headerOverhead := len key + lineOverhead
    let n1 := n - headerOverhead
    if n1 < 0 then
      { r := r, sets := sets, shortfall := some (key, -n1) }
    else
      let sz :=
        if n1 > intSub maxLine headerOverhead then
          let nextHeaderOverhead := len nextkey + lineOverhead
          min (intSub maxLine headerOverhead) (n1 - nextHeaderOverhead)
        else n1
      if sz ≤ 0 then
        padLoop maxLine { r with Header := r.Header.Set key "" }
          (sets ++ [(key, "")]) n1 nextkey (i + 1)
      else
        let value := stringsRepeat "x" sz.toNat
        padLoop maxLine { r with Header := r.Header.Set key value }
          (sets ++ [(key, value)]) (n1 - sz) nextkey (i + 1)
  else
    { r := r, sets := sets, shortfall := none }
termination_by n.toNat
decreasing_by
  · have h1 : 0 ≤ len key := Int.ofNat_nonneg _
    have h2 : lineOverhead = 4 := by decide
    show (n - (len key + lineOverhead)).toNat < n.toNat
    omega
  · have h1 : 0 ≤ len key := Int.ofNat_nonneg _
    have h2 : lineOverhead = 4 := by decide
    show (n - (len key + lineOverhead) - sz).toNat < n.toNat
    omega

/-- The function `padRequest(req, maxLine, maxSize)`; the budget
`n := maxSize - cw.Count()` wraps around. -/
def padRequest (req : Request) (maxLine maxSize : Int) : PadResult :=
  padLoop maxLine req [] (intSub maxSize (measure req)) headerKey 0

/-- The key `padRequest` uses in iteration `i`: `key := headerKey` at first,
then `nextkey := fmt.Sprintf("%s%d", headerKey, i+1)`. -/
def padKey : Nat → String
  | 0 => headerKey
  | i + 1 => sprintfSD headerKey (i + 1)

/-- The request carries no header named `X-Pad` or `X-Pad<i>`. -/
def NoPadHeader (r : Request) : Prop :=
  ∀ i : Nat, ∀ e ∈ r.Header, e.1 ≠ padKey i

/-- The overhead `len(key) + lineOverhead` of the key of iteration `i`. -/
def keyOverhead (i : Nat) : Int := len (padKey i) + lineOverhead

/-- The value length `sz` chosen in iteration `i` when `n1` bytes remain after
the key overhead has been subtracted. -/
def padSz (maxLine n1 : Int) (i : Nat) : Int :=
  if n1 > intSub maxLine (keyOverhead i) then
    min (intSub maxLine (keyOverhead i)) (n1 - keyOverhead (i + 1))
  else n1

/-- None of the keys of iteration `i` and later is a header of the request. -/
def FreshFrom (i : Nat) (r : Request) : Prop :=
  ∀ j : Nat, i ≤ j → ∀ e ∈ r.Header, e.1 ≠ padKey j

/-- The request of the tests: `http.NewRequest("GET", "https://localhost/", nil)`. -/
def testRequest : Request :=
  { Method := "GET", RequestURI := "/", Host := "localhost", Header := [] }

/-! ## The detection loop of `main` -/

/-- The constant `http.StatusBadRequest`. -/
def StatusBadRequest : Int := 400

/-- The constant `http.StatusRequestURITooLong`. -/
def StatusRequestURITooLong : Int := 414

/-- The constant `http.StatusRequestHeaderFieldsTooLarge`. -/
def StatusRequestHeaderFieldsTooLarge : Int := 431

/-- The case of the `switch` on a trial response that is taken. -/
inductive Outcome where
  | Accepted
  | Rejected
  | TransientError
  | Unexpected
deriving DecidableEq, Repr

/-- The `switch` on `trialResp.StatusCode` in the loop of `main`: the first
case whose condition holds, in source order. -/
def classify (status refStatus codeOk codeBad : Int) : Outcome :=
  if status = refStatus ∨ (codeOk ≠ 0 ∧ status = codeOk) then
    Outcome.Accepted
  else if status = StatusBadRequest ∨ status = StatusRequestHeaderFieldsTooLarge ∨
      (codeBad ≠ 0 ∧ status = codeBad) then
    Outcome.Rejected
  else if status.tdiv 100 = 5 then
    Outcome.TransientError
  else
    Outcome.Unexpected

/-- The `switch` on `refResp.StatusCode` before the loop: the statuses for
which `main` gives up with "Initial request is already rejected". -/
def initialRejected (status : Int) : Bool :=
  status == StatusBadRequest || status == StatusRequestHeaderFieldsTooLarge ||
    status == StatusRequestURITooLong

/-- The ways `main` ends through `log.Fatal`. -/
inductive Fatal where
  | maxLineTooSmall
  | minSizeLargerThanMaxSize
  | invalidMethod (method : String)
  | transport (err : String)
  | initialRequestRejected
  | tooManyFailures (midSize minSize maxSize : Int)
  | unexpectedResponseCode (status : Int)
deriving DecidableEq, Repr

/-- One request sent: the size the controller asked `padRequest` for, what
`padRequest` returned (the request sent is `pad.r`), and the status code of
the response. -/
structure Probe where
  size : Int
  pad : PadResult
  status : Int
deriving DecidableEq, Repr

/-- The call `httpClient.Do(r)`: the answer to the `k`-th request of the run
(counted from 0) is a status code or a transport error. -/
abbrev Transport := Nat → Request → Except String Int

/-- The variables of the detection loop, and the requests sent so far. -/
structure DetectState where
  minSize : Int
  maxSize : Int
  detectedSize : Int
  errorCount : Int
  successResponse : Int
  badResponse : Option Int
  probes : List Probe
deriving DecidableEq, Repr

/-- The state of the loop after the trials followed, the fatal error if the
loop was left through `log.Fatal`, and whether the loop was still running,
with `minSize <= maxSize`, when the trials to follow were used up. -/
structure Run where
  final : DetectState
  fatal : Option Fatal
  running : Bool
deriving DecidableEq, Repr

/-- The size `midSize := (minSize + maxSize) / 2` the loop tries next: the sum
wraps around, the division truncates.  The size is at most `2 ^ 62` in
absolute value, so `midSize + 1` and `midSize - 1` stay in the range. -/
def DetectState.mid (st : DetectState) : Int := (intAdd st.minSize st.maxSize).tdiv 2

/-- The body of the loop once the response to the trial at `midSize` is in:
the `switch` with its assignments.  The second component is the fatal error,
if any. -/
def trialStep (refStatus codeOk codeBad : Int) (st : DetectState) (midSize : Int)
    (r : PadResult) (status : Int) : DetectState × Option Fatal :=
  let probes := st.probes ++ [{ size := midSize, pad := r, status := status }]
  match classify status refStatus codeOk codeBad with
  | Outcome.Accepted =>
    ({ st with minSize := midSize + 1, detectedSize := midSize,
               successResponse := status, probes := probes }, none)
  | Outcome.Rejected =>
    ({ st with maxSize := midSize - 1, badResponse := some status, probes := probes }, none)
  | Outcome.TransientError =>
    let errorCount := st.errorCount + 1
    if errorCount > 5 then
      ({ st with errorCount := errorCount, probes := probes },
        some (Fatal.tooManyFailures midSize st.minSize st.maxSize))
    else
      ({ st with errorCount := errorCount, probes := probes }, none)
  | Outcome.Unexpected =>
    ({ st with probes := probes }, some (Fatal.unexpectedResponseCode status))

/-- The loop `for minSize <= maxSize` of `main`, followed for at most `fuel`
trials. -/
def detectLoop (req : Request) (maxLine refStatus codeOk codeBad : Int) (Do : Transport) :
    Nat → DetectState → Run
  | 0, st => { final := st, fatal := none, running := decide (st.minSize ≤ st.maxSize) }
  | fuel + 1, st =>
    if st.minSize ≤ st.maxSize then
      let midSize := (intAdd st.minSize st.maxSize).tdiv 2
      let r := padRequest req maxLine midSize
      match Do st.probes.length r.r with
      | Except.error err =>
        { final := st, fatal := some (Fatal.transport err), running := false }
      | Except.ok status =>
        match trialStep refStatus codeOk codeBad st midSize r status with
        | (st1, some f) => { final := st1, fatal := some f, running := false }
        | (st1, none) => detectLoop req maxLine refStatus codeOk codeBad Do fuel st1
    else
      { final := st, fatal := none, running := false }

/-! ## `main` -/

/-- The command line of `main`, with the URL given by the host and request URI
that `net/url` and `http.NewRequest` derive from `-url`. -/
structure Flags where
  method : String
  host : String
  requestURI : String
  userAgent : String
  minSize : Int
  maxSize : Int
  maxLine : Int
  detect : Bool
  codeOk : Int
  codeBad : Int
deriving DecidableEq, Repr

/-- The characters of a token (`httpguts.IsTokenRune`): ASCII letters, digits
and a few signs. -/
def isTokenRune (c : Char) : Bool :=
  c.isAlphanum || "!#$%&'*+-.^_`|~".data.contains c

/-- The function `validMethod` of `net/http`: a non-empty token. -/
def validMethod (method : String) : Bool :=
  !method.data.isEmpty && method.data.all isTokenRune

/-- The request `main` builds when `http.NewRequest(method, urlarg, nil)`
succeeds (an empty method stands for `GET`), followed by
`req.Header.Set("user-agent", userAgent)`, whose canonical key is
`User-Agent`. -/
def baseRequest (flags : Flags) : Request :=
  { Method := if flags.method = "" then "GET" else flags.method,
    RequestURI := flags.requestURI, Host := flags.host,
    Header := Header.Set [] "User-Agent" flags.userAgent }

/-- The value of `maxSize` after the check against `minimumRequestSize`
("Unable to add additional padding!"); the difference wraps around. -/
def clampMaxSize (minimumRequestSize maxSize : Int) : Int :=
  if minimumRequestSize = maxSize then maxSize
  else if intSub maxSize minimumRequestSize < minimumOverhead then minimumRequestSize
  else maxSize

/-- The value of `minSize` after `if minimumRequestSize > minSize`. -/
def raiseMinSize (minimumRequestSize minSize : Int) : Int :=
  if minimumRequestSize > minSize then minimumRequestSize else minSize

/-- What a run of `main` shows: the requests sent with their responses, the
fatal error if there was one, the size printed as "Detected maximum header
size", whether the "maximum header size was not exceeded" warning was
printed, and whether the detection loop was still running when the trials to
follow were used up. -/
structure Report where
  probes : List Probe
  fatal : Option Fatal
  detected : Option Int
  notExceeded : Bool
  running : Bool
deriving DecidableEq, Repr

/-- The variables as the loop is entered: `errorCount := 0`,
`detectedSize := minSize`, `successResponse := refResp`, `badResponse` nil,
`minSize += 1`, which wraps around; the reference probe is the one request
sent so far. -/
def DetectState.start (minSize maxSize refStatus : Int) (r : PadResult) : DetectState :=
  { minSize := intAdd minSize 1, maxSize := maxSize, detectedSize := minSize,
    errorCount := 0, successResponse := refStatus, badResponse := none,
    probes := [{ size := minSize, pad := r, status := refStatus }] }

/-- The function `main`, from the check of `-max-line` on, with the detection
loop followed for at most `fuel` trials; the URL has been parsed and has a
hostname. -/
def main (flags : Flags) (Do : Transport) (fuel : Nat) : Report :=
  let req := baseRequest flags
  if flags.maxLine < minimumOverhead then
    { probes := [], fatal := some Fatal.maxLineTooSmall, detected := none,
      notExceeded := false, running := false }
  else if flags.detect && flags.minSize > flags.maxSize then
    { probes := [], fatal := some Fatal.minSizeLargerThanMaxSize, detected := none,
      notExceeded := false, running := false }
  else if !validMethod req.Method then
    { probes := [], fatal := some (Fatal.invalidMethod req.Method), detected := none,
      notExceeded := false, running := false }
  else
    let minimumRequestSize := measure req
    let maxSize := clampMaxSize minimumRequestSize flags.maxSize
    if flags.detect then
      let minSize := raiseMinSize minimumRequestSize flags.minSize
      let r := padRequest req flags.maxLine minSize
      match Do 0 r.r with
      | Except.error err =>
        { probes := [], fatal := some (Fatal.transport err), detected := none,
          notExceeded := false, running := false }
      | Except.ok refStatus =>
        let refProbe : Probe := { size := minSize, pad := r, status := refStatus }
        if initialRejected refStatus then
          { probes := [refProbe], fatal := some Fatal.initialRequestRejected, detected := none,
            notExceeded := false, running := false }
        else
          let run := detectLoop req flags.maxLine refStatus flags.codeOk flags.codeBad Do fuel
            (DetectState.start minSize maxSize refStatus r)
          match run.fatal with
          | some f =>
            { probes := run.final.probes, fatal := some f, detected := none,
              notExceeded := false, running := false }
          | none =>
            if run.running then
              { probes := run.final.probes, fatal := none, detected := none,
                notExceeded := false, running := true }
            else
              { probes := run.final.probes, fatal := none,
                detected := some run.final.detectedSize,
                notExceeded := run.final.badResponse.isNone, running := false }
    else
      let r := padRequest req flags.maxLine maxSize
      match Do 0 r.r with
      | Except.error err =>
        { probes := [], fatal := some (Fatal.transport err), detected := none,
          notExceeded := false, running := false }
      | Except.ok status =>
        { probes := [{ size := maxSize, pad := r, status := status }], fatal := none,
          detected := none, notExceeded := false, running := false }

/-- The value of `minSize` when the reference probe is sent. -/
def effectiveMinSize (flags : Flags) : Int :=
  raiseMinSize (measure (baseRequest flags)) flags.minSize

/-- The value of `maxSize` when the loop is entered. -/
def effectiveMaxSize (flags : Flags) : Int :=
  clampMaxSize (measure (baseRequest flags)) flags.maxSize

/-- The request of the reference probe, as `padRequest` returns it. -/
def referencePad (flags : Flags) : PadResult :=
  padRequest (baseRequest flags) flags.maxLine (effectiveMinSize flags)

/-- The loop of `main` followed for at most `fuel` trials from its start state,
for a reference response with status `refStatus`. -/
def detectRun (flags : Flags) (Do : Transport) (refStatus : Int) (fuel : Nat) : Run :=
  detectLoop (baseRequest flags) flags.maxLine refStatus flags.codeOk flags.codeBad Do fuel
    (DetectState.start (effectiveMinSize flags) (effectiveMaxSize flags) refStatus
      (referencePad flags))

/-- A server that answers every request with the same status code. -/
def constantServer (status : Int) : Transport :=
  fun _ _ => Except.ok status

/-- A command line for `-detect` between 100 and 200 bytes with the default
method, line length and overrides. -/
def exampleFlags : Flags :=
  { method := "HEAD", host := "localhost", requestURI := "/", userAgent := "",
    minSize := 100, maxSize := 200, maxLine := 8192, detect := true,
    codeOk := 0, codeBad := 0 }

/-- The number of probes of a list that the trial `switch` classifies as
TransientError. -/
def transientCount (refStatus codeOk codeBad : Int) (probes : List Probe) : Nat :=
  probes.countP (fun p => classify p.status refStatus codeOk codeBad = Outcome.TransientError)

/-- Some "Too many failures" error. -/
def Fatal.isTooManyFailures : Option Fatal → Bool
  | some (Fatal.tooManyFailures _ _ _) => true
  | _ => false

/-- The number of trials of a detection run classified as TransientError: the
first probe is the reference probe, whose status the trials are compared to. -/
def transientTrials (codeOk codeBad : Int) : List Probe → Nat
  | [] => 0
  | ref :: trials => transientCount ref.status codeOk codeBad trials

/-- A server that answers the first request with 200 and every later one with
503. -/
def failingServer : Transport :=
  fun k _ => Except.ok (if k = 0 then 200 else 503)

/-- The worst-case number of bisection steps on `n` candidate sizes:
`⌊log₂ n⌋ + 1` for `n ≥ 1`, none for an empty interval. -/
def bisectionSteps (n : Int) : Nat :=
  if 0 < n then Nat.log 2 n.toNat + 1 else 0

/-- A start state of the loop with the single candidate size 101: the
reference probe at size 100 was answered with 200 and `maxSize` is 101. -/
def singletonState : DetectState :=
  DetectState.start 100 101 200 (padRequest testRequest 8192 100)

/-- A server that answers 200 to requests of at most `limit` bytes and 431 to
larger ones. -/
def thresholdServer (limit : Int) : Transport :=
  fun _ r => Except.ok (if measure r ≤ limit then 200 else 431)

/-- The example command line with `-code-ok 431`. -/
def codeOkFlags : Flags := { exampleFlags with codeOk := 431 }

/-- The example command line with `-min-size 0 -max-size 56`: the base request
has 36 bytes, so `maxSize` is `minimumOverhead` above it. -/
def gapFlags : Flags := { exampleFlags with minSize := 0, maxSize := 56 }

/-- The example command line with `-min-size 0 -max-size 9223372036854775807`. -/
def overflowFlags : Flags := { exampleFlags with minSize := 0, maxSize := MaxInt64 }

/-- A server that answers the first request with 200 and every later one with
431. -/
def rejectingServer : Transport :=
  fun k _ => Except.ok (if k = 0 then 200 else 431)

/-- What is recorded for a probe and what was sent: the size asked for, the
measured size of the request, and the status of the response. -/
def Probe.summary (p : Probe) : Int × Int × Int := (p.size, measure p.pad.r, p.status)

/-- A request of 120 bytes, the baseline of the first concrete scenario of the
specification. -/
def scenarioRequest : Request :=
  { Method := "GET",
    RequestURI := "/aaaaaaaaaaaaaaaaaaaaaaaaaaaaaaaaaaaaaaaaaaaaaaaaaaaaa",
    Host := "localhost", Header := [] }

/-- The number of times the body of the loop of `padRequest` was entered:
every iteration either sets a field or ends the loop with the warning. -/
def padIterations (res : PadResult) : Nat :=
  res.sets.length + (if res.shortfall.isSome then 1 else 0)

/-- The number of probes of a list that the trial `switch` classifies as
Accepted or Rejected. -/
def decisiveCount (refStatus codeOk codeBad : Int) (probes : List Probe) : Nat :=
  probes.countP (fun p =>
    classify p.status refStatus codeOk codeBad = Outcome.Accepted ∨
      classify p.status refStatus codeOk codeBad = Outcome.Rejected)

/-- The number of trials of a detection run classified as Accepted or
Rejected; the first probe is the reference probe. -/
def decisiveTrials (codeOk codeBad : Int) : List Probe → Nat
  | [] => 0
  | ref :: trials => decisiveCount ref.status codeOk codeBad trials


/-! ## Lengths of strings -/

theorem len_nonneg (s : String) : 0 ≤ len s := Int.ofNat_nonneg _

theorem len_append (a b : String) : len (a ++ b) = len a + len b := by
  cases a with
  | mk as =>
    cases b with
    | mk bs =>
      show ((String.utf8ByteSize ⟨as ++ bs⟩ : Nat) : Int) = _
      simp [len, String.utf8ByteSize_mk, String.utf8Len_append]

theorem len_empty : len "" = 0 := by decide

theorem len_foldl_append (l : List String) (acc : String) :
    len (l.foldl (fun r s => r ++ s) acc) = len acc + (l.map len).sum := by
  induction l generalizing acc with
  | nil => simp
  | cons a l ih => simp [ih, len_append, add_assoc]

theorem len_join (l : List String) : len (String.join l) = (l.map len).sum := by
  unfold String.join
  rw [len_foldl_append, len_empty, zero_add]

theorem len_stringsRepeat_x (k : Nat) : len (stringsRepeat "x" k) = k := by
  have hx : len "x" = 1 := by decide
  unfold stringsRepeat
  rw [len_join]
  simp [hx]

theorem stringsRepeat_zero (s : String) : stringsRepeat s 0 = "" := by
  simp [stringsRepeat, String.join]

theorem lineOverhead_eq : lineOverhead = 4 := by decide

theorem minimumOverhead_eq : minimumOverhead = 20 := by decide

/-! ## Arithmetic of `int` -/

theorem wrap64_of_inRange {x : Int} (h : InRange x) : wrap64 x = x := by
  unfold InRange MinInt64 MaxInt64 at h
  unfold wrap64 MinInt64
  omega

theorem inRange_wrap64 (x : Int) : InRange (wrap64 x) := by
  unfold InRange wrap64 MinInt64 MaxInt64
  omega

/-- The difference is exact unless two values of `int` have a difference
outside the range. -/
theorem intSub_eq_sub {a b : Int} (h : InRange a → InRange b → InRange (a - b)) :
    intSub a b = a - b := by
  unfold intSub
  split_ifs with hab
  · exact wrap64_of_inRange (h hab.1 hab.2)
  · rfl

/-- The sum is exact unless two values of `int` have a sum outside the range. -/
theorem intAdd_eq_add {a b : Int} (h : InRange a → InRange b → InRange (a + b)) :
    intAdd a b = a + b := by
  unfold intAdd
  split_ifs with hab
  · exact wrap64_of_inRange (h hab.1 hab.2)
  · rfl

theorem intSub_of_nonneg {a b : Int} (ha : 0 ≤ a) (hb : 0 ≤ b) : intSub a b = a - b := by
  apply intSub_eq_sub
  unfold InRange MinInt64 MaxInt64
  omega

theorem intSub_of_le {a b : Int} (hb : 0 ≤ b) (h : b ≤ a) : intSub a b = a - b := by
  apply intSub_eq_sub
  unfold InRange MinInt64 MaxInt64
  omega

theorem inRange_intSub {a b : Int} (ha : InRange a) (hb : InRange b) : InRange (intSub a b) := by
  unfold intSub
  rw [if_pos ⟨ha, hb⟩]
  exact inRange_wrap64 _

theorem inRange_intAdd {a b : Int} (ha : InRange a) (hb : InRange b) : InRange (intAdd a b) := by
  unfold intAdd
  rw [if_pos ⟨ha, hb⟩]
  exact inRange_wrap64 _

/-! ## Header values made of the letter `x` -/

theorem foldl_append_replicate_x (k : Nat) (acc : String) :
    ((List.replicate k "x").foldl (fun r s => r ++ s) acc).data
      = acc.data ++ List.replicate k 'x' := by
  induction k generalizing acc with
  | zero => simp
  | succ k ih =>
    rw [List.replicate_succ, List.foldl_cons, ih, String.data_append, List.replicate_succ]
    simp

theorem stringsRepeat_x_data (k : Nat) : (stringsRepeat "x" k).data = List.replicate k 'x' := by
  unfold stringsRepeat String.join
  rw [foldl_append_replicate_x]
  rfl

theorem dropWhile_replicate_x (k : Nat) :
    (List.replicate k 'x').dropWhile isASCIISpace = List.replicate k 'x' := by
  cases k with
  | zero => rfl
  | succ k =>
    rw [List.replicate_succ]
    exact List.dropWhile_cons_of_neg (by decide)

/-- A value made of the letter `x` is written as it is. -/
theorem headerValue_stringsRepeat_x (k : Nat) :
    headerValue (stringsRepeat "x" k) = stringsRepeat "x" k := by
  have hmap : (stringsRepeat "x" k).data.map
      (fun c => if c = Char.ofNat 10 ∨ c = Char.ofNat 13 then Char.ofNat 32 else c)
      = List.replicate k 'x' := by
    rw [stringsRepeat_x_data, List.map_replicate]
    rfl
  have hd : (headerValue (stringsRepeat "x" k)).data = (stringsRepeat "x" k).data := by
    show (((((stringsRepeat "x" k).data.map _).dropWhile isASCIISpace).reverse.dropWhile
      isASCIISpace).reverse) = _
    rw [hmap, dropWhile_replicate_x, List.reverse_replicate, dropWhile_replicate_x,
      List.reverse_replicate, stringsRepeat_x_data]
  exact String.ext hd

/-! ## The measured size of a request -/

theorem measure_eq_len_wire (r : Request) : measure r = len r.wire := by
  simp [measure, Request.Write, CountingWriter.Write, CountingWriter.Count, len]

theorem len_headerLines_cons (e : String × List String) (h : Header) :
    len (headerLines (e :: h)) = len (entryLines e) + len (headerLines h) := by
  simp [headerLines, len_join]

theorem len_entryLines_single (key value : String) (hk : key ∉ reqWriteExcludeHeader) :
    len (entryLines (key, [value])) = len key + lineOverhead + len (headerValue value) := by
  have h2 : len ": " = 2 := by decide
  have h3 : len "\r\n" = 2 := by decide
  simp only [entryLines, if_neg hk, List.map, len_join, List.sum_cons, List.sum_nil,
    len_append, h2, h3, lineOverhead_eq]
  ring

theorem filter_ne_of_fresh (h : Header) (key : String) (hf : ∀ e ∈ h, e.1 ≠ key) :
    h.filter (fun e => e.1 != key) = h := by
  rw [List.filter_eq_self]
  intro e he
  simpa using hf e he

theorem userAgentLine_set (h : Header) (key value : String)
    (hf : ∀ e ∈ h, e.1 ≠ key) (hk : key ∉ reqWriteExcludeHeader) :
    userAgentLine (Header.Set h key value) = userAgentLine h := by
  have hne : ("User-Agent" == key) = false := by
    rw [beq_eq_false_iff_ne]
    intro heq
    apply hk
    rw [← heq]
    decide
  simp only [userAgentLine, Header.Set, filter_ne_of_fresh h key hf, List.lookup_cons, hne]

/-- Setting a header whose key is new and is written by `Header.WriteSubset`
adds exactly one line `key: value\r\n` to the serialization. -/
theorem measure_set (r : Request) (key value : String)
    (hf : ∀ e ∈ r.Header, e.1 ≠ key) (hk : key ∉ reqWriteExcludeHeader) :
    measure { r with Header := r.Header.Set key value }
      = measure r + (len key + lineOverhead + len (headerValue value)) := by
  simp only [measure_eq_len_wire, Request.wire, len_append, userAgentLine_set _ _ _ hf hk]
  have : len (headerLines (Header.Set r.Header key value))
      = len key + lineOverhead + len (headerValue value) + len (headerLines r.Header) := by
    rw [Header.Set, filter_ne_of_fresh _ _ hf, len_headerLines_cons,
      len_entryLines_single _ _ hk]
  rw [this]
  ring

/-! ## The keys `X-Pad`, `X-Pad1`, `X-Pad2`, ... -/

/-- Reading a decimal numeral back. -/
theorem foldl_toDigitsCore (fuel n : Nat) (ds : List Char) (h : n < fuel) :
    (Nat.toDigitsCore 10 fuel n ds).foldl (fun a c => 10 * a + (c.toNat - 48)) 0
      = ds.foldl (fun a c => 10 * a + (c.toNat - 48)) n := by
  induction fuel generalizing n ds with
  | zero => omega
  | succ fuel ih =>
    have hd : (Nat.digitChar (n % 10)).toNat - 48 = n % 10 := by
      have : n % 10 < 10 := Nat.mod_lt _ (by decide)
      interval_cases (n % 10) <;> decide
    unfold Nat.toDigitsCore
    by_cases h0 : n / 10 = 0
    · simp only [h0, if_true, List.foldl_cons, hd]
      congr 1
      omega
    · simp only [h0, if_false]
      rw [ih (n / 10) _ (by omega)]
      simp only [List.foldl_cons, hd]
      congr 1
      omega

theorem toDigits_injective {m n : Nat} (h : Nat.toDigits 10 m = Nat.toDigits 10 n) : m = n := by
  have hm := foldl_toDigitsCore (m + 1) m [] (by omega)
  have hn := foldl_toDigitsCore (n + 1) n [] (by omega)
  simp only [List.foldl_nil] at hm hn
  unfold Nat.toDigits at h
  rw [h] at hm
  omega

theorem toDigitsCore_ne_nil (fuel n : Nat) (ds : List Char) (h : n < fuel) :
    Nat.toDigitsCore 10 fuel n ds ≠ [] := by
  induction fuel generalizing n ds with
  | zero => omega
  | succ fuel ih =>
    unfold Nat.toDigitsCore
    by_cases h0 : n / 10 = 0
    · simp [h0]
    · simp only [h0, if_false]
      exact ih _ _ (by omega)

theorem padKey_succ_data (i : Nat) :
    (padKey (i + 1)).data = headerKey.data ++ Nat.toDigits 10 (i + 1) := by
  simp [padKey, sprintfSD, String.data_append, toString, Nat.repr, List.asString]

theorem padKey_injective {i j : Nat} (h : padKey i = padKey j) : i = j := by
  have hd : (padKey i).data = (padKey j).data := by rw [h]
  have hz : ∀ k : Nat, (padKey 0).data ≠ (padKey (k + 1)).data := by
    intro k hk
    rw [padKey_succ_data] at hk
    have hnil : Nat.toDigits 10 (k + 1) = [] :=
      List.append_right_eq_self.mp hk.symm
    exact toDigitsCore_ne_nil _ _ _ (by omega) hnil
  cases i with
  | zero =>
    cases j with
    | zero => rfl
    | succ j => exact absurd hd (hz j)
  | succ i =>
    cases j with
    | zero => exact absurd hd.symm (hz i)
    | succ j =>
      rw [padKey_succ_data, padKey_succ_data] at hd
      exact toDigits_injective (List.append_cancel_left hd)

theorem padKey_data_head (i : Nat) : (padKey i).data.head? = some 'X' := by
  cases i with
  | zero => rfl
  | succ i => rw [padKey_succ_data]; rfl

theorem padKey_not_excluded (i : Nat) : padKey i ∉ reqWriteExcludeHeader := by
  have ht := padKey_data_head i
  intro hmem
  simp only [reqWriteExcludeHeader, List.mem_cons, List.mem_singleton, List.mem_nil_iff,
    or_false] at hmem
  rcases hmem with h | h | h | h | h <;>
  · rw [h] at ht
    exact absurd ht (by decide)

theorem utf8Size_digitChar (d : Nat) (h : d < 10) : (Nat.digitChar d).utf8Size = 1 := by
  interval_cases d <;> decide

theorem utf8Size_toDigitsCore (fuel n : Nat) (ds : List Char)
    (hds : ∀ c ∈ ds, c.utf8Size = 1) :
    ∀ c ∈ Nat.toDigitsCore 10 fuel n ds, c.utf8Size = 1 := by
  induction fuel generalizing n ds with
  | zero => simpa [Nat.toDigitsCore] using hds
  | succ fuel ih =>
    have hd := utf8Size_digitChar (n % 10) (Nat.mod_lt _ (by decide))
    have hcons : ∀ c ∈ Nat.digitChar (n % 10) :: ds, c.utf8Size = 1 := by
      intro c hc
      rcases List.mem_cons.mp hc with h | h
      · rw [h]; exact hd
      · exact hds c h
    unfold Nat.toDigitsCore
    by_cases h0 : n / 10 = 0
    · simpa only [h0, if_true] using hcons
    · simp only [h0, if_false]
      exact ih _ _ hcons

theorem utf8Len_eq_length (l : List Char) (h : ∀ c ∈ l, c.utf8Size = 1) :
    String.utf8Len l = l.length := by
  induction l with
  | nil => rfl
  | cons c l ih =>
    rw [String.utf8Len_cons, ih (fun c hc => h c (List.mem_cons_of_mem _ hc)),
      h c (List.mem_cons_self _ _), List.length_cons]

theorem len_padKey_zero : len (padKey 0) = 5 := by decide

theorem len_padKey_succ (i : Nat) :
    len (padKey (i + 1)) = 5 + ((Nat.toDigits 10 (i + 1)).length : Int) := by
  have h5 : len headerKey = 5 := by decide
  have hrepr : len (toString (i + 1)) = ((Nat.toDigits 10 (i + 1)).length : Int) := by
    show ((String.utf8ByteSize ⟨Nat.toDigits 10 (i + 1)⟩ : Nat) : Int) = _
    rw [String.utf8ByteSize_mk, utf8Len_eq_length]
    exact utf8Size_toDigitsCore _ _ _ (by simp)
  simp only [padKey, sprintfSD, len_append, h5, hrepr]

theorem len_padKey_ge (i : Nat) : 5 ≤ len (padKey i) := by
  cases i with
  | zero => rw [len_padKey_zero]
  | succ i => rw [len_padKey_succ]; omega

theorem len_padKey_pos_ge (i : Nat) (h : 1 ≤ i) : 6 ≤ len (padKey i) := by
  cases i with
  | zero => omega
  | succ i =>
    rw [len_padKey_succ]
    have := List.length_pos.mpr (toDigitsCore_ne_nil (i + 1 + 1) (i + 1) [] (by omega))
    unfold Nat.toDigits
    omega

theorem keyOverhead_zero : keyOverhead 0 = 9 := by decide

theorem keyOverhead_one_digit (i : Nat) (h1 : 1 ≤ i) (h9 : i ≤ 9) : keyOverhead i = 10 := by
  interval_cases i <;> decide

theorem keyOverhead_ge (i : Nat) : 9 ≤ keyOverhead i := by
  have := len_padKey_ge i
  have := lineOverhead_eq
  unfold keyOverhead
  omega

/-! ## The loop of `padRequest`, one iteration at a time -/

theorem padSz_le (maxLine n1 : Int) (i : Nat) : padSz maxLine n1 i ≤ n1 := by
  have := keyOverhead_ge (i + 1)
  unfold padSz min
  split_ifs <;> omega

/-- The three ways `sz` is chosen, in terms of the room
`maxLine - headerOverhead` as the program computes it. -/
theorem padSz_room_cases (maxLine n1 : Int) (i : Nat) :
    (n1 ≤ intSub maxLine (keyOverhead i) ∧ padSz maxLine n1 i = n1) ∨
    (intSub maxLine (keyOverhead i) < n1 ∧
      intSub maxLine (keyOverhead i) < n1 - keyOverhead (i + 1) ∧
      padSz maxLine n1 i = intSub maxLine (keyOverhead i)) ∨
    (intSub maxLine (keyOverhead i) < n1 ∧
      n1 - keyOverhead (i + 1) ≤ intSub maxLine (keyOverhead i) ∧
      padSz maxLine n1 i = n1 - keyOverhead (i + 1)) := by
  unfold padSz min
  split_ifs <;> omega

/-- For a `maxLine` that is not negative the room is `maxLine - keyOverhead i`. -/
theorem intSub_maxLine_keyOverhead (maxLine : Int) (i : Nat) (h : 0 ≤ maxLine) :
    intSub maxLine (keyOverhead i) = maxLine - keyOverhead i := by
  have h9 := keyOverhead_ge i
  exact intSub_of_nonneg h (by omega)

theorem padSz_cases (maxLine n1 : Int) (i : Nat) (h : 0 ≤ maxLine) :
    (n1 ≤ maxLine - keyOverhead i ∧ padSz maxLine n1 i = n1) ∨
    (maxLine - keyOverhead i < n1 ∧ maxLine - keyOverhead i < n1 - keyOverhead (i + 1) ∧
      padSz maxLine n1 i = maxLine - keyOverhead i) ∨
    (maxLine - keyOverhead i < n1 ∧ n1 - keyOverhead (i + 1) ≤ maxLine - keyOverhead i ∧
      padSz maxLine n1 i = n1 - keyOverhead (i + 1)) := by
  have hroom := intSub_maxLine_keyOverhead maxLine i h
  have hc := padSz_room_cases maxLine n1 i
  rw [hroom] at hc
  exact hc

theorem padLoop_done (maxLine : Int) (r : Request) (sets : List (String × String))
    (n : Int) (key : String) (i : Nat) (h : n ≤ 0) :
    padLoop maxLine r sets n key i = { r := r, sets := sets, shortfall := none } := by
  rw [padLoop, if_neg (by omega)]

theorem padLoop_short (maxLine : Int) (r : Request) (sets : List (String × String))
    (n : Int) (i : Nat) (h : 0 < n) (hlt : n < keyOverhead i) :
    padLoop maxLine r sets n (padKey i) i
      = { r := r, sets := sets, shortfall := some (padKey i, keyOverhead i - n) } := by
  rw [padLoop, if_pos h]
  simp only []
  rw [if_pos (by unfold keyOverhead at hlt; omega)]
  simp [keyOverhead]

theorem padLoop_step (maxLine : Int) (r : Request) (sets : List (String × String))
    (n : Int) (i : Nat) (h : 0 < n) (hge : keyOverhead i ≤ n) :
    padLoop maxLine r sets n (padKey i) i
      = padLoop maxLine
          { r with Header := (Header.Set r.Header (padKey i)
              (stringsRepeat "x" (padSz maxLine (n - keyOverhead i) i).toNat)) }
          (sets ++ [(padKey i, stringsRepeat "x" (padSz maxLine (n - keyOverhead i) i).toNat)])
          (n - keyOverhead i - ((padSz maxLine (n - keyOverhead i) i).toNat : Int))
          (padKey (i + 1)) (i + 1) := by
  rw [padLoop, if_pos h]
  simp only []
  rw [if_neg (by unfold keyOverhead at hge; omega)]
  have hsz : (if n - (len (padKey i) + lineOverhead)
          > intSub maxLine (len (padKey i) + lineOverhead)
        then min (intSub maxLine (len (padKey i) + lineOverhead))
          (n - (len (padKey i) + lineOverhead) - (len (sprintfSD headerKey (i + 1)) + lineOverhead))
        else n - (len (padKey i) + lineOverhead))
      = padSz maxLine (n - keyOverhead i) i := rfl
  rw [hsz]
  by_cases hs : padSz maxLine (n - keyOverhead i) i ≤ 0
  · rw [if_pos hs]
    have h0 : (padSz maxLine (n - keyOverhead i) i).toNat = 0 := by omega
    rw [h0, stringsRepeat_zero]
    simp [keyOverhead, padKey]
  · rw [if_neg hs]
    have h0 : ((padSz maxLine (n - keyOverhead i) i).toNat : Int)
        = padSz maxLine (n - keyOverhead i) i := by omega
    rw [h0]
    simp [keyOverhead, padKey]

/-- Induction along the iterations of the loop of `padRequest`. -/
theorem padLoop_induct (maxLine : Int)
    (P : Request → List (String × String) → Int → Nat → PadResult → Prop)
    (done : ∀ r sets n i, n ≤ 0 → P r sets n i { r := r, sets := sets, shortfall := none })
    (short : ∀ r sets n i, 0 < n → n < keyOverhead i →
      P r sets n i { r := r, sets := sets, shortfall := some (padKey i, keyOverhead i - n) })
    (step : ∀ r sets n i res, 0 < n → keyOverhead i ≤ n →
      P { r with Header := (Header.Set r.Header (padKey i)
              (stringsRepeat "x" (padSz maxLine (n - keyOverhead i) i).toNat)) }
        (sets ++ [(padKey i, stringsRepeat "x" (padSz maxLine (n - keyOverhead i) i).toNat)])
        (n - keyOverhead i - ((padSz maxLine (n - keyOverhead i) i).toNat : Int))
        (i + 1) res →
      P r sets n i res)
    (r : Request) (sets : List (String × String)) (n : Int) (i : Nat) :
    P r sets n i (padLoop maxLine r sets n (padKey i) i) := by
  generalize hk : n.toNat = k
  induction k using Nat.strong_induction_on generalizing r sets n i with
  | _ k ih =>
    by_cases h : 0 < n
    · by_cases hge : keyOverhead i ≤ n
      · rw [padLoop_step maxLine r sets n i h hge]
        apply step r sets n i _ h hge
        have h9 := keyOverhead_ge i
        exact ih _ (by omega) _ _ _ _ rfl
      · rw [padLoop_short maxLine r sets n i h (by omega)]
        exact short r sets n i h (by omega)
    · rw [padLoop_done maxLine r sets n _ i (by omega)]
      exact done r sets n i (by omega)

/-! ## Accounting: the budget `n` is the distance to the target -/

theorem freshFrom_of_noPadHeader (r : Request) (h : NoPadHeader r) : FreshFrom 0 r :=
  fun j _ e he => h j e he

theorem freshFrom_set (i : Nat) (r : Request) (value : String) (h : FreshFrom i r) :
    FreshFrom (i + 1) { r with Header := Header.Set r.Header (padKey i) value } := by
  intro j hj e he
  simp only [Header.Set, List.mem_cons, List.mem_filter] at he
  rcases he with he | ⟨he, _⟩
  · rw [he]
    intro heq
    have := padKey_injective heq
    omega
  · exact h j (by omega) e he

theorem measure_set_padKey (i : Nat) (r : Request) (k : Nat) (h : FreshFrom i r) :
    measure { r with Header := Header.Set r.Header (padKey i) (stringsRepeat "x" k) }
      = measure r + keyOverhead i + k := by
  rw [measure_set r _ _ (h i (le_refl i)) (padKey_not_excluded i), headerValue_stringsRepeat_x,
    len_stringsRepeat_x]
  unfold keyOverhead
  ring

/-- Outcome of the loop in terms of sizes: either it ends without a warning and
the request has grown by exactly the budget `n`, or it stops at some key
`padKey k` with `d` bytes of the budget left, `0 < d < keyOverhead k`, and
reports `keyOverhead k - d`. -/
theorem padLoop_account (maxLine : Int) (r : Request) (sets : List (String × String))
    (n : Int) (i : Nat) :
    0 ≤ n → FreshFrom i r →
      ((padLoop maxLine r sets n (padKey i) i).shortfall = none ∧
        measure (padLoop maxLine r sets n (padKey i) i).r = measure r + n) ∨
      (∃ (k : Nat) (d : Int), i ≤ k ∧ 0 < d ∧ d < keyOverhead k ∧
        (padLoop maxLine r sets n (padKey i) i).shortfall
          = some (padKey k, keyOverhead k - d) ∧
        measure (padLoop maxLine r sets n (padKey i) i).r + d = measure r + n) := by
  refine padLoop_induct maxLine
    (fun r sets n i res => 0 ≤ n → FreshFrom i r →
      (res.shortfall = none ∧ measure res.r = measure r + n) ∨
      (∃ (k : Nat) (d : Int), i ≤ k ∧ 0 < d ∧ d < keyOverhead k ∧
        res.shortfall = some (padKey k, keyOverhead k - d) ∧
        measure res.r + d = measure r + n)) ?_ ?_ ?_ r sets n i
  · intro r sets n i hn h0 _
    left
    exact ⟨rfl, by simp only; omega⟩
  · intro r sets n i hpos hlt _ _
    right
    exact ⟨i, n, le_refl i, hpos, hlt, rfl, rfl⟩
  · intro r sets n i res hpos hge ih _ hfresh
    have hsz := padSz_le maxLine (n - keyOverhead i) i
    have hm := measure_set_padKey i r (padSz maxLine (n - keyOverhead i) i).toNat hfresh
    rcases ih (by omega) (freshFrom_set i r _ hfresh) with ⟨h1, h2⟩ | ⟨k, d, hk, hd0, hd1, h1, h2⟩
    · left
      exact ⟨h1, by rw [h2, hm]; ring⟩
    · right
      exact ⟨k, d, by omega, hd0, hd1, h1, by rw [h2, hm]; ring⟩

theorem padSz_toNat_le (maxLine n1 : Int) (i : Nat) (hko : keyOverhead i ≤ maxLine) :
    keyOverhead i + ((padSz maxLine n1 i).toNat : Int) ≤ maxLine := by
  have h9 := keyOverhead_ge i
  rcases padSz_cases maxLine n1 i (by omega) with h | h | h <;> omega

/-- The calls `Header.Set` of the loop, in order: the keys are `padKey i`,
`padKey (i+1)`, ..., and a field whose key overhead fits a line fits the line
together with its value. -/
theorem padLoop_sets_spec (maxLine : Int) (r : Request) (sets : List (String × String))
    (n : Int) (i : Nat) :
    ∃ tail : List (String × String),
      (padLoop maxLine r sets n (padKey i) i).sets = sets ++ tail ∧
      tail.map Prod.fst = (List.range' i tail.length).map padKey ∧
      ∀ e ∈ tail, len e.1 + lineOverhead ≤ maxLine →
        len e.1 + lineOverhead + len e.2 ≤ maxLine := by
  refine padLoop_induct maxLine
    (fun _ sets _ i res => ∃ tail : List (String × String),
      res.sets = sets ++ tail ∧
      tail.map Prod.fst = (List.range' i tail.length).map padKey ∧
      ∀ e ∈ tail, len e.1 + lineOverhead ≤ maxLine →
        len e.1 + lineOverhead + len e.2 ≤ maxLine) ?_ ?_ ?_ r sets n i
  · intro _ sets _ _ _
    exact ⟨[], by simp, by simp, by simp⟩
  · intro _ sets _ _ _ _
    exact ⟨[], by simp, by simp, by simp⟩
  · intro _ sets n i res hpos hge ⟨tail, h1, h2, h3⟩
    refine ⟨(padKey i, stringsRepeat "x" (padSz maxLine (n - keyOverhead i) i).toNat) :: tail,
      ?_, ?_, ?_⟩
    · rw [h1]
      simp
    · simp only [List.map_cons, List.length_cons, List.range'_succ, h2]
    · intro e he hfit
      rcases List.mem_cons.mp he with h | h
      · rw [h]
        simp only [len_stringsRepeat_x]
        rw [h] at hfit
        exact padSz_toNat_le maxLine _ i hfit
      · exact h3 e h hfit

theorem noPadHeader_testRequest : NoPadHeader testRequest :=
  fun _ _ he => absurd he (List.not_mem_nil _)

theorem measure_testRequest : measure testRequest = 67 := by decide

/-! ## The budget of `padRequest` -/

theorem measure_nonneg (r : Request) : 0 ≤ measure r := by
  rw [measure_eq_len_wire]
  exact len_nonneg _

theorem padRequest_loop (req : Request) (maxLine target : Int) :
    padRequest req maxLine target
      = padLoop maxLine req [] (intSub target (measure req)) (padKey 0) 0 := rfl

/-- For a target not below the base size the budget is `target - B`. -/
theorem padRequest_of_le (req : Request) (maxLine target : Int) (h : measure req ≤ target) :
    padRequest req maxLine target
      = padLoop maxLine req [] (target - measure req) (padKey 0) 0 := by
  rw [padRequest_loop, intSub_of_le (measure_nonneg req) h]

/-! ## Exactness -/

theorem keyOverhead_ten : keyOverhead 10 = 11 := by decide

/-- With `maxLine ≥ 20` the loop ends without a warning when it is entered at
a key `X-Pad .. X-Pad9` with a budget that fits the remaining one-digit keys,
and it sets no key beyond `X-Pad9`. -/
theorem padLoop_no_shortfall_small (maxLine : Int) (hml : 20 ≤ maxLine)
    (r : Request) (sets : List (String × String)) (n : Int) (i : Nat) :
    (n ≤ 0 ∨ (i ≤ 9 ∧ keyOverhead i ≤ n ∧ n ≤ ((10 : Int) - i) * maxLine)) →
      (padLoop maxLine r sets n (padKey i) i).shortfall = none ∧
        (padLoop maxLine r sets n (padKey i) i).sets.length ≤ sets.length + (10 - i) := by
  refine padLoop_induct maxLine
    (fun _ sets n i res =>
      (n ≤ 0 ∨ (i ≤ 9 ∧ keyOverhead i ≤ n ∧ n ≤ ((10 : Int) - i) * maxLine)) →
        res.shortfall = none ∧ res.sets.length ≤ sets.length + (10 - i)) ?_ ?_ ?_ r sets n i
  · intro _ _ _ _ _ _
    exact ⟨rfl, by simp⟩
  · intro _ _ n i hpos hlt hq
    rcases hq with h | ⟨_, h, _⟩ <;> omega
  · intro _ sets n i res hpos hge ih hq
    have hi9 : i ≤ 9 := by
      rcases hq with h | ⟨hi, _, _⟩
      · omega
      · exact hi
    have hlen : ∀ m : Nat, m ≤ (sets ++ [(padKey i,
        stringsRepeat "x" (padSz maxLine (n - keyOverhead i) i).toNat)]).length + (10 - (i + 1)) →
        m ≤ sets.length + (10 - i) := by
      intro m hm
      rw [List.length_append, List.length_singleton] at hm
      omega
    suffices hpre : (n - keyOverhead i - ((padSz maxLine (n - keyOverhead i) i).toNat : Int) ≤ 0 ∨
        (i + 1 ≤ 9 ∧ keyOverhead (i + 1)
            ≤ n - keyOverhead i - ((padSz maxLine (n - keyOverhead i) i).toNat : Int) ∧
          n - keyOverhead i - ((padSz maxLine (n - keyOverhead i) i).toNat : Int)
            ≤ ((10 : Int) - ((i + 1 : Nat) : Int)) * maxLine)) from
      ⟨(ih hpre).1, hlen _ (ih hpre).2⟩
    rcases hq with h | ⟨hi, _, hle⟩
    · omega
    · have hmul : ((10 : Int) - ((i + 1 : Nat) : Int)) * maxLine
          = ((10 : Int) - i) * maxLine - maxLine := by
        push_cast
        ring
      rw [hmul]
      have hnn : i ≤ 8 → maxLine ≤ ((10 : Int) - i) * maxLine - maxLine := by
        intro h8
        rw [← hmul]
        exact le_mul_of_one_le_left (by omega) (by push_cast; omega)
      have hcases := padSz_cases maxLine (n - keyOverhead i) i (by omega)
      have hki : keyOverhead i = 9 ∨ keyOverhead i = 10 := by
        by_cases hi0 : i = 0
        · left; rw [hi0]; exact keyOverhead_zero
        · right; exact keyOverhead_one_digit i (by omega) hi
      by_cases hi9 : i = 9
      · subst hi9
        have hk := keyOverhead_one_digit 9 (by omega) (by omega)
        have h10 := keyOverhead_ten
        simp only [Nat.cast_ofNat] at hle
        omega
      · have hk' := keyOverhead_one_digit (i + 1) (by omega) (by omega)
        have := hnn (by omega)
        omega

/-- Exactness while the one-digit keys suffice: ten lines at most. -/
theorem padRequest_exact_ten_lines (req : Request) (maxLine target : Int)
    (hno : NoPadHeader req) (hml : minimumOverhead ≤ maxLine)
    (hlo : measure req + 9 ≤ target)
    (hhi : target ≤ measure req + 10 * maxLine) :
    measure (padRequest req maxLine target).r = target ∧
      (padRequest req maxLine target).shortfall = none := by
  have hmo := minimumOverhead_eq
  have hk0 := keyOverhead_zero
  have hsmall := padLoop_no_shortfall_small maxLine (by omega) req [] (target - measure req) 0
    (Or.inr ⟨by omega, by omega, by simp only [Nat.cast_zero, sub_zero]; omega⟩)
  have hreq := padRequest_of_le req maxLine target (by omega)
  have hnone : (padRequest req maxLine target).shortfall = none := by
    rw [hreq]
    exact hsmall.1
  refine ⟨?_, hnone⟩
  have hacc := padLoop_account maxLine req [] (target - measure req) 0 (by omega)
    (freshFrom_of_noPadHeader req hno)
  rw [hreq] at hnone ⊢
  rcases hacc with ⟨_, h2⟩ | ⟨k, d, _, _, _, h1, _⟩
  · rw [h2]
    ring
  · rw [hnone] at h1
    exact absurd h1 (by simp)

/-- C2: on the range the tests exercise, with no `X-Pad*` header in the base
request, `maxLine ≥ minimumOverhead` and a target between
`B + len("X-Pad: \r\n")` and `B + 10 * maxLine`, the padded request measures
exactly the target and no shortfall is signalled. -/
theorem padRequest_exact_tested_range (req : Request) (maxLine target : Int)
    (hno : NoPadHeader req) (hml : minimumOverhead ≤ maxLine)
    (hlo : measure req + len "X-Pad: \r\n" ≤ target)
    (hhi : target ≤ measure req + 10 * maxLine) :
    measure (padRequest req maxLine target).r = target ∧
      (padRequest req maxLine target).shortfall = none ∧
      (∀ e ∈ (padRequest req maxLine target).sets, ∃ j : Nat, j ≤ 9 ∧ e.1 = padKey j) := by
  have h9 : len "X-Pad: \r\n" = 9 := by decide
  have hmo := minimumOverhead_eq
  have hk0 := keyOverhead_zero
  have hsmall := padLoop_no_shortfall_small maxLine (by omega) req [] (target - measure req) 0
    (Or.inr ⟨by omega, by omega, by simp only [Nat.cast_zero, sub_zero]; omega⟩)
  have hreq := padRequest_of_le req maxLine target (by omega)
  have hnone : (padRequest req maxLine target).shortfall = none := by
    rw [hreq]
    exact hsmall.1
  refine ⟨?_, hnone, ?_⟩
  swap
  · obtain ⟨tail, ht1, ht2, _⟩ := padLoop_sets_spec maxLine req [] (target - measure req) 0
    have hsets : (padRequest req maxLine target).sets = tail := by
      rw [hreq, ht1]
      rfl
    have hlen : tail.length ≤ 10 := by
      have := hsmall.2
      rw [ht1] at this
      simpa using this
    intro e he
    rw [hsets] at he
    obtain ⟨j, hje⟩ := List.mem_iff_getElem?.mp he
    have hlt : j < tail.length := by
      by_contra hcon
      rw [List.getElem?_eq_none (by omega)] at hje
      exact absurd hje (by simp)
    refine ⟨j, by omega, ?_⟩
    have h1 : (tail.map Prod.fst)[j]? = some e.1 := by
      rw [List.getElem?_map, hje]
      rfl
    rw [ht2, List.getElem?_map, List.getElem?_range' _ _ hlt] at h1
    simp only [Option.map_some', Option.some.injEq] at h1
    rw [← h1]
    congr 1
    omega
  have hacc := padLoop_account maxLine req [] (target - measure req) 0 (by omega)
    (freshFrom_of_noPadHeader req hno)
  rw [hreq] at hnone ⊢
  rcases hacc with ⟨_, h2⟩ | ⟨k, d, _, _, _, h1, _⟩
  · rw [h2]
    ring
  · rw [hnone] at h1
    exact absurd h1 (by simp)

/-- Witness for C2: the request of the tests, `maxLine = 8192`, target `32895`
(the second concrete scenario of the specification). -/
theorem padRequest_exact_tested_range_witness :
    NoPadHeader testRequest ∧ minimumOverhead ≤ 8192 ∧
      measure testRequest + len "X-Pad: \r\n" ≤ 32895 ∧
      32895 ≤ measure testRequest + 10 * 8192 ∧
      measure (padRequest testRequest 8192 32895).r = 32895 ∧
      (padRequest testRequest 8192 32895).shortfall = none ∧
      (∀ e ∈ (padRequest testRequest 8192 32895).sets, ∃ j : Nat, j ≤ 9 ∧ e.1 = padKey j) :=
  ⟨noPadHeader_testRequest, by decide, by decide, by decide,
    padRequest_exact_tested_range testRequest 8192 32895 noPadHeader_testRequest
      (by decide) (by decide) (by decide)⟩

/-- C4: no silent undershoot.  For a base request without `X-Pad*` headers and
a target not below its size, `padRequest` either takes the warning branch or
returns a request of exactly the target size; in particular, for a target
strictly between `B` and `B + minimumOverhead`, a result whose size differs
from the target comes with the warning. -/
theorem padRequest_no_silent_undershoot (req : Request) (maxLine target : Int)
    (hno : NoPadHeader req) (hB : measure req ≤ target) :
    ((padRequest req maxLine target).shortfall ≠ none ∨
        measure (padRequest req maxLine target).r = target) ∧
      (measure req < target → target < measure req + minimumOverhead →
        measure (padRequest req maxLine target).r ≠ target →
        (padRequest req maxLine target).shortfall ≠ none) := by
  have hacc := padLoop_account maxLine req [] (target - measure req) 0 (by omega)
    (freshFrom_of_noPadHeader req hno)
  have hreq := padRequest_of_le req maxLine target hB
  have hmain : (padRequest req maxLine target).shortfall ≠ none ∨
      measure (padRequest req maxLine target).r = target := by
    rw [hreq]
    rcases hacc with ⟨_, h2⟩ | ⟨k, d, _, _, _, h1, _⟩
    · right
      rw [h2]
      ring
    · left
      intro hnone
      rw [hnone] at h1
      exact absurd h1 (by simp)
  refine ⟨hmain, ?_⟩
  intro _ _ hne
  rcases hmain with h | h
  · exact h
  · exact absurd h hne

/-- Witness for C4: a target five bytes above the size of the test request. -/
theorem padRequest_no_silent_undershoot_witness :
    NoPadHeader testRequest ∧ measure testRequest ≤ 72 ∧
      ((padRequest testRequest 20 72).shortfall ≠ none ∨
        measure (padRequest testRequest 20 72).r = 72) ∧
      (measure testRequest < 72 → 72 < measure testRequest + minimumOverhead →
        measure (padRequest testRequest 20 72).r ≠ 72 →
        (padRequest testRequest 20 72).shortfall ≠ none) :=
  ⟨noPadHeader_testRequest, by decide,
    padRequest_no_silent_undershoot testRequest 20 72 noPadHeader_testRequest (by decide)⟩

/-! ## Runs of full lines -/

/-- An iteration whose budget covers a full line and the overhead of the next
key fills the line: the value has `maxLine - keyOverhead i` bytes and the
budget drops by `maxLine`. -/
theorem padLoop_full_step (maxLine : Int) (r : Request) (sets : List (String × String))
    (n : Int) (i : Nat) (hko : keyOverhead i ≤ maxLine)
    (hn : maxLine + keyOverhead (i + 1) ≤ n) :
    padLoop maxLine r sets n (padKey i) i
      = padLoop maxLine
          { r with Header := (Header.Set r.Header (padKey i)
              (stringsRepeat "x" (maxLine - keyOverhead i).toNat)) }
          (sets ++ [(padKey i, stringsRepeat "x" (maxLine - keyOverhead i).toNat)])
          (n - maxLine) (padKey (i + 1)) (i + 1) := by
  have h9 := keyOverhead_ge i
  have h9' := keyOverhead_ge (i + 1)
  have hsz : padSz maxLine (n - keyOverhead i) i = maxLine - keyOverhead i := by
    rcases padSz_cases maxLine (n - keyOverhead i) i (by omega) with h | h | h <;> omega
  rw [padLoop_step maxLine r sets n i (by omega) (by omega), hsz]
  have hn' : n - keyOverhead i - ((maxLine - keyOverhead i).toNat : Int) = n - maxLine := by
    omega
  rw [hn']

theorem padLoop_full_steps (maxLine K : Int) (k : Nat) :
    ∀ (i : Nat) (r : Request) (sets : List (String × String)) (n : Int),
      (∀ j, i ≤ j → j < i + k → keyOverhead j ≤ maxLine ∧ keyOverhead (j + 1) ≤ K) →
      maxLine * k + K ≤ n →
      ∃ r1 sets1, padLoop maxLine r sets n (padKey i) i
        = padLoop maxLine r1 sets1 (n - maxLine * k) (padKey (i + k)) (i + k) := by
  induction k with
  | zero =>
    intro i r sets n _ _
    exact ⟨r, sets, by simp⟩
  | succ k ih =>
    intro i r sets n hkeys hn
    have hi := hkeys i (le_refl i) (by omega)
    have h9 := keyOverhead_ge i
    have hmk : 0 ≤ maxLine * (k : Int) := mul_nonneg (by omega) (by omega)
    have hcast : maxLine * ((k + 1 : Nat) : Int) = maxLine * k + maxLine := by
      push_cast
      ring
    rw [hcast] at hn
    rw [padLoop_full_step maxLine r sets n i hi.1 (by omega)]
    obtain ⟨r1, sets1, h⟩ := ih (i + 1) _ _ (n - maxLine)
      (fun j hj1 hj2 => hkeys j (by omega) (by omega)) (by omega)
    refine ⟨r1, sets1, ?_⟩
    rw [h, hcast]
    have e1 : i + 1 + k = i + (k + 1) := by omega
    have e2 : n - maxLine - maxLine * (k : Int) = n - (maxLine * k + maxLine) := by ring
    rw [e1, e2]

theorem padLoop_sets_mono (maxLine : Int) (r : Request) (sets : List (String × String))
    (n : Int) (i : Nat) :
    ∀ e ∈ sets, e ∈ (padLoop maxLine r sets n (padKey i) i).sets := by
  refine padLoop_induct maxLine (fun _ sets _ _ res => ∀ e ∈ sets, e ∈ res.sets)
    ?_ ?_ ?_ r sets n i
  · intro _ _ _ _ _ e he
    exact he
  · intro _ _ _ _ _ _ e he
    exact he
  · intro _ sets _ _ res _ _ ih e he
    exact ih e (List.mem_append_left _ he)

/-- The failing run behind C1: with `maxLine = 20` and a budget of 221 bytes,
ten full lines lead to key `X-Pad10` with 21 bytes left; the key takes 11, the
remaining 10 do not fit the overhead 11 of `X-Pad11`, and the loop stops 10
bytes short, reporting 1 missing byte. -/
theorem padLoop_maxLine20_budget221 (r : Request) (hf : FreshFrom 0 r) :
    (padLoop 20 r [] 221 (padKey 0) 0).shortfall = some (padKey 11, 1) ∧
      measure (padLoop 20 r [] 221 (padKey 0) 0).r = measure r + 211 := by
  have hshort : (padLoop 20 r [] 221 (padKey 0) 0).shortfall = some (padKey 11, 1) := by
    obtain ⟨r1, sets1, h⟩ := padLoop_full_steps 20 11 10 0 r [] 221
      (fun j _ hj => by
        have hj' : j ≤ 9 := by omega
        interval_cases j <;> exact ⟨by decide, by decide⟩)
      (by norm_num)
    rw [h]
    have h10 : keyOverhead 10 = 11 := by decide
    have h11 : keyOverhead 11 = 11 := by decide
    have hsz : padSz 20 10 10 = -1 := by decide
    norm_num
    rw [padLoop_step 20 r1 sets1 21 10 (by norm_num) (by rw [h10]; norm_num)]
    rw [h10, show (21 : Int) - 11 = 10 by norm_num, hsz]
    norm_num
    rw [padLoop_short 20 _ _ 10 11 (by norm_num) (by rw [h11]; norm_num), h11]
    norm_num
  refine ⟨hshort, ?_⟩
  rcases padLoop_account 20 r [] 221 0 (by norm_num) hf with ⟨h1, _⟩ | ⟨k, d, _, _, _, h1, h2⟩
  · rw [hshort] at h1
    exact absurd h1 (by simp)
  · rw [hshort] at h1
    have hk : padKey 11 = padKey k := by
      have := Option.some.inj h1
      exact congrArg Prod.fst this
    have hd : (1 : Int) = keyOverhead k - d := by
      have := Option.some.inj h1
      exact congrArg Prod.snd this
    have hk11 := padKey_injective hk
    subst hk11
    have h11 : keyOverhead 11 = 11 := by decide
    omega

/-- C1 at a failing input: the request of the tests (67 bytes), `maxLine = 20`
(the least value `main` accepts) and target `288 = 67 + 221 ≥ 67 + minimumOverhead`.
The padded request measures 278 bytes, ten short of the target, and the
warning reports `X-Pad11` with 1 missing byte. -/
theorem padRequest_undershoots_at_maxLine_20 :
    minimumOverhead ≤ 20 ∧ measure testRequest + minimumOverhead ≤ 288 ∧
      measure (padRequest testRequest 20 288).r = 278 ∧
      (padRequest testRequest 20 288).shortfall = some ("X-Pad11", 1) := by
  have h := padLoop_maxLine20_budget221 testRequest
    (freshFrom_of_noPadHeader _ noPadHeader_testRequest)
  have hB := measure_testRequest
  have hreq : padRequest testRequest 20 288 = padLoop 20 testRequest [] 221 (padKey 0) 0 := by
    unfold padRequest
    rw [hB]
    rfl
  rw [hreq]
  refine ⟨by decide, by decide, ?_, ?_⟩
  · rw [h.2, hB]
    rfl
  · rw [h.1]
    rfl

/-! ## The fields `padRequest` sets -/

/-- The request only grows along the loop. -/
theorem padLoop_measure_mono (maxLine : Int) (r : Request) (sets : List (String × String))
    (n : Int) (i : Nat) :
    FreshFrom i r → measure r ≤ measure (padLoop maxLine r sets n (padKey i) i).r := by
  refine padLoop_induct maxLine
    (fun r _ _ i res => FreshFrom i r → measure r ≤ measure res.r) ?_ ?_ ?_ r sets n i
  · intro _ _ _ _ _ _
    exact le_refl _
  · intro _ _ _ _ _ _ _
    exact le_refl _
  · intro r _ n i res _ _ ih hfresh
    have hm := measure_set_padKey i r (padSz maxLine (n - keyOverhead i) i).toNat hfresh
    have h9 := keyOverhead_ge i
    have := ih (freshFrom_set i r _ hfresh)
    omega

/-- The run of `padRequest` on the request of the tests (67 bytes) with
`maxLine = 8192` and the target `MinInt64`: the budget `maxSize - cw.Count()`
wraps around to `2 ^ 63 - 67`, the loop is entered, and its first iteration
sets `X-Pad` to 8183 times `x` and goes on with the key `X-Pad1`. -/
theorem padRequest_testRequest_MinInt64 :
    intSub MinInt64 (measure testRequest) = 9223372036854775741 ∧
      ∃ r1 : Request,
        r1 = { testRequest with
               Header := (Header.Set testRequest.Header "X-Pad" (stringsRepeat "x" 8183)) } ∧
        measure r1 = measure testRequest + 8192 ∧ FreshFrom 1 r1 ∧
        padRequest testRequest 8192 MinInt64
          = padLoop 8192 r1 [("X-Pad", stringsRepeat "x" 8183)] 9223372036854767549
              (padKey 1) 1 := by
  have hB := measure_testRequest
  have hn : intSub MinInt64 (measure testRequest) = 9223372036854775741 := by
    rw [hB]
    decide
  have hk0 := keyOverhead_zero
  have hk1 : keyOverhead (0 + 1) = 10 := keyOverhead_one_digit 1 (by decide) (by decide)
  have hsz : padSz 8192 (9223372036854775741 - keyOverhead 0) 0 = 8183 := by
    rcases padSz_cases 8192 (9223372036854775741 - keyOverhead 0) 0 (by decide)
      with h | h | h <;> omega
  have hfresh := freshFrom_of_noPadHeader _ noPadHeader_testRequest
  refine ⟨hn, _, rfl, ?_, freshFrom_set 0 testRequest _ hfresh, ?_⟩
  · have hset := measure_set_padKey 0 testRequest 8183 hfresh
    rw [hk0] at hset
    rw [show ("X-Pad" : String) = padKey 0 from rfl, hset]
    push_cast
    ring
  · rw [padRequest_loop, hn,
      padLoop_step 8192 testRequest [] 9223372036854775741 0 (by decide) (by rw [hk0]; decide),
      hsz, hk0]
    rfl

/-- C14 at a failing input: the request of the tests (67 bytes),
`maxLine = 8192` and the target `MinInt64 = -9223372036854775808`, which is
below the base size.  The budget wraps around to `2 ^ 63 - 67`, so the loop is
entered: the field `X-Pad` is set to 8183 times `x`, the returned request is
not the base request, and it measures at least `67 + 8192` bytes. -/
theorem padRequest_pads_below_base :
    MinInt64 ≤ measure testRequest ∧
      intSub MinInt64 (measure testRequest) = 9223372036854775741 ∧
      ("X-Pad", stringsRepeat "x" 8183) ∈ (padRequest testRequest 8192 MinInt64).sets ∧
      (padRequest testRequest 8192 MinInt64).sets ≠ [] ∧
      measure testRequest + 8192 ≤ measure (padRequest testRequest 8192 MinInt64).r ∧
      (padRequest testRequest 8192 MinInt64).r ≠ testRequest := by
  obtain ⟨hn, r1, _, hm1, hfresh, hrun⟩ := padRequest_testRequest_MinInt64
  have hB := measure_testRequest
  have hmem : ("X-Pad", stringsRepeat "x" 8183) ∈ (padRequest testRequest 8192 MinInt64).sets := by
    rw [hrun]
    exact padLoop_sets_mono 8192 _ _ _ 1 _ (List.mem_singleton_self _)
  have hsize : measure testRequest + 8192 ≤ measure (padRequest testRequest 8192 MinInt64).r := by
    rw [hrun]
    have hmono := padLoop_measure_mono 8192 r1 [("X-Pad", stringsRepeat "x" 8183)]
      9223372036854767549 1 hfresh
    omega
  refine ⟨by rw [hB]; decide, hn, hmem, ?_, hsize, ?_⟩
  · intro hnil
    rw [hnil] at hmem
    exact absurd hmem (List.not_mem_nil _)
  · intro hr
    rw [hr] at hsize
    omega

/-! ## A single field -/

/-- C12: single-field padding.  For a base request without `X-Pad*` headers of
size `B` and a target between `B + 9` and `B + maxLine`, `padRequest` sets
exactly one field, `X-Pad`, whose value is `target - B - 9` times `x`; the
result is the base request with that one header set, it measures exactly the
target, and no warning is logged. -/
theorem padRequest_single_field (req : Request) (maxLine target : Int)
    (hno : NoPadHeader req) (hlo : measure req + 9 ≤ target)
    (hhi : target ≤ measure req + maxLine) :
    (padRequest req maxLine target).sets
        = [("X-Pad", stringsRepeat "x" (target - measure req - 9).toNat)] ∧
      len (stringsRepeat "x" (target - measure req - 9).toNat) = target - measure req - 9 ∧
      (padRequest req maxLine target).r
        = { req with Header := (Header.Set req.Header "X-Pad"
              (stringsRepeat "x" (target - measure req - 9).toNat)) } ∧
      measure (padRequest req maxLine target).r = target ∧
      (padRequest req maxLine target).shortfall = none := by
  have hk0 := keyOverhead_zero
  have hsz : padSz maxLine (target - measure req - keyOverhead 0) 0
      = target - measure req - 9 := by
    rcases padSz_cases maxLine (target - measure req - keyOverhead 0) 0 (by omega)
      with h | h | h <;> omega
  have hres : padRequest req maxLine target
      = { r := { req with Header := (Header.Set req.Header (padKey 0)
                  (stringsRepeat "x" (target - measure req - 9).toNat)) },
          sets := [(padKey 0, stringsRepeat "x" (target - measure req - 9).toNat)],
          shortfall := none } := by
    rw [padRequest_of_le req maxLine target (by omega),
      padLoop_step maxLine req [] (target - measure req) 0 (by omega) (by omega), hsz]
    rw [padLoop_done maxLine _ _ _ _ _ (by omega)]
    rfl
  have hlen := len_stringsRepeat_x (target - measure req - 9).toNat
  have hm := measure_set_padKey 0 req (target - measure req - 9).toNat
    (freshFrom_of_noPadHeader req hno)
  rw [hres]
  refine ⟨rfl, by rw [hlen]; omega, rfl, ?_, rfl⟩
  show measure { req with Header := (Header.Set req.Header (padKey 0)
    (stringsRepeat "x" (target - measure req - 9).toNat)) } = target
  rw [hm]
  omega

set_option maxRecDepth 4000 in
theorem measure_scenarioRequest : measure scenarioRequest = 120 := by
  decide

/-- Witness for C12, the first concrete scenario of the specification: a base
request of 120 bytes, `maxLine = 4096`, target 130; one field `X-Pad: x`. -/
theorem padRequest_single_field_witness :
    NoPadHeader scenarioRequest ∧ measure scenarioRequest = 120 ∧
      (padRequest scenarioRequest 4096 130).sets = [("X-Pad", "x")] ∧
      measure (padRequest scenarioRequest 4096 130).r = 130 ∧
      (padRequest scenarioRequest 4096 130).shortfall = none := by
  have hno : NoPadHeader scenarioRequest := fun _ _ he => absurd he (List.not_mem_nil _)
  have hB := measure_scenarioRequest
  have h := padRequest_single_field scenarioRequest 4096 130 hno (by rw [hB]; decide)
    (by rw [hB]; decide)
  have hv : stringsRepeat "x" ((130 : Int) - measure scenarioRequest - 9).toNat = "x" := by
    rw [hB]
    decide
  rw [hv] at h
  exact ⟨hno, hB, h.1, h.2.2.2.1, h.2.2.2.2⟩

/-! ## The names of the fields -/

/-- C13: synthetic field naming.  For every input the keys `padRequest` sets
are, in order, `padKey 0, ..., padKey (k - 1)` with `k` the number of fields
set: the bare prefix `X-Pad` first, then `X-Pad` followed by the decimal
numerals 1, 2, ... without gaps; the keys are pairwise distinct, so each is
set exactly once. -/
theorem padRequest_field_names (req : Request) (maxLine target : Int) :
    (padRequest req maxLine target).sets.map Prod.fst
        = (List.range (padRequest req maxLine target).sets.length).map padKey ∧
      ((padRequest req maxLine target).sets.map Prod.fst).Nodup ∧
      (∀ key : String, key ∈ (padRequest req maxLine target).sets.map Prod.fst ↔
        ∃ j : Nat, j < (padRequest req maxLine target).sets.length ∧ key = padKey j) ∧
      (∀ j : Nat, j < (padRequest req maxLine target).sets.length →
        ((padRequest req maxLine target).sets.map Prod.fst).count (padKey j) = 1) ∧
      padKey 0 = "X-Pad" ∧
      (∀ i : Nat, padKey (i + 1) = "X-Pad" ++ toString (i + 1)) := by
  obtain ⟨tail, ht1, ht2, _⟩ :=
    padLoop_sets_spec maxLine req [] (intSub target (measure req)) 0
  have hsets : (padRequest req maxLine target).sets = tail := by
    rw [padRequest_loop, ht1]
    rfl
  have hkeys : tail.map Prod.fst = (List.range tail.length).map padKey := by
    rw [ht2, List.range_eq_range']
  have hinj : Function.Injective padKey := fun _ _ h => padKey_injective h
  have hnodup : (tail.map Prod.fst).Nodup := by
    rw [hkeys]
    exact List.Nodup.map hinj (List.nodup_range _)
  rw [hsets]
  refine ⟨hkeys, hnodup, ?_, ?_, rfl, fun _ => rfl⟩
  · intro key
    rw [hkeys, List.mem_map]
    constructor
    · rintro ⟨j, hj, rfl⟩
      exact ⟨j, List.mem_range.mp hj, rfl⟩
    · rintro ⟨j, hj, rfl⟩
      exact ⟨j, List.mem_range.mpr hj, rfl⟩
  · intro j hj
    apply List.count_eq_one_of_mem hnodup
    rw [hkeys]
    exact List.mem_map.mpr ⟨j, List.mem_range.mpr hj, rfl⟩

/-! ## The shortfall -/

/-- A target less than one key overhead above the base size: nothing is added
and the warning branch is taken. -/
theorem padRequest_gap (req : Request) (maxLine target : Int) (h1 : measure req < target)
    (h2 : target < measure req + 9) :
    padRequest req maxLine target
      = { r := req, sets := [], shortfall := some (padKey 0, 9 - (target - measure req)) } := by
  have hk := keyOverhead_zero
  rw [padRequest_of_le req maxLine target (by omega),
    padLoop_short maxLine req [] (target - measure req) 0 (by omega) (by omega), hk]

/-- C15 as amended: when `padRequest` stops on a shortfall at key `key`, for a
base request without `X-Pad*` headers and a target `≥ B`, the number it
reports is the number of bytes by which the remaining budget falls short of
the overhead `len(key) + len(": \r\n")` of that key; the byte deficit of the
result, target minus its serialized size, is that overhead minus the
reported number. -/
theorem padRequest_shortfall_report (req : Request) (maxLine target : Int) (key : String)
    (missing : Int) (hno : NoPadHeader req) (hB : measure req ≤ target)
    (hs : (padRequest req maxLine target).shortfall = some (key, missing)) :
    target - measure (padRequest req maxLine target).r = len key + len ": \r\n" - missing ∧
      missing = len key + len ": \r\n" - (target - measure (padRequest req maxLine target).r) ∧
      0 < missing ∧ missing < len key + len ": \r\n" ∧
      ∃ k : Nat, key = padKey k := by
  have hacc := padLoop_account maxLine req [] (target - measure req) 0 (by omega)
    (freshFrom_of_noPadHeader req hno)
  have hlo : lineOverhead = len ": \r\n" := rfl
  have hreq := padRequest_of_le req maxLine target hB
  rw [hreq] at hs ⊢
  rcases hacc with ⟨h1, _⟩ | ⟨k, d, _, hd0, hd1, h1, h2⟩
  · rw [h1] at hs
    exact absurd hs (by simp)
  · rw [h1] at hs
    have hpair := Option.some.inj hs
    have hkey : padKey k = key := congrArg Prod.fst hpair
    have hmis : keyOverhead k - d = missing := congrArg Prod.snd hpair
    have hko : keyOverhead k = len key + len ": \r\n" := by
      rw [← hkey, ← hlo]
      rfl
    refine ⟨by omega, by omega, by omega, by omega, k, hkey.symm⟩

/-- Witness for the amended C15: the test request (67 bytes) and target 70;
the warning names `X-Pad` and 6 missing bytes. -/
theorem padRequest_shortfall_report_witness :
    NoPadHeader testRequest ∧ measure testRequest ≤ 70 ∧
      (padRequest testRequest 8192 70).shortfall = some ("X-Pad", 6) ∧
      70 - measure (padRequest testRequest 8192 70).r = len "X-Pad" + len ": \r\n" - 6 := by
  have hB := measure_testRequest
  have hs : (padRequest testRequest 8192 70).shortfall = some ("X-Pad", 6) := by
    rw [padRequest_gap testRequest 8192 70 (by rw [hB]; decide) (by rw [hB]; decide), hB]
    rfl
  exact ⟨noPadHeader_testRequest, by decide, hs,
    (padRequest_shortfall_report testRequest 8192 70 "X-Pad" 6 noPadHeader_testRequest
      (by decide) hs).1⟩

/-- C15 fails as stated: for the test request (67 bytes) and target 70 the
loop stops on a shortfall, the result is 3 bytes short of the target, and the
warning reports 6 missing bytes. -/
theorem padRequest_reports_other_than_deficit :
    NoPadHeader testRequest ∧ measure testRequest ≤ 70 ∧
      (padRequest testRequest 8192 70).shortfall = some ("X-Pad", 6) ∧
      70 - measure (padRequest testRequest 8192 70).r = 3 := by
  have hB := measure_testRequest
  rw [padRequest_gap testRequest 8192 70 (by rw [hB]; decide) (by rw [hB]; decide), hB]
  exact ⟨noPadHeader_testRequest, by decide, rfl, by decide⟩

/-- C18: `padRequest` never overshoots, and undershoots by less than one field
overhead.  For a base request without `X-Pad*` headers and a target `≥ B` the
result measures at most the target, and when the loop stops on a shortfall at
key `key` the deficit `target - size` lies strictly between 0 and
`len(key) + 4`. -/
theorem padRequest_deficit_bounds (req : Request) (maxLine target : Int)
    (hno : NoPadHeader req) (hB : measure req ≤ target) :
    measure (padRequest req maxLine target).r ≤ target ∧
      ∀ (key : String) (missing : Int),
        (padRequest req maxLine target).shortfall = some (key, missing) →
        0 < target - measure (padRequest req maxLine target).r ∧
          target - measure (padRequest req maxLine target).r < len key + 4 := by
  have hacc := padLoop_account maxLine req [] (target - measure req) 0 (by omega)
    (freshFrom_of_noPadHeader req hno)
  have hlo := lineOverhead_eq
  rw [padRequest_of_le req maxLine target hB]
  rcases hacc with ⟨h1, h2⟩ | ⟨k, d, _, hd0, hd1, h1, h2⟩
  · refine ⟨by omega, ?_⟩
    intro key missing hs
    rw [h1] at hs
    exact absurd hs (by simp)
  · refine ⟨by omega, ?_⟩
    intro key missing hs
    rw [h1] at hs
    have hkey : padKey k = key := congrArg Prod.fst (Option.some.inj hs)
    have hko : keyOverhead k = len key + 4 := by
      rw [← hkey, ← hlo]
      rfl
    exact ⟨by omega, by omega⟩

/-- Witness for C18: the test request, `maxLine = 20` and target 288, where
the loop stops at `X-Pad11` ten bytes short. -/
theorem padRequest_deficit_bounds_witness :
    NoPadHeader testRequest ∧ measure testRequest ≤ 288 ∧
      measure (padRequest testRequest 20 288).r ≤ 288 ∧
      ∀ (key : String) (missing : Int),
        (padRequest testRequest 20 288).shortfall = some (key, missing) →
        0 < 288 - measure (padRequest testRequest 20 288).r ∧
          288 - measure (padRequest testRequest 20 288).r < len key + 4 :=
  ⟨noPadHeader_testRequest, by decide,
    padRequest_deficit_bounds testRequest 20 288 noPadHeader_testRequest (by decide)⟩

/-! ## Termination of the padding loop -/

/-- The iterations of the loop are bounded by the budget: each one that sets a
field uses up at least 9 bytes, and the one that ends with the warning starts
with a positive budget. -/
theorem padLoop_iterations (maxLine : Int) (r : Request) (sets : List (String × String))
    (n : Int) (i : Nat) :
    padIterations (padLoop maxLine r sets n (padKey i) i)
      ≤ sets.length + (n.toNat + 8) / 9 := by
  refine padLoop_induct maxLine
    (fun _ sets n _ res => padIterations res ≤ sets.length + (n.toNat + 8) / 9)
    ?_ ?_ ?_ r sets n i
  · intro _ sets n _ _
    simp [padIterations]
  · intro _ sets n i hpos _
    simp only [padIterations, Option.isSome_some, if_true]
    omega
  · intro _ sets n i res hpos hge ih
    have h9 := keyOverhead_ge i
    have hsz := padSz_le maxLine (n - keyOverhead i) i
    rw [List.length_append, List.length_singleton] at ih
    omega

theorem sets_length_le_padIterations (res : PadResult) :
    res.sets.length ≤ padIterations res := by
  unfold padIterations
  omega

/-- When `target - B` is a value of `int`, the body of the loop of `padRequest`
is entered at most `⌈(target - B) / 9⌉` times, which is never for a target at
or below the base size, whatever `maxLine` is. -/
theorem padRequest_iterations_in_range (req : Request) (maxLine target : Int)
    (h : InRange (target - measure req)) :
    padIterations (padRequest req maxLine target)
      ≤ ((target - measure req).toNat + 8) / 9 := by
  rw [padRequest_loop, intSub_eq_sub (fun _ _ => h)]
  have hb := padLoop_iterations maxLine req [] (target - measure req) 0
  simpa using hb

/-- C20 at a failing input: the request of the tests (67 bytes),
`maxLine = 8192` and the target `MinInt64 = -9223372036854775808`.  The
difference `target - B` is negative, so `⌈(target - B) / 9⌉` allows no
iteration; the budget of the program is `2 ^ 63 - 67`, the body of the loop is
entered and a field is set. -/
theorem padRequest_iterates_below_base :
    MinInt64 - measure testRequest < 0 ∧
      ((MinInt64 - measure testRequest).toNat + 8) / 9 = 0 ∧
      intSub MinInt64 (measure testRequest) = 9223372036854775741 ∧
      1 ≤ (padRequest testRequest 8192 MinInt64).sets.length ∧
      1 ≤ padIterations (padRequest testRequest 8192 MinInt64) := by
  obtain ⟨hn, r1, _, _, _, hrun⟩ := padRequest_testRequest_MinInt64
  have hB := measure_testRequest
  have hmem : ("X-Pad", stringsRepeat "x" 8183) ∈ (padRequest testRequest 8192 MinInt64).sets := by
    rw [hrun]
    exact padLoop_sets_mono 8192 _ _ _ 1 _ (List.mem_singleton_self _)
  have hlen : 1 ≤ (padRequest testRequest 8192 MinInt64).sets.length :=
    List.length_pos_of_mem hmem
  exact ⟨by rw [hB]; unfold MinInt64; omega, by rw [hB]; unfold MinInt64; omega, hn, hlen,
    le_trans hlen (sets_length_le_padIterations _)⟩

/-! ## Measuring with a CountingWriter -/

theorem tdiv_two_bounds (a b : Int) (h : a ≤ b) :
    a ≤ (a + b).tdiv 2 ∧ (a + b).tdiv 2 ≤ b := by
  rcases le_or_lt 0 (a + b) with h0 | h0
  · rw [Int.tdiv_eq_ediv h0 (by decide)]
    omega
  · have e : (a + b).tdiv 2 = -((-(a + b)) / 2) := by
      rw [← Int.tdiv_eq_ediv (by omega) (by decide), Int.neg_tdiv, neg_neg]
    rw [e]
    omega

/-- The trial size halves the interval: at most half of the candidates remain
on either side of it. -/
theorem tdiv_two_halves (a b : Int) :
    b - (a + b).tdiv 2 ≤ (b - a + 1) / 2 ∧ (a + b).tdiv 2 - a ≤ (b - a + 1) / 2 := by
  rcases le_or_lt 0 (a + b) with h0 | h0
  · rw [Int.tdiv_eq_ediv h0 (by decide)]
    omega
  · have e : (a + b).tdiv 2 = -((-(a + b)) / 2) := by
      rw [← Int.tdiv_eq_ediv (by omega) (by decide), Int.neg_tdiv, neg_neg]
    rw [e]
    omega

/-- While twice either bound of the interval is a value of `int`, the sum
`minSize + maxSize` does not wrap around. -/
theorem mid_eq (st : DetectState) (h : st.minSize ≤ st.maxSize)
    (hlo : MinInt64 ≤ 2 * st.minSize) (hhi : 2 * st.maxSize ≤ MaxInt64) :
    st.mid = (st.minSize + st.maxSize).tdiv 2 := by
  unfold DetectState.mid
  rw [intAdd_eq_add]
  intro _ _
  unfold InRange
  omega

theorem mid_bounds (st : DetectState) (h : st.minSize ≤ st.maxSize)
    (hlo : MinInt64 ≤ 2 * st.minSize) (hhi : 2 * st.maxSize ≤ MaxInt64) :
    st.minSize ≤ st.mid ∧ st.mid ≤ st.maxSize := by
  rw [mid_eq st h hlo hhi]
  exact tdiv_two_bounds _ _ h

theorem mid_halves (st : DetectState) (h : st.minSize ≤ st.maxSize)
    (hlo : MinInt64 ≤ 2 * st.minSize) (hhi : 2 * st.maxSize ≤ MaxInt64) :
    st.maxSize - st.mid ≤ (st.maxSize - st.minSize + 1) / 2 ∧
      st.mid - st.minSize ≤ (st.maxSize - st.minSize + 1) / 2 := by
  rw [mid_eq st h hlo hhi]
  exact tdiv_two_halves _ _

theorem detectLoop_out (req : Request) (maxLine refStatus codeOk codeBad : Int)
    (Do : Transport) (st : DetectState) (h : st.minSize ≤ st.maxSize) :
    detectLoop req maxLine refStatus codeOk codeBad Do 0 st
      = { final := st, fatal := none, running := true } := by
  rw [detectLoop, decide_eq_true h]

theorem detectLoop_done (req : Request) (maxLine refStatus codeOk codeBad : Int)
    (Do : Transport) (fuel : Nat) (st : DetectState) (h : ¬ st.minSize ≤ st.maxSize) :
    detectLoop req maxLine refStatus codeOk codeBad Do fuel st
      = { final := st, fatal := none, running := false } := by
  cases fuel with
  | zero => rw [detectLoop, decide_eq_false h]
  | succ fuel => rw [detectLoop, if_neg h]

theorem detectLoop_transport (req : Request) (maxLine refStatus codeOk codeBad : Int)
    (Do : Transport) (fuel : Nat) (st : DetectState) (err : String)
    (h : st.minSize ≤ st.maxSize)
    (hdo : Do st.probes.length (padRequest req maxLine st.mid).r = Except.error err) :
    detectLoop req maxLine refStatus codeOk codeBad Do (fuel + 1) st
      = { final := st, fatal := some (Fatal.transport err), running := false } := by
  rw [detectLoop, if_pos h]
  simp only []
  unfold DetectState.mid at hdo
  rw [hdo]

theorem detectLoop_fatal (req : Request) (maxLine refStatus codeOk codeBad : Int)
    (Do : Transport) (fuel : Nat) (st st1 : DetectState) (status : Int) (f : Fatal)
    (h : st.minSize ≤ st.maxSize)
    (hdo : Do st.probes.length (padRequest req maxLine st.mid).r = Except.ok status)
    (hstep : trialStep refStatus codeOk codeBad st st.mid (padRequest req maxLine st.mid) status
      = (st1, some f)) :
    detectLoop req maxLine refStatus codeOk codeBad Do (fuel + 1) st
      = { final := st1, fatal := some f, running := false } := by
  rw [detectLoop, if_pos h]
  simp only []
  unfold DetectState.mid at hdo hstep
  rw [hdo]
  simp only []
  rw [hstep]

theorem detectLoop_next (req : Request) (maxLine refStatus codeOk codeBad : Int)
    (Do : Transport) (fuel : Nat) (st st1 : DetectState) (status : Int)
    (h : st.minSize ≤ st.maxSize)
    (hdo : Do st.probes.length (padRequest req maxLine st.mid).r = Except.ok status)
    (hstep : trialStep refStatus codeOk codeBad st st.mid (padRequest req maxLine st.mid) status
      = (st1, none)) :
    detectLoop req maxLine refStatus codeOk codeBad Do (fuel + 1) st
      = detectLoop req maxLine refStatus codeOk codeBad Do fuel st1 := by
  rw [detectLoop, if_pos h]
  simp only []
  unfold DetectState.mid at hdo hstep
  rw [hdo]
  simp only []
  rw [hstep]

/-- Induction along the trials of the detection loop. -/
theorem detectLoop_induct (req : Request) (maxLine refStatus codeOk codeBad : Int)
    (Do : Transport) (P : Nat → DetectState → Run → Prop)
    (out : ∀ st, st.minSize ≤ st.maxSize →
      P 0 st { final := st, fatal := none, running := true })
    (done : ∀ fuel st, ¬ st.minSize ≤ st.maxSize →
      P fuel st { final := st, fatal := none, running := false })
    (transport : ∀ fuel st err, st.minSize ≤ st.maxSize →
      Do st.probes.length (padRequest req maxLine st.mid).r = Except.error err →
      P (fuel + 1) st { final := st, fatal := some (Fatal.transport err), running := false })
    (fatal : ∀ fuel st st1 status f, st.minSize ≤ st.maxSize →
      Do st.probes.length (padRequest req maxLine st.mid).r = Except.ok status →
      trialStep refStatus codeOk codeBad st st.mid (padRequest req maxLine st.mid) status
        = (st1, some f) →
      P (fuel + 1) st { final := st1, fatal := some f, running := false })
    (next : ∀ fuel st st1 status run, st.minSize ≤ st.maxSize →
      Do st.probes.length (padRequest req maxLine st.mid).r = Except.ok status →
      trialStep refStatus codeOk codeBad st st.mid (padRequest req maxLine st.mid) status
        = (st1, none) →
      P fuel st1 run → P (fuel + 1) st run)
    (fuel : Nat) (st : DetectState) :
    P fuel st (detectLoop req maxLine refStatus codeOk codeBad Do fuel st) := by
  induction fuel generalizing st with
  | zero =>
    by_cases h : st.minSize ≤ st.maxSize
    · rw [detectLoop_out req maxLine refStatus codeOk codeBad Do st h]
      exact out st h
    · rw [detectLoop_done req maxLine refStatus codeOk codeBad Do 0 st h]
      exact done 0 st h
  | succ fuel ih =>
    by_cases h : st.minSize ≤ st.maxSize
    · cases hdo : Do st.probes.length (padRequest req maxLine st.mid).r with
      | error err =>
        rw [detectLoop_transport req maxLine refStatus codeOk codeBad Do fuel st err h hdo]
        exact transport fuel st err h hdo
      | ok status =>
        cases hstep : trialStep refStatus codeOk codeBad st st.mid
            (padRequest req maxLine st.mid) status with
        | mk st1 f =>
          cases f with
          | some f =>
            rw [detectLoop_fatal req maxLine refStatus codeOk codeBad Do fuel st st1 status f h
              hdo hstep]
            exact fatal fuel st st1 status f h hdo hstep
          | none =>
            rw [detectLoop_next req maxLine refStatus codeOk codeBad Do fuel st st1 status h hdo
              hstep]
            exact next fuel st st1 status _ h hdo hstep (ih st1)
    · rw [detectLoop_done req maxLine refStatus codeOk codeBad Do (fuel + 1) st h]
      exact done (fuel + 1) st h

/-! ## The cases of the `switch` -/

theorem trialStep_accepted (refStatus codeOk codeBad : Int) (st : DetectState) (midSize : Int)
    (r : PadResult) (status : Int)
    (h : classify status refStatus codeOk codeBad = Outcome.Accepted) :
    trialStep refStatus codeOk codeBad st midSize r status
      = ({ st with minSize := midSize + 1, detectedSize := midSize, successResponse := status,
                   probes := st.probes ++ [{ size := midSize, pad := r, status := status }] },
          none) := by
  simp only [trialStep, h]

theorem trialStep_rejected (refStatus codeOk codeBad : Int) (st : DetectState) (midSize : Int)
    (r : PadResult) (status : Int)
    (h : classify status refStatus codeOk codeBad = Outcome.Rejected) :
    trialStep refStatus codeOk codeBad st midSize r status
      = ({ st with maxSize := midSize - 1, badResponse := some status,
                   probes := st.probes ++ [{ size := midSize, pad := r, status := status }] },
          none) := by
  simp only [trialStep, h]

theorem trialStep_transient (refStatus codeOk codeBad : Int) (st : DetectState) (midSize : Int)
    (r : PadResult) (status : Int)
    (h : classify status refStatus codeOk codeBad = Outcome.TransientError) :
    trialStep refStatus codeOk codeBad st midSize r status
      = ({ st with errorCount := st.errorCount + 1,
                   probes := st.probes ++ [{ size := midSize, pad := r, status := status }] },
          if st.errorCount + 1 > 5 then
            some (Fatal.tooManyFailures midSize st.minSize st.maxSize)
          else none) := by
  simp only [trialStep, h]
  split_ifs <;> rfl

theorem trialStep_unexpected (refStatus codeOk codeBad : Int) (st : DetectState)
    (midSize : Int) (r : PadResult) (status : Int)
    (h : classify status refStatus codeOk codeBad = Outcome.Unexpected) :
    trialStep refStatus codeOk codeBad st midSize r status
      = ({ st with probes := st.probes ++ [{ size := midSize, pad := r, status := status }] },
          some (Fatal.unexpectedResponseCode status)) := by
  simp only [trialStep, h]

/-- Every trial appends exactly its own probe to the requests sent. -/
theorem trialStep_probes (refStatus codeOk codeBad : Int) (st : DetectState) (midSize : Int)
    (r : PadResult) (status : Int) :
    (trialStep refStatus codeOk codeBad st midSize r status).1.probes
      = st.probes ++ [{ size := midSize, pad := r, status := status }] := by
  cases h : classify status refStatus codeOk codeBad
  · rw [trialStep_accepted _ _ _ _ _ _ _ h]
  · rw [trialStep_rejected _ _ _ _ _ _ _ h]
  · rw [trialStep_transient _ _ _ _ _ _ _ h]
  · rw [trialStep_unexpected _ _ _ _ _ _ _ h]

/-! ## Classification of responses -/

/-- C7: the case of the trial `switch` that is taken, as a function of the
status, the reference status and the two overrides, in priority order:
Accepted for the reference status or a non-zero `codeOk`; otherwise Rejected
for 400, 431 or a non-zero `codeBad`; otherwise TransientError when
`status / 100 == 5`, that is for 500..599; otherwise Unexpected.  The
reference status is Accepted whatever else it matches, and an override of 0
matches no status. -/
theorem classify_priority (status refStatus codeOk codeBad : Int) :
    (classify status refStatus codeOk codeBad = Outcome.Accepted ↔
        (status = refStatus ∨ (codeOk ≠ 0 ∧ status = codeOk))) ∧
      (classify status refStatus codeOk codeBad = Outcome.Rejected ↔
        ¬ (status = refStatus ∨ (codeOk ≠ 0 ∧ status = codeOk)) ∧
        (status = 400 ∨ status = 431 ∨ (codeBad ≠ 0 ∧ status = codeBad))) ∧
      (classify status refStatus codeOk codeBad = Outcome.TransientError ↔
        ¬ (status = refStatus ∨ (codeOk ≠ 0 ∧ status = codeOk)) ∧
        ¬ (status = 400 ∨ status = 431 ∨ (codeBad ≠ 0 ∧ status = codeBad)) ∧
        status.tdiv 100 = 5) ∧
      (classify status refStatus codeOk codeBad = Outcome.Unexpected ↔
        ¬ (status = refStatus ∨ (codeOk ≠ 0 ∧ status = codeOk)) ∧
        ¬ (status = 400 ∨ status = 431 ∨ (codeBad ≠ 0 ∧ status = codeBad)) ∧
        ¬ status.tdiv 100 = 5) ∧
      (status.tdiv 100 = 5 ↔ 500 ≤ status ∧ status ≤ 599) ∧
      classify refStatus refStatus codeOk codeBad = Outcome.Accepted ∧
      (classify status refStatus 0 codeBad = Outcome.Accepted ↔ status = refStatus) ∧
      (classify status refStatus codeOk 0 = Outcome.Rejected ↔
        ¬ (status = refStatus ∨ (codeOk ≠ 0 ∧ status = codeOk)) ∧
        (status = 400 ∨ status = 431)) := by
  have h5 : status.tdiv 100 = 5 ↔ 500 ≤ status ∧ status ≤ 599 := by
    rcases le_or_lt 0 status with h0 | h0
    · rw [Int.tdiv_eq_ediv h0 (by decide)]
      omega
    · have e : status.tdiv 100 = -((-status) / 100) := by
        rw [← Int.tdiv_eq_ediv (by omega) (by decide), Int.neg_tdiv, neg_neg]
      rw [e]
      omega
  refine ⟨?_, ?_, ?_, ?_, h5, ?_, ?_, ?_⟩
  · unfold classify
    split_ifs <;> simp_all
  · unfold classify StatusBadRequest StatusRequestHeaderFieldsTooLarge
    split_ifs <;> simp_all
  · unfold classify StatusBadRequest StatusRequestHeaderFieldsTooLarge
    split_ifs <;> simp_all
  · unfold classify StatusBadRequest StatusRequestHeaderFieldsTooLarge
    split_ifs <;> simp_all
  · unfold classify
    simp
  · unfold classify
    split_ifs <;> simp_all
  · unfold classify StatusBadRequest StatusRequestHeaderFieldsTooLarge
    split_ifs <;> simp_all

/-! ## The number of bisection steps -/

theorem bisectionSteps_halve (n n1 : Int) (hn : 1 ≤ n) (h : n1 ≤ n / 2) :
    bisectionSteps n1 + 1 ≤ bisectionSteps n := by
  unfold bisectionSteps
  rw [if_pos (by omega : 0 < n)]
  by_cases h1 : 0 < n1
  · rw [if_pos h1]
    have hle : n1.toNat ≤ n.toNat / 2 := by omega
    have hmono := Nat.log_mono_right (b := 2) hle
    have hdiv := Nat.log_div_base 2 n.toNat
    have hpos : 0 < Nat.log 2 n.toNat := Nat.log_pos (by decide) (by omega)
    omega
  · rw [if_neg h1]
    omega

theorem bisectionSteps_pos (n : Int) (hn : 1 ≤ n) : 1 ≤ bisectionSteps n := by
  unfold bisectionSteps
  rw [if_pos (by omega : 0 < n)]
  omega

theorem bisectionSteps_hundred : bisectionSteps 100 = 7 := by
  have h : Nat.log 2 100 = 6 :=
    (Nat.log_eq_iff (Or.inl (by decide))).mpr ⟨by decide, by decide⟩
  unfold bisectionSteps
  rw [if_pos (by decide)]
  show Nat.log 2 100 + 1 = 7
  rw [h]

/-! ## The runs of `main` with `-detect` -/

theorem noPadHeader_baseRequest (flags : Flags) : NoPadHeader (baseRequest flags) := by
  intro i e he heq
  simp only [baseRequest, Header.Set, List.filter_nil, List.mem_singleton] at he
  rw [he] at heq
  apply padKey_not_excluded i
  rw [← heq]
  show "User-Agent" ∈ reqWriteExcludeHeader
  decide

/-- The run of `main` with `-detect` once the start-up checks and the
pre-condition check on the reference response have passed. -/
theorem main_detect (flags : Flags) (Do : Transport) (refStatus : Int) (fuel : Nat)
    (hml : minimumOverhead ≤ flags.maxLine) (hdet : flags.detect = true)
    (hmm : flags.minSize ≤ flags.maxSize)
    (hmeth : validMethod (baseRequest flags).Method = true)
    (href : Do 0 (referencePad flags).r = Except.ok refStatus)
    (hpass : initialRejected refStatus = false) :
    main flags Do fuel =
      match (detectRun flags Do refStatus fuel).fatal with
      | some f =>
        { probes := (detectRun flags Do refStatus fuel).final.probes,
          fatal := some f, detected := none, notExceeded := false, running := false }
      | none =>
        if (detectRun flags Do refStatus fuel).running then
          { probes := (detectRun flags Do refStatus fuel).final.probes,
            fatal := none, detected := none, notExceeded := false, running := true }
        else
          { probes := (detectRun flags Do refStatus fuel).final.probes,
            fatal := none,
            detected := some (detectRun flags Do refStatus fuel).final.detectedSize,
            notExceeded := (detectRun flags Do refStatus fuel).final.badResponse.isNone,
            running := false } := by
  have href' : Do 0 (padRequest (baseRequest flags) flags.maxLine
      (raiseMinSize (measure (baseRequest flags)) flags.minSize)).r
        = Except.ok refStatus := href
  unfold main
  simp only [if_neg (not_lt.mpr hml), hdet, Bool.true_and, decide_eq_true_eq,
    if_neg (not_lt.mpr hmm), hmeth, Bool.not_true, Bool.false_eq_true, if_false, if_true,
    href', hpass]
  rfl

/-- The run of `main` with `-detect` when the reference response fails the
pre-condition check. -/
theorem main_initial_rejected (flags : Flags) (Do : Transport) (refStatus : Int) (fuel : Nat)
    (hml : minimumOverhead ≤ flags.maxLine) (hdet : flags.detect = true)
    (hmm : flags.minSize ≤ flags.maxSize)
    (hmeth : validMethod (baseRequest flags).Method = true)
    (href : Do 0 (referencePad flags).r = Except.ok refStatus)
    (hrej : initialRejected refStatus = true) :
    main flags Do fuel =
      { probes := [{ size := effectiveMinSize flags, pad := referencePad flags,
                     status := refStatus }],
        fatal := some Fatal.initialRequestRejected, detected := none, notExceeded := false,
        running := false } := by
  have href' : Do 0 (padRequest (baseRequest flags) flags.maxLine
      (raiseMinSize (measure (baseRequest flags)) flags.minSize)).r
        = Except.ok refStatus := href
  unfold main
  simp only [if_neg (not_lt.mpr hml), hdet, Bool.true_and, decide_eq_true_eq,
    if_neg (not_lt.mpr hmm), hmeth, Bool.not_true, Bool.false_eq_true, if_false, if_true,
    href', hrej]
  rfl

/-- The run of `main` with `-detect` when the reference request cannot be
sent. -/
theorem main_reference_error (flags : Flags) (Do : Transport) (err : String) (fuel : Nat)
    (hml : minimumOverhead ≤ flags.maxLine) (hdet : flags.detect = true)
    (hmm : flags.minSize ≤ flags.maxSize)
    (hmeth : validMethod (baseRequest flags).Method = true)
    (href : Do 0 (referencePad flags).r = Except.error err) :
    main flags Do fuel =
      { probes := [], fatal := some (Fatal.transport err), detected := none,
        notExceeded := false, running := false } := by
  have href' : Do 0 (padRequest (baseRequest flags) flags.maxLine
      (raiseMinSize (measure (baseRequest flags)) flags.minSize)).r
        = Except.error err := href
  unfold main
  simp only [if_neg (not_lt.mpr hml), hdet, Bool.true_and, decide_eq_true_eq,
    if_neg (not_lt.mpr hmm), hmeth, Bool.not_true, Bool.false_eq_true, if_false, if_true,
    href']

/-- The run of `main` when `http.NewRequest` rejects the method: no request is
sent. -/
theorem main_invalid_method (flags : Flags) (Do : Transport) (fuel : Nat)
    (hml : minimumOverhead ≤ flags.maxLine)
    (hmm : ¬ (flags.detect = true ∧ flags.minSize > flags.maxSize))
    (hmeth : validMethod (baseRequest flags).Method = false) :
    main flags Do fuel =
      { probes := [], fatal := some (Fatal.invalidMethod (baseRequest flags).Method),
        detected := none, notExceeded := false, running := false } := by
  unfold main
  have hmm' : (flags.detect && decide (flags.minSize > flags.maxSize)) = false := by
    rw [Bool.and_eq_false_iff]
    by_cases hd : flags.detect = true
    · right
      simpa using fun h => hmm ⟨hd, h⟩
    · left
      simpa using hd
  simp only [if_neg (not_lt.mpr hml), hmm', hmeth, Bool.not_false, Bool.false_eq_true, if_false,
    if_true]

theorem le_effectiveMinSize (flags : Flags) :
    measure (baseRequest flags) ≤ effectiveMinSize flags := by
  unfold effectiveMinSize raiseMinSize
  split_ifs <;> omega

/-- The loop is entered with `minSize` one above the effective `minSize`
whenever that is below `MaxInt64`. -/
theorem start_minSize (lo hi refStatus : Int) (r : PadResult) (h0 : 0 ≤ lo)
    (h : lo < MaxInt64) :
    (DetectState.start lo hi refStatus r).minSize = lo + 1 := by
  show intAdd lo 1 = lo + 1
  apply intAdd_eq_add
  intro _ _
  unfold InRange at *
  unfold MinInt64 MaxInt64 at *
  omega

/-! ## Bisection finds the threshold -/

/-- The loop under a monotone classification with threshold `L`: started with
`detectedSize = minSize - 1 ≤ L` inside `(lo, hi]`, where twice `lo` and twice
`hi` are values of `int`, it ends within the bisection steps of its interval,
without a fatal error, at `min L hi`. -/
theorem detectLoop_threshold (req : Request) (maxLine refStatus codeOk codeBad : Int)
    (Do : Transport) (lo hi L : Int) (hlo : MinInt64 ≤ 2 * lo) (hhi : 2 * hi ≤ MaxInt64)
    (hmono : ∀ (k : Nat) (s : Int), lo < s → s ≤ hi →
      ∃ status, Do k (padRequest req maxLine s).r = Except.ok status ∧
        classify status refStatus codeOk codeBad
          = if s ≤ L then Outcome.Accepted else Outcome.Rejected)
    (fuel : Nat) (st : DetectState) :
    st.detectedSize = st.minSize - 1 → st.detectedSize ≤ L → lo < st.minSize →
      st.maxSize ≤ hi → st.minSize ≤ st.maxSize + 1 → (st.maxSize = hi ∨ L ≤ st.maxSize) →
      bisectionSteps (st.maxSize - st.minSize + 1) ≤ fuel →
      (detectLoop req maxLine refStatus codeOk codeBad Do fuel st).running = false ∧
        (detectLoop req maxLine refStatus codeOk codeBad Do fuel st).fatal = none ∧
        (detectLoop req maxLine refStatus codeOk codeBad Do fuel st).final.detectedSize
          = min L hi := by
  refine detectLoop_induct req maxLine refStatus codeOk codeBad Do
    (fun fuel st run => st.detectedSize = st.minSize - 1 → st.detectedSize ≤ L →
      lo < st.minSize → st.maxSize ≤ hi → st.minSize ≤ st.maxSize + 1 →
      (st.maxSize = hi ∨ L ≤ st.maxSize) →
      bisectionSteps (st.maxSize - st.minSize + 1) ≤ fuel →
      run.running = false ∧ run.fatal = none ∧ run.final.detectedSize = min L hi)
    ?_ ?_ ?_ ?_ ?_ fuel st
  · intro st hle _ _ _ _ _ _ hfuel
    have := bisectionSteps_pos (st.maxSize - st.minSize + 1) (by omega)
    omega
  · intro fuel st hdone h1 h2 h3 h4 h5 h6 _
    refine ⟨rfl, rfl, ?_⟩
    show st.detectedSize = min L hi
    unfold min
    split_ifs <;> omega
  · intro fuel st err hle hdo h1 h2 h3 h4 h5 h6 _
    have hm := mid_bounds st hle (by omega) (by omega)
    obtain ⟨status, hs, _⟩ := hmono st.probes.length st.mid (by omega) (by omega)
    rw [hs] at hdo
    cases hdo
  · intro fuel st st1 status f hle hdo hstep h1 h2 h3 h4 h5 h6 _
    have hm := mid_bounds st hle (by omega) (by omega)
    obtain ⟨status', hs, hc⟩ := hmono st.probes.length st.mid (by omega) (by omega)
    rw [hs] at hdo
    cases hdo
    by_cases hL : st.mid ≤ L
    · rw [if_pos hL] at hc
      rw [trialStep_accepted _ _ _ _ _ _ _ hc] at hstep
      cases hstep
    · rw [if_neg hL] at hc
      rw [trialStep_rejected _ _ _ _ _ _ _ hc] at hstep
      cases hstep
  · intro fuel st st1 status run hle hdo hstep ih h1 h2 h3 h4 h5 h6 hfuel
    have hm := mid_bounds st hle (by omega) (by omega)
    have hhalf := mid_halves st hle (by omega) (by omega)
    obtain ⟨status', hs, hc⟩ := hmono st.probes.length st.mid (by omega) (by omega)
    rw [hs] at hdo
    cases hdo
    by_cases hL : st.mid ≤ L
    · rw [if_pos hL] at hc
      rw [trialStep_accepted _ _ _ _ _ _ _ hc] at hstep
      cases hstep
      have hb := bisectionSteps_halve (st.maxSize - st.minSize + 1)
        (st.maxSize - (st.mid + 1) + 1) (by omega) (by omega)
      exact ih (by simp) (by simpa using hL) (by simp only; omega) h4 (by simp only; omega) h6
        (by simp only; omega)
    · rw [if_neg hL] at hc
      rw [trialStep_rejected _ _ _ _ _ _ _ hc] at hstep
      cases hstep
      have hb := bisectionSteps_halve (st.maxSize - st.minSize + 1)
        (st.mid - 1 - st.minSize + 1) (by omega) (by omega)
      exact ih h1 h2 h3 (by simp only; omega) (by simp only; omega)
        (Or.inr (by simp only; omega)) (by simp only; omega)

/-- Bisection on `main` under a monotone classification of the trials: every
trial at a size `s` in `(lo, hi]` is classified Accepted when `s ≤ L` and
Rejected when `s > L`. -/
theorem main_threshold (flags : Flags) (Do : Transport) (L refStatus : Int) (fuel : Nat)
    (hml : minimumOverhead ≤ flags.maxLine) (hdet : flags.detect = true)
    (hmm : flags.minSize ≤ flags.maxSize)
    (hmeth : validMethod (baseRequest flags).Method = true)
    (hlohi : effectiveMinSize flags ≤ effectiveMaxSize flags)
    (hL : effectiveMinSize flags ≤ L)
    (hrange : 2 * effectiveMaxSize flags ≤ MaxInt64)
    (href : Do 0 (padRequest (baseRequest flags) flags.maxLine (effectiveMinSize flags)).r
      = Except.ok refStatus)
    (hpass : initialRejected refStatus = false)
    (hmono : ∀ (k : Nat) (s : Int), effectiveMinSize flags < s → s ≤ effectiveMaxSize flags →
      ∃ status, Do k (padRequest (baseRequest flags) flags.maxLine s).r = Except.ok status ∧
        classify status refStatus flags.codeOk flags.codeBad
          = if s ≤ L then Outcome.Accepted else Outcome.Rejected)
    (hfuel : bisectionSteps (effectiveMaxSize flags - effectiveMinSize flags) ≤ fuel) :
    (main flags Do fuel).running = false ∧ (main flags Do fuel).fatal = none ∧
      (main flags Do fuel).detected = some (min L (effectiveMaxSize flags)) := by
  have hB := measure_nonneg (baseRequest flags)
  have hlo := le_effectiveMinSize flags
  have hmin := start_minSize (effectiveMinSize flags) (effectiveMaxSize flags) refStatus
    (referencePad flags) (by omega) (by unfold MaxInt64 at *; omega)
  have hloop := detectLoop_threshold (baseRequest flags) flags.maxLine refStatus flags.codeOk
    flags.codeBad Do (effectiveMinSize flags) (effectiveMaxSize flags) L
    (by unfold MinInt64; omega) hrange hmono fuel
    (DetectState.start (effectiveMinSize flags) (effectiveMaxSize flags) refStatus
      (referencePad flags))
    (by rw [hmin]; simp [DetectState.start]) (by simpa [DetectState.start] using hL)
    (by rw [hmin]; omega) (by simp [DetectState.start])
    (by rw [hmin]; simp only [DetectState.start]; omega) (Or.inl rfl)
    (by
      rw [hmin]
      simp only [DetectState.start]
      have e : effectiveMaxSize flags - (effectiveMinSize flags + 1) + 1
          = effectiveMaxSize flags - effectiveMinSize flags := by ring
      rw [e]
      exact hfuel)
  obtain ⟨hr, hf, hd⟩ := hloop
  have hr' : (detectRun flags Do refStatus fuel).running = false := hr
  have hf' : (detectRun flags Do refStatus fuel).fatal = none := hf
  have hd' : (detectRun flags Do refStatus fuel).final.detectedSize
      = min L (effectiveMaxSize flags) := hd
  rw [main_detect flags Do refStatus fuel hml hdet hmm hmeth href hpass]
  simp [hf', hr', hd']

theorem initialRejected_iff (status : Int) :
    initialRejected status = true ↔ status = 400 ∨ status = 431 ∨ status = 414 := by
  simp [initialRejected, StatusBadRequest, StatusRequestHeaderFieldsTooLarge,
    StatusRequestURITooLong, or_assoc]

/-- C3 as amended: bisection correctness under monotone responses.  The
start-up checks accept the command line, `lo` is `minSize` raised to the
baseline, `hi` the clamped maximum, `lo ≤ hi`, and twice `hi` is a value of
`int`.  The reference probe at `lo` is answered with a status other than 400,
414 and 431, `-code-ok` is neither 400 nor 431, and a trial at a size `s` in
`(lo, hi]` is answered with the reference status when `s ≤ L` and with 400 or
431 when `s > L`, for a threshold `L ≥ lo`.  Then the loop ends within
`⌊log₂ (hi - lo)⌋ + 1` trials, `main` ends without a fatal error, and it prints
`min L hi` as the detected size. -/
theorem main_detects_threshold (flags : Flags) (Do : Transport) (L refStatus : Int)
    (fuel : Nat)
    (hml : minimumOverhead ≤ flags.maxLine) (hdet : flags.detect = true)
    (hmm : flags.minSize ≤ flags.maxSize)
    (hmeth : validMethod (baseRequest flags).Method = true)
    (hlohi : effectiveMinSize flags ≤ effectiveMaxSize flags)
    (hL : effectiveMinSize flags ≤ L)
    (hrange : 2 * effectiveMaxSize flags ≤ MaxInt64)
    (href : Do 0 (padRequest (baseRequest flags) flags.maxLine (effectiveMinSize flags)).r
      = Except.ok refStatus)
    (hrefStatus : refStatus ≠ 400 ∧ refStatus ≠ 414 ∧ refStatus ≠ 431)
    (hcodeOk : flags.codeOk ≠ 400 ∧ flags.codeOk ≠ 431)
    (hmono : ∀ (k : Nat) (s : Int), effectiveMinSize flags < s → s ≤ effectiveMaxSize flags →
      ∃ status, Do k (padRequest (baseRequest flags) flags.maxLine s).r = Except.ok status ∧
        (s ≤ L → status = refStatus) ∧ (L < s → status = 400 ∨ status = 431))
    (hfuel : bisectionSteps (effectiveMaxSize flags - effectiveMinSize flags) ≤ fuel) :
    (main flags Do fuel).running = false ∧ (main flags Do fuel).fatal = none ∧
      (main flags Do fuel).detected = some (min L (effectiveMaxSize flags)) := by
  have hpass : initialRejected refStatus = false := by
    cases h : initialRejected refStatus with
    | false => rfl
    | true =>
      rcases (initialRejected_iff refStatus).mp h with h' | h' | h'
      · exact absurd h' hrefStatus.1
      · exact absurd h' hrefStatus.2.2
      · exact absurd h' hrefStatus.2.1
  apply main_threshold flags Do L refStatus fuel hml hdet hmm hmeth hlohi hL hrange href hpass
    ?_ hfuel
  intro k s hs1 hs2
  obtain ⟨status, hdo, hacc, hrej⟩ := hmono k s hs1 hs2
  refine ⟨status, hdo, ?_⟩
  by_cases hsL : s ≤ L
  · rw [if_pos hsL, hacc hsL]
    unfold classify
    simp
  · rw [if_neg hsL]
    have h4 := hrej (by omega)
    unfold classify StatusBadRequest StatusRequestHeaderFieldsTooLarge
    have hne : ¬ (status = refStatus ∨ (flags.codeOk ≠ 0 ∧ status = flags.codeOk)) := by
      rintro (h | ⟨_, h⟩)
      · rcases h4 with h4 | h4
        · exact hrefStatus.1 (by rw [← h, h4])
        · exact hrefStatus.2.2 (by rw [← h, h4])
      · rcases h4 with h4 | h4
        · exact hcodeOk.1 (by rw [← h, h4])
        · exact hcodeOk.2 (by rw [← h, h4])
    rw [if_neg hne, if_pos (by rcases h4 with h4 | h4 <;> simp [h4])]

theorem measure_baseRequest_exampleFlags : measure (baseRequest exampleFlags) = 36 := by
  decide

theorem effectiveMinSize_exampleFlags : effectiveMinSize exampleFlags = 100 := by
  unfold effectiveMinSize
  rw [measure_baseRequest_exampleFlags]
  decide

theorem effectiveMaxSize_exampleFlags : effectiveMaxSize exampleFlags = 200 := by
  unfold effectiveMaxSize
  rw [measure_baseRequest_exampleFlags]
  decide

/-- On the example command line every size from 45 to 200 is delivered
exactly, so the threshold server answers by the requested size. -/
theorem thresholdServer_exampleFlags (limit : Int) (k : Nat) (s : Int) (h1 : 45 ≤ s)
    (h2 : s ≤ 200) :
    thresholdServer limit k (padRequest (baseRequest exampleFlags) exampleFlags.maxLine s).r
      = Except.ok (if s ≤ limit then 200 else 431) := by
  have hB := measure_baseRequest_exampleFlags
  have hex := padRequest_exact_ten_lines (baseRequest exampleFlags) 8192 s
    (noPadHeader_baseRequest _) (by decide) (by omega) (by omega)
  show Except.ok (if measure (padRequest (baseRequest exampleFlags) 8192 s).r ≤ limit
    then 200 else 431) = _
  rw [hex.1]

/-- Witness for the amended C3: a server with limit 150 probed between 100 and
200; the loop ends within 7 trials at 150. -/
theorem main_detects_threshold_witness :
    minimumOverhead ≤ exampleFlags.maxLine ∧ exampleFlags.minSize ≤ exampleFlags.maxSize ∧
      validMethod (baseRequest exampleFlags).Method = true ∧
      effectiveMinSize exampleFlags = 100 ∧ effectiveMaxSize exampleFlags = 200 ∧
      2 * effectiveMaxSize exampleFlags ≤ MaxInt64 ∧
      bisectionSteps (effectiveMaxSize exampleFlags - effectiveMinSize exampleFlags) ≤ 7 ∧
      (main exampleFlags (thresholdServer 150) 7).running = false ∧
      (main exampleFlags (thresholdServer 150) 7).fatal = none ∧
      (main exampleFlags (thresholdServer 150) 7).detected = some 150 := by
  have hlo := effectiveMinSize_exampleFlags
  have hhi := effectiveMaxSize_exampleFlags
  have hsteps : bisectionSteps (effectiveMaxSize exampleFlags - effectiveMinSize exampleFlags)
      ≤ 7 := by
    rw [hlo, hhi]
    exact le_of_eq bisectionSteps_hundred
  have hrange : 2 * effectiveMaxSize exampleFlags ≤ MaxInt64 := by
    rw [hhi]
    decide
  have h := main_detects_threshold exampleFlags (thresholdServer 150) 150 200 7
    (by decide) rfl (by decide) (by decide) (by rw [hlo, hhi]; decide) (by rw [hlo]; decide)
    hrange
    (by rw [hlo]; exact thresholdServer_exampleFlags 150 0 100 (by decide) (by decide))
    (by decide) (by decide)
    (by
      intro k s hs1 hs2
      rw [hlo] at hs1
      rw [hhi] at hs2
      refine ⟨_, thresholdServer_exampleFlags 150 k s (by omega) hs2, ?_, ?_⟩
      · intro hs
        rw [if_pos hs]
      · intro hs
        rw [if_neg (by omega)]
        right
        rfl)
    hsteps
  rw [hhi] at h
  exact ⟨by decide, by decide, by decide, hlo, hhi, hrange, hsteps, h⟩

/-- C3 fails as stated.  With `-code-ok 431` and a server that answers 200 up
to 150 bytes and 431 above, the responses are monotone with threshold 150, and
`main` prints 200: the trials answered with 431 are classified Accepted.  And
when the server answers every request with 400, 414 or 431, every probe
returns the reference status, and `main` gives up after the reference probe
without a detected size. -/
theorem main_threshold_fails :
    (minimumOverhead ≤ codeOkFlags.maxLine ∧ codeOkFlags.minSize ≤ codeOkFlags.maxSize ∧
      effectiveMinSize codeOkFlags = 100 ∧ effectiveMaxSize codeOkFlags = 200 ∧
      thresholdServer 150 0
          (padRequest (baseRequest codeOkFlags) codeOkFlags.maxLine 100).r = Except.ok 200 ∧
      (∀ (k : Nat) (s : Int), 100 < s → s ≤ 200 →
        thresholdServer 150 k (padRequest (baseRequest codeOkFlags) codeOkFlags.maxLine s).r
          = Except.ok (if s ≤ 150 then 200 else 431)) ∧
      (main codeOkFlags (thresholdServer 150) 7).running = false ∧
      (main codeOkFlags (thresholdServer 150) 7).fatal = none ∧
      (main codeOkFlags (thresholdServer 150) 7).detected = some 200 ∧
      min 150 200 ≠ 200) ∧
    ((main exampleFlags (constantServer 400) 7).fatal = some Fatal.initialRequestRejected ∧
      (main exampleFlags (constantServer 400) 7).detected = none) ∧
    ((main exampleFlags (constantServer 414) 7).fatal = some Fatal.initialRequestRejected ∧
      (main exampleFlags (constantServer 414) 7).detected = none) ∧
    ((main exampleFlags (constantServer 431) 7).fatal = some Fatal.initialRequestRejected ∧
      (main exampleFlags (constantServer 431) 7).detected = none) := by
  have hlo : effectiveMinSize codeOkFlags = 100 := effectiveMinSize_exampleFlags
  have hhi : effectiveMaxSize codeOkFlags = 200 := effectiveMaxSize_exampleFlags
  have hserver : ∀ (k : Nat) (s : Int), 45 ≤ s → s ≤ 200 →
      thresholdServer 150 k (padRequest (baseRequest codeOkFlags) codeOkFlags.maxLine s).r
        = Except.ok (if s ≤ 150 then 200 else 431) :=
    fun k s h1 h2 => thresholdServer_exampleFlags 150 k s h1 h2
  have hsteps : bisectionSteps (effectiveMaxSize codeOkFlags - effectiveMinSize codeOkFlags)
      ≤ 7 := by
    rw [hlo, hhi]
    exact le_of_eq bisectionSteps_hundred
  have h := main_threshold codeOkFlags (thresholdServer 150) 200 200 7
    (by decide) rfl (by decide) (by decide) (by rw [hlo, hhi]; decide) (by rw [hlo]; decide)
    (by rw [hhi]; decide)
    (by rw [hlo]; exact hserver 0 100 (by decide) (by decide))
    (by decide)
    (by
      intro k s hs1 hs2
      rw [hlo] at hs1
      rw [hhi] at hs2
      refine ⟨_, hserver k s (by omega) hs2, ?_⟩
      rw [if_pos hs2]
      by_cases hs : s ≤ 150
      · rw [if_pos hs]
        decide
      · rw [if_neg hs]
        decide)
    hsteps
  rw [hhi] at h
  have hmin : min 200 200 = 200 := by decide
  rw [hmin] at h
  refine ⟨⟨by decide, by decide, hlo, hhi, hserver 0 100 (by decide) (by decide),
    fun k s h1 h2 => hserver k s (by omega) h2, h.1, h.2.1, h.2.2, by decide⟩, ?_, ?_, ?_⟩
  · rw [main_initial_rejected exampleFlags (constantServer 400) 400 7 (by decide) rfl
      (by decide) (by decide) rfl (by decide)]
    exact ⟨rfl, rfl⟩
  · rw [main_initial_rejected exampleFlags (constantServer 414) 414 7 (by decide) rfl
      (by decide) (by decide) rfl (by decide)]
    exact ⟨rfl, rfl⟩
  · rw [main_initial_rejected exampleFlags (constantServer 431) 431 7 (by decide) rfl
      (by decide) (by decide) rfl (by decide)]
    exact ⟨rfl, rfl⟩

/-! ## The pre-condition check on the reference response -/

/-- The fatal errors a trial can raise. -/
theorem trialStep_fatal_cases (refStatus codeOk codeBad : Int) (st st1 : DetectState)
    (midSize : Int) (r : PadResult) (status : Int) (f : Fatal)
    (h : trialStep refStatus codeOk codeBad st midSize r status = (st1, some f)) :
    (classify status refStatus codeOk codeBad = Outcome.TransientError ∧
        5 < st.errorCount + 1 ∧ f = Fatal.tooManyFailures midSize st.minSize st.maxSize) ∨
      (classify status refStatus codeOk codeBad = Outcome.Unexpected ∧
        f = Fatal.unexpectedResponseCode status) := by
  cases hc : classify status refStatus codeOk codeBad
  · rw [trialStep_accepted _ _ _ _ _ _ _ hc] at h
    cases h
  · rw [trialStep_rejected _ _ _ _ _ _ _ hc] at h
    cases h
  · rw [trialStep_transient _ _ _ _ _ _ _ hc] at h
    left
    by_cases h5 : st.errorCount + 1 > 5
    · rw [if_pos h5] at h
      cases h
      exact ⟨rfl, h5, rfl⟩
    · rw [if_neg h5] at h
      cases h
  · rw [trialStep_unexpected _ _ _ _ _ _ _ hc] at h
    right
    cases h
    exact ⟨rfl, rfl⟩

theorem detectLoop_fatal_ne_initial (req : Request) (maxLine refStatus codeOk codeBad : Int)
    (Do : Transport) (fuel : Nat) (st : DetectState) :
    (detectLoop req maxLine refStatus codeOk codeBad Do fuel st).fatal
      ≠ some Fatal.initialRequestRejected := by
  refine detectLoop_induct req maxLine refStatus codeOk codeBad Do
    (fun _ _ run => run.fatal ≠ some Fatal.initialRequestRejected) ?_ ?_ ?_ ?_ ?_ fuel st
  · intro _ _ h
    cases h
  · intro _ _ _ h
    cases h
  · intro _ _ _ _ _ h
    cases h
  · intro _ st st1 status f _ _ hstep h
    rcases trialStep_fatal_cases _ _ _ _ _ _ _ _ _ hstep with ⟨_, _, hf⟩ | ⟨_, hf⟩ <;>
    · rw [hf] at h
      cases h
  · intro _ _ _ _ _ _ _ _ ih
    exact ih

/-- C8 as amended: on a command line the start-up checks accept, for a
reference status that is not the configured bad override, `main` gives up with
"Initial request is already rejected" exactly when the status is 400, 431 or
414, however many trials of the loop are followed, and then the reference
probe is the only request sent. -/
theorem main_initial_check (flags : Flags) (Do : Transport) (status : Int) (fuel : Nat)
    (hml : minimumOverhead ≤ flags.maxLine) (hdet : flags.detect = true)
    (hmm : flags.minSize ≤ flags.maxSize)
    (hmeth : validMethod (baseRequest flags).Method = true)
    (href : Do 0 (referencePad flags).r = Except.ok status)
    (_hbad : flags.codeBad = 0 ∨ status ≠ flags.codeBad) :
    ((main flags Do fuel).fatal = some Fatal.initialRequestRejected ↔
        (status = 400 ∨ status = 431 ∨ status = 414)) ∧
      ((main flags Do fuel).fatal = some Fatal.initialRequestRejected →
        (main flags Do fuel).probes
          = [{ size := effectiveMinSize flags, pad := referencePad flags, status := status }]) := by
  by_cases hrej : initialRejected status = true
  · rw [main_initial_rejected flags Do status fuel hml hdet hmm hmeth href hrej]
    exact ⟨⟨fun _ => (initialRejected_iff status).mp hrej, fun _ => rfl⟩, fun _ => rfl⟩
  · have hpass : initialRejected status = false := by
      simpa using hrej
    have hne := detectLoop_fatal_ne_initial (baseRequest flags) flags.maxLine status
      flags.codeOk flags.codeBad Do fuel
      (DetectState.start (effectiveMinSize flags) (effectiveMaxSize flags) status
        (referencePad flags))
    have hne' : (detectRun flags Do status fuel).fatal ≠ some Fatal.initialRequestRejected :=
      hne
    have hfatal : (main flags Do fuel).fatal ≠ some Fatal.initialRequestRejected := by
      rw [main_detect flags Do status fuel hml hdet hmm hmeth href hpass]
      cases hf : (detectRun flags Do status fuel).fatal with
      | none =>
        simp only
        split_ifs <;> simp
      | some f =>
        rw [hf] at hne'
        simpa using hne'
    refine ⟨⟨fun h => absurd h hfatal, fun h => ?_⟩, fun h => absurd h hfatal⟩
    exact absurd ((initialRejected_iff status).mpr h) hrej

/-- Witness for the amended C8: the example command line has no bad override,
and the server answers 414. -/
theorem main_initial_check_witness :
    minimumOverhead ≤ exampleFlags.maxLine ∧ exampleFlags.minSize ≤ exampleFlags.maxSize ∧
      validMethod (baseRequest exampleFlags).Method = true ∧
      exampleFlags.codeBad = 0 ∧
      ((main exampleFlags (constantServer 414) 7).fatal = some Fatal.initialRequestRejected ↔
        ((414 : Int) = 400 ∨ (414 : Int) = 431 ∨ (414 : Int) = 414)) ∧
      ((main exampleFlags (constantServer 414) 7).fatal = some Fatal.initialRequestRejected →
        (main exampleFlags (constantServer 414) 7).probes
          = [{ size := effectiveMinSize exampleFlags, pad := referencePad exampleFlags,
               status := 414 }]) :=
  ⟨by decide, by decide, by decide, rfl,
    main_initial_check exampleFlags (constantServer 414) 414 7 (by decide) rfl (by decide)
      (by decide) rfl (Or.inl rfl)⟩

/-- C8 fails as stated: on the example command line (no bad override) a
reference response with status 414 makes `main` give up with "Initial request
is already rejected", although 414 is neither 400 nor 431 nor a bad override,
and no trial with status 414 is classified Rejected. -/
theorem main_rejects_reference_414 :
    minimumOverhead ≤ exampleFlags.maxLine ∧ exampleFlags.minSize ≤ exampleFlags.maxSize ∧
      (main exampleFlags (constantServer 414) 7).fatal = some Fatal.initialRequestRejected ∧
      ¬ ((414 : Int) = 400 ∨ (414 : Int) = 431 ∨
          (exampleFlags.codeBad ≠ 0 ∧ (414 : Int) = exampleFlags.codeBad)) ∧
      ∀ refStatus : Int,
        classify 414 refStatus exampleFlags.codeOk exampleFlags.codeBad ≠ Outcome.Rejected := by
  refine ⟨by decide, by decide, ?_, by decide, ?_⟩
  · rw [main_initial_rejected exampleFlags (constantServer 414) 414 7 (by decide) rfl
      (by decide) (by decide) rfl (by decide)]
  · intro refStatus
    unfold classify
    split_ifs <;> simp_all [StatusBadRequest, StatusRequestHeaderFieldsTooLarge, exampleFlags]

/-! ## The retry budget -/

theorem transientCount_append (refStatus codeOk codeBad : Int) (l1 l2 : List Probe) :
    transientCount refStatus codeOk codeBad (l1 ++ l2)
      = transientCount refStatus codeOk codeBad l1
        + transientCount refStatus codeOk codeBad l2 := by
  simp [transientCount, List.countP_append]

theorem transientCount_single (refStatus codeOk codeBad : Int) (p : Probe) :
    transientCount refStatus codeOk codeBad [p]
      = if classify p.status refStatus codeOk codeBad = Outcome.TransientError then 1 else 0 := by
  simp [transientCount, List.countP_cons]

theorem transientCount_cons (refStatus codeOk codeBad : Int) (p : Probe) (l : List Probe) :
    transientCount refStatus codeOk codeBad (p :: l)
      = transientCount refStatus codeOk codeBad [p]
        + transientCount refStatus codeOk codeBad l :=
  transientCount_append refStatus codeOk codeBad [p] l

/-- The counter `errorCount` along a run of the loop: it grows by one with
every trial classified TransientError and never otherwise, and the run ends
with "Too many failures" exactly when it reaches 6, at a transient trial. -/
theorem detectLoop_errorCount (req : Request) (maxLine refStatus codeOk codeBad : Int)
    (Do : Transport) (fuel : Nat) (st : DetectState) :
    0 ≤ st.errorCount → st.errorCount ≤ 5 →
    ∃ trials : List Probe,
      (detectLoop req maxLine refStatus codeOk codeBad Do fuel st).final.probes
        = st.probes ++ trials ∧
      (detectLoop req maxLine refStatus codeOk codeBad Do fuel st).final.errorCount
        = st.errorCount + transientCount refStatus codeOk codeBad trials ∧
      st.errorCount + transientCount refStatus codeOk codeBad trials ≤ 6 ∧
      (Fatal.isTooManyFailures
          (detectLoop req maxLine refStatus codeOk codeBad Do fuel st).fatal = true ↔
        st.errorCount + transientCount refStatus codeOk codeBad trials = 6) ∧
      (Fatal.isTooManyFailures
          (detectLoop req maxLine refStatus codeOk codeBad Do fuel st).fatal = true →
        ∃ p, trials.getLast? = some p ∧
          classify p.status refStatus codeOk codeBad = Outcome.TransientError) := by
  refine detectLoop_induct req maxLine refStatus codeOk codeBad Do
    (fun _ st run => 0 ≤ st.errorCount → st.errorCount ≤ 5 →
      ∃ trials : List Probe,
        run.final.probes = st.probes ++ trials ∧
        run.final.errorCount = st.errorCount + transientCount refStatus codeOk codeBad trials ∧
        st.errorCount + transientCount refStatus codeOk codeBad trials ≤ 6 ∧
        (Fatal.isTooManyFailures run.fatal = true ↔
          st.errorCount + transientCount refStatus codeOk codeBad trials = 6) ∧
        (Fatal.isTooManyFailures run.fatal = true →
          ∃ p, trials.getLast? = some p ∧
            classify p.status refStatus codeOk codeBad = Outcome.TransientError))
    ?_ ?_ ?_ ?_ ?_ fuel st
  · intro st _ h0 h5
    refine ⟨[], by simp, by simp [transientCount], by simp [transientCount]; omega, ?_, ?_⟩
    · simp only [Fatal.isTooManyFailures, transientCount, List.countP_nil]
      constructor
      · intro h
        cases h
      · intro h
        omega
    · intro h
      cases h
  · intro _ st _ h0 h5
    refine ⟨[], by simp, by simp [transientCount], by simp [transientCount]; omega, ?_, ?_⟩
    · simp only [Fatal.isTooManyFailures, transientCount, List.countP_nil]
      constructor
      · intro h
        cases h
      · intro h
        omega
    · intro h
      cases h
  · intro _ st err _ _ h0 h5
    refine ⟨[], by simp, by simp [transientCount], by simp [transientCount]; omega, ?_, ?_⟩
    · simp only [Fatal.isTooManyFailures, transientCount, List.countP_nil]
      constructor
      · intro h
        cases h
      · intro h
        omega
    · intro h
      cases h
  · intro _ st st1 status f hle _ hstep h0 h5
    have hp := trialStep_probes refStatus codeOk codeBad st st.mid
      (padRequest req maxLine st.mid) status
    rw [hstep] at hp
    refine ⟨[{ size := st.mid, pad := padRequest req maxLine st.mid, status := status }],
      hp, ?_⟩
    rw [transientCount_single]
    rcases trialStep_fatal_cases _ _ _ _ _ _ _ _ _ hstep with ⟨hc, h6, hf⟩ | ⟨hc, hf⟩
    · rw [trialStep_transient _ _ _ _ _ _ _ hc] at hstep
      have hst1 := congrArg Prod.fst hstep
      simp only at hst1
      rw [← hst1, hf, if_pos hc]
      refine ⟨by simp, by push_cast; omega, ⟨fun _ => by push_cast; omega, fun _ => rfl⟩,
        fun _ => ⟨_, rfl, hc⟩⟩
    · rw [trialStep_unexpected _ _ _ _ _ _ _ hc] at hstep
      have hst1 := congrArg Prod.fst hstep
      simp only at hst1
      have hne : ¬ classify status refStatus codeOk codeBad = Outcome.TransientError := by
        rw [hc]
        decide
      rw [← hst1, hf, if_neg hne]
      refine ⟨by simp, by push_cast; omega,
        ⟨fun h => (by cases h), fun h => (by push_cast at h; omega)⟩, fun h => (by cases h)⟩
  · intro _ st st1 status run hle _ hstep ih h0 h5
    have hp := trialStep_probes refStatus codeOk codeBad st st.mid
      (padRequest req maxLine st.mid) status
    rw [hstep] at hp
    simp only at hp
    have hcount : 0 ≤ st1.errorCount ∧ st1.errorCount ≤ 5 ∧
        st1.errorCount = st.errorCount + transientCount refStatus codeOk codeBad
          [{ size := st.mid, pad := padRequest req maxLine st.mid, status := status }] := by
      rw [transientCount_single]
      cases hc : classify status refStatus codeOk codeBad
      · rw [trialStep_accepted _ _ _ _ _ _ _ hc] at hstep
        cases hstep
        simp only [hc]
        simp
        omega
      · rw [trialStep_rejected _ _ _ _ _ _ _ hc] at hstep
        cases hstep
        simp only [hc]
        simp
        omega
      · rw [trialStep_transient _ _ _ _ _ _ _ hc] at hstep
        by_cases h6 : st.errorCount + 1 > 5
        · rw [if_pos h6] at hstep
          cases hstep
        · rw [if_neg h6] at hstep
          cases hstep
          simp only [hc]
          simp
          omega
      · rw [trialStep_unexpected _ _ _ _ _ _ _ hc] at hstep
        cases hstep
    obtain ⟨hc0, hc5, hce⟩ := hcount
    obtain ⟨trials, ht1, ht2, ht3, ht4, ht5⟩ := ih hc0 hc5
    refine ⟨{ size := st.mid, pad := padRequest req maxLine st.mid, status := status } :: trials,
      ?_, ?_, ?_, ?_, ?_⟩
    · rw [ht1, hp]
      simp
    · rw [transientCount_cons, ht2, hce]
      push_cast
      ring
    · rw [transientCount_cons]
      push_cast
      omega
    · rw [ht4, transientCount_cons]
      push_cast
      omega
    · intro h
      obtain ⟨p, hp1, hp2⟩ := ht5 h
      refine ⟨p, ?_, hp2⟩
      cases trials with
      | nil => simp at hp1
      | cons q qs =>
        rw [List.getLast?_cons_cons]
        exact hp1

/-- C9: the retry budget.  A trial classified TransientError while the counter
stays at most 5 leaves `minSize`, `maxSize` and `detectedSize` unchanged, so
the same `midSize` is tried again, and adds one to the counter; a trial
classified otherwise leaves the counter unchanged, so the budget is never
restored.  Over a detection run, however many of its trials are followed, at
most 6 trials are classified TransientError, the run ends with "Too many
failures" exactly when there are 6, and then the sixth is the last request
sent. -/
theorem main_retry_budget (flags : Flags) (Do : Transport) (fuel : Nat)
    (hml : minimumOverhead ≤ flags.maxLine) (hdet : flags.detect = true)
    (hmm : flags.minSize ≤ flags.maxSize) :
    (∀ (refStatus : Int) (st : DetectState) (r : PadResult) (status : Int),
        classify status refStatus flags.codeOk flags.codeBad = Outcome.TransientError →
        st.errorCount + 1 ≤ 5 →
        ∃ st1, trialStep refStatus flags.codeOk flags.codeBad st st.mid r status = (st1, none) ∧
          st1.minSize = st.minSize ∧ st1.maxSize = st.maxSize ∧
          st1.detectedSize = st.detectedSize ∧ st1.mid = st.mid ∧
          st1.errorCount = st.errorCount + 1) ∧
      (∀ (refStatus : Int) (st : DetectState) (r : PadResult) (status : Int),
        classify status refStatus flags.codeOk flags.codeBad ≠ Outcome.TransientError →
        (trialStep refStatus flags.codeOk flags.codeBad st st.mid r status).1.errorCount
          = st.errorCount) ∧
      transientTrials flags.codeOk flags.codeBad (main flags Do fuel).probes ≤ 6 ∧
      (Fatal.isTooManyFailures (main flags Do fuel).fatal = true ↔
        transientTrials flags.codeOk flags.codeBad (main flags Do fuel).probes = 6) ∧
      (Fatal.isTooManyFailures (main flags Do fuel).fatal = true →
        ∃ (ref : Probe) (trials : List Probe) (p : Probe),
          (main flags Do fuel).probes = ref :: trials ∧ trials.getLast? = some p ∧
          classify p.status ref.status flags.codeOk flags.codeBad
            = Outcome.TransientError) := by
  refine ⟨?_, ?_, ?_⟩
  · intro refStatus st r status hc h5
    rw [trialStep_transient _ _ _ _ _ _ _ hc, if_neg (by omega)]
    exact ⟨_, rfl, rfl, rfl, rfl, rfl, rfl⟩
  · intro refStatus st r status hc
    cases hc' : classify status refStatus flags.codeOk flags.codeBad
    · rw [trialStep_accepted _ _ _ _ _ _ _ hc']
    · rw [trialStep_rejected _ _ _ _ _ _ _ hc']
    · exact absurd hc' hc
    · rw [trialStep_unexpected _ _ _ _ _ _ _ hc']
  · by_cases hmeth : validMethod (baseRequest flags).Method = true
    swap
    · rw [main_invalid_method flags Do fuel hml (fun h => absurd hmm (not_le.mpr h.2))
        (by simpa using hmeth)]
      refine ⟨by simp [transientTrials], ?_, ?_⟩
      · simp [transientTrials, Fatal.isTooManyFailures]
      · intro h
        cases h
    cases href : Do 0 (referencePad flags).r with
    | error err =>
      rw [main_reference_error flags Do err fuel hml hdet hmm hmeth href]
      refine ⟨by simp [transientTrials], ?_, ?_⟩
      · simp [transientTrials, Fatal.isTooManyFailures]
      · intro h
        cases h
    | ok refStatus =>
      by_cases hrej : initialRejected refStatus = true
      · rw [main_initial_rejected flags Do refStatus fuel hml hdet hmm hmeth href hrej]
        refine ⟨by simp [transientTrials, transientCount], ?_, ?_⟩
        · simp [transientTrials, transientCount, Fatal.isTooManyFailures]
        · intro h
          cases h
      · have hpass : initialRejected refStatus = false := by
          simpa using hrej
        obtain ⟨trials, ht1, _, ht3, ht4, ht5⟩ := detectLoop_errorCount (baseRequest flags)
          flags.maxLine refStatus flags.codeOk flags.codeBad Do fuel
          (DetectState.start (effectiveMinSize flags) (effectiveMaxSize flags) refStatus
            (referencePad flags)) (le_refl _) (by simp [DetectState.start])
        have ht1' : (detectRun flags Do refStatus fuel).final.probes
            = { size := effectiveMinSize flags, pad := referencePad flags, status := refStatus }
              :: trials := ht1
        have hprobes : (main flags Do fuel).probes
            = (detectRun flags Do refStatus fuel).final.probes := by
          rw [main_detect flags Do refStatus fuel hml hdet hmm hmeth href hpass]
          cases (detectRun flags Do refStatus fuel).fatal with
          | some f => rfl
          | none =>
            simp only
            split_ifs <;> rfl
        have hfatal : (main flags Do fuel).fatal = (detectRun flags Do refStatus fuel).fatal := by
          rw [main_detect flags Do refStatus fuel hml hdet hmm hmeth href hpass]
          cases (detectRun flags Do refStatus fuel).fatal with
          | some f => rfl
          | none =>
            simp only
            split_ifs <;> rfl
        have hzero : (DetectState.start (effectiveMinSize flags) (effectiveMaxSize flags)
            refStatus (referencePad flags)).errorCount = 0 := rfl
        rw [hzero] at ht3 ht4
        rw [hprobes, hfatal, ht1']
        simp only [transientTrials]
        refine ⟨by omega, ?_, ?_⟩
        · rw [show Fatal.isTooManyFailures (detectRun flags Do refStatus fuel).fatal = true ↔ _
            from ht4]
          omega
        · intro h
          obtain ⟨p, hp1, hp2⟩ := ht5 h
          exact ⟨_, trials, p, rfl, hp1, hp2⟩

/-- A server that keeps answering trials with a status classified
TransientError exhausts the budget: from a counter of `5 - j` the loop sends
`j + 1` more requests, all for the same size, and ends with "Too many
failures". -/
theorem detectLoop_transient_forever (req : Request) (maxLine refStatus codeOk codeBad : Int)
    (Do : Transport) (status : Int)
    (hc : classify status refStatus codeOk codeBad = Outcome.TransientError) (j : Nat) :
    ∀ (fuel : Nat) (st : DetectState), st.minSize ≤ st.maxSize →
      st.errorCount = 5 - (j : Int) →
      (∀ (k : Nat) (r : Request), st.probes.length ≤ k → Do k r = Except.ok status) →
      (detectLoop req maxLine refStatus codeOk codeBad Do (fuel + j + 1) st).fatal
          = some (Fatal.tooManyFailures st.mid st.minSize st.maxSize) ∧
        (detectLoop req maxLine refStatus codeOk codeBad Do (fuel + j + 1) st).final.probes.length
          = st.probes.length + j + 1 := by
  induction j with
  | zero =>
    intro fuel st hle he hdo
    have hstep := trialStep_transient refStatus codeOk codeBad st st.mid
      (padRequest req maxLine st.mid) status hc
    rw [if_pos (by rw [he]; decide)] at hstep
    rw [detectLoop_fatal req maxLine refStatus codeOk codeBad Do (fuel + 0) st _ status _ hle
      (hdo _ _ (le_refl _)) hstep]
    simp
  | succ j ih =>
    intro fuel st hle he hdo
    have hstep := trialStep_transient refStatus codeOk codeBad st st.mid
      (padRequest req maxLine st.mid) status hc
    rw [if_neg (by rw [he]; push_cast; omega)] at hstep
    rw [show fuel + (j + 1) + 1 = (fuel + j + 1) + 1 from rfl,
      detectLoop_next req maxLine refStatus codeOk codeBad Do (fuel + j + 1) st _ status hle
        (hdo _ _ (le_refl _)) hstep]
    have h := ih fuel
      { st with errorCount := st.errorCount + 1,
                probes := st.probes ++
                  [{ size := st.mid, pad := padRequest req maxLine st.mid, status := status }] }
      hle (by simp only; rw [he]; push_cast; ring)
      (fun k r hk => hdo k r (by
        simp only [List.length_append, List.length_singleton] at hk
        omega))
    refine ⟨h.1, ?_⟩
    rw [h.2]
    simp only [List.length_append, List.length_singleton]
    ring

/-- The fourth concrete scenario of the specification: the server answers the
reference probe with 200 and every trial with 503; after six trials at size
150 the run ends with "Too many failures, tried 150 in [101,200]". -/
theorem main_failingServer :
    (main exampleFlags failingServer 7).fatal = some (Fatal.tooManyFailures 150 101 200) ∧
      (main exampleFlags failingServer 7).probes.length = 7 := by
  have hc : classify 503 200 exampleFlags.codeOk exampleFlags.codeBad
      = Outcome.TransientError := by decide
  have h := detectLoop_transient_forever (baseRequest exampleFlags) exampleFlags.maxLine 200
    exampleFlags.codeOk exampleFlags.codeBad failingServer 503 hc 5 1
    (DetectState.start (effectiveMinSize exampleFlags) (effectiveMaxSize exampleFlags) 200
      (referencePad exampleFlags))
    (by decide) (by decide)
    (fun k r hk => by
      have hk' : k ≠ 0 := by
        simp only [DetectState.start, List.length_singleton] at hk
        omega
      simp [failingServer, hk'])
  have hf : (detectRun exampleFlags failingServer 200 7).fatal
      = some (Fatal.tooManyFailures 150 101 200) := by
    have h1 := h.1
    have hmid : (DetectState.start (effectiveMinSize exampleFlags)
        (effectiveMaxSize exampleFlags) 200 (referencePad exampleFlags)).mid = 150 := by decide
    have hmin : (DetectState.start (effectiveMinSize exampleFlags)
        (effectiveMaxSize exampleFlags) 200 (referencePad exampleFlags)).minSize = 101 := by
      decide
    have hmax : (DetectState.start (effectiveMinSize exampleFlags)
        (effectiveMaxSize exampleFlags) 200 (referencePad exampleFlags)).maxSize = 200 := by
      decide
    rw [hmid, hmin, hmax] at h1
    exact h1
  have hl : (detectRun exampleFlags failingServer 200 7).final.probes.length = 7 := h.2
  rw [main_detect exampleFlags failingServer 200 7 (by decide) rfl (by decide) (by decide) rfl
    (by decide), hf]
  exact ⟨rfl, hl⟩

/-- Witness for C9: the example command line against a server that answers
the reference probe with 200 and every trial with 503; the run ends with
"Too many failures" after six trials classified TransientError. -/
theorem main_retry_budget_witness :
    minimumOverhead ≤ exampleFlags.maxLine ∧ exampleFlags.minSize ≤ exampleFlags.maxSize ∧
      Fatal.isTooManyFailures (main exampleFlags failingServer 7).fatal = true ∧
      transientTrials exampleFlags.codeOk exampleFlags.codeBad
        (main exampleFlags failingServer 7).probes = 6 :=
  ⟨by decide, by decide, by rw [main_failingServer.1]; rfl,
    (main_retry_budget exampleFlags failingServer 7 (by decide) rfl (by decide)).2.2.2.1.mp
      (by rw [main_failingServer.1]; rfl)⟩

/-! ## The number of probes -/

/-- A trial that does not end the run keeps twice either bound of the interval
within the range of `int`. -/
theorem trialStep_range (refStatus codeOk codeBad : Int) (st st1 : DetectState)
    (r : PadResult) (status : Int) (f : Option Fatal) (h : st.minSize ≤ st.maxSize)
    (hlo : MinInt64 ≤ 2 * st.minSize) (hhi : 2 * st.maxSize ≤ MaxInt64)
    (hstep : trialStep refStatus codeOk codeBad st st.mid r status = (st1, f)) :
    MinInt64 ≤ 2 * st1.minSize ∧ 2 * st1.maxSize ≤ MaxInt64 := by
  have hm := mid_bounds st h hlo hhi
  cases hc : classify status refStatus codeOk codeBad
  · rw [trialStep_accepted _ _ _ _ _ _ _ hc] at hstep
    cases hstep
    simp only
    omega
  · rw [trialStep_rejected _ _ _ _ _ _ _ hc] at hstep
    cases hstep
    simp only
    omega
  · rw [trialStep_transient _ _ _ _ _ _ _ hc] at hstep
    cases hstep
    exact ⟨hlo, hhi⟩
  · rw [trialStep_unexpected _ _ _ _ _ _ _ hc] at hstep
    cases hstep
    exact ⟨hlo, hhi⟩

/-- Every trial is paid for by a halving of the interval or by a transient
error, as long as no sum `minSize + maxSize` wraps around. -/
theorem detectLoop_probe_count (req : Request) (maxLine refStatus codeOk codeBad : Int)
    (Do : Transport) (fuel : Nat) (st : DetectState) :
    MinInt64 ≤ 2 * st.minSize → 2 * st.maxSize ≤ MaxInt64 →
    ∃ trials : List Probe,
      (detectLoop req maxLine refStatus codeOk codeBad Do fuel st).final.probes
        = st.probes ++ trials ∧
      trials.length ≤ bisectionSteps (st.maxSize - st.minSize + 1)
        + transientCount refStatus codeOk codeBad trials := by
  refine detectLoop_induct req maxLine refStatus codeOk codeBad Do
    (fun _ st run => MinInt64 ≤ 2 * st.minSize → 2 * st.maxSize ≤ MaxInt64 →
      ∃ trials : List Probe, run.final.probes = st.probes ++ trials ∧
      trials.length ≤ bisectionSteps (st.maxSize - st.minSize + 1)
        + transientCount refStatus codeOk codeBad trials) ?_ ?_ ?_ ?_ ?_ fuel st
  · intro st _ _ _
    exact ⟨[], by simp, by simp⟩
  · intro _ st _ _ _
    exact ⟨[], by simp, by simp⟩
  · intro _ st _ _ _ _ _
    exact ⟨[], by simp, by simp⟩
  · intro _ st st1 status f hle _ hstep _ _
    have hp := trialStep_probes refStatus codeOk codeBad st st.mid
      (padRequest req maxLine st.mid) status
    rw [hstep] at hp
    have hpos := bisectionSteps_pos (st.maxSize - st.minSize + 1) (by omega)
    refine ⟨[{ size := st.mid, pad := padRequest req maxLine st.mid, status := status }],
      hp, ?_⟩
    simp only [List.length_singleton]
    omega
  · intro _ st st1 status run hle _ hstep ih hlo hhi
    have hp := trialStep_probes refStatus codeOk codeBad st st.mid
      (padRequest req maxLine st.mid) status
    rw [hstep] at hp
    simp only at hp
    have hhalf := mid_halves st hle hlo hhi
    have hrange := trialStep_range refStatus codeOk codeBad st st1 _ status none hle hlo hhi
      hstep
    obtain ⟨trials, ht1, ht2⟩ := ih hrange.1 hrange.2
    refine ⟨{ size := st.mid, pad := padRequest req maxLine st.mid, status := status } :: trials,
      ?_, ?_⟩
    · rw [ht1, hp]
      simp
    · rw [transientCount_cons, transientCount_single, List.length_cons]
      cases hc : classify status refStatus codeOk codeBad
      · rw [trialStep_accepted _ _ _ _ _ _ _ hc] at hstep
        cases hstep
        have := bisectionSteps_halve (st.maxSize - st.minSize + 1)
          (st.maxSize - (st.mid + 1) + 1) (by omega) (by omega)
        simp only at ht2
        rw [if_neg (by decide)]
        omega
      · rw [trialStep_rejected _ _ _ _ _ _ _ hc] at hstep
        cases hstep
        have := bisectionSteps_halve (st.maxSize - st.minSize + 1)
          (st.mid - 1 - st.minSize + 1) (by omega) (by omega)
        simp only at ht2
        rw [if_neg (by decide)]
        omega
      · rw [trialStep_transient _ _ _ _ _ _ _ hc] at hstep
        by_cases h6 : st.errorCount + 1 > 5
        · rw [if_pos h6] at hstep
          cases hstep
        · rw [if_neg h6] at hstep
          cases hstep
          simp only at ht2
          simp only [hc, if_true]
          omega
      · rw [trialStep_unexpected _ _ _ _ _ _ _ hc] at hstep
        cases hstep

/-- The loop ends: as long as no sum `minSize + maxSize` wraps around, it is
over after the bisection steps of its interval and the transient errors the
counter still allows. -/
theorem detectLoop_ends (req : Request) (maxLine refStatus codeOk codeBad : Int)
    (Do : Transport) (fuel : Nat) (st : DetectState) :
    MinInt64 ≤ 2 * st.minSize → 2 * st.maxSize ≤ MaxInt64 →
    bisectionSteps (st.maxSize - st.minSize + 1) + (6 - st.errorCount).toNat ≤ fuel →
    (detectLoop req maxLine refStatus codeOk codeBad Do fuel st).running = false := by
  refine detectLoop_induct req maxLine refStatus codeOk codeBad Do
    (fun fuel st run => MinInt64 ≤ 2 * st.minSize → 2 * st.maxSize ≤ MaxInt64 →
      bisectionSteps (st.maxSize - st.minSize + 1) + (6 - st.errorCount).toNat ≤ fuel →
      run.running = false) ?_ ?_ ?_ ?_ ?_ fuel st
  · intro st hle _ _ hfuel
    have hpos := bisectionSteps_pos (st.maxSize - st.minSize + 1) (by omega)
    omega
  · intro _ _ _ _ _ _
    rfl
  · intro _ _ _ _ _ _ _ _
    rfl
  · intro _ _ _ _ _ _ _ _ _ _ _
    rfl
  · intro fuel st st1 status run hle _ hstep ih hlo hhi hfuel
    have hhalf := mid_halves st hle hlo hhi
    have hrange := trialStep_range refStatus codeOk codeBad st st1 _ status none hle hlo hhi
      hstep
    apply ih hrange.1 hrange.2
    cases hc : classify status refStatus codeOk codeBad
    · rw [trialStep_accepted _ _ _ _ _ _ _ hc] at hstep
      cases hstep
      have := bisectionSteps_halve (st.maxSize - st.minSize + 1)
        (st.maxSize - (st.mid + 1) + 1) (by omega) (by omega)
      simp only
      omega
    · rw [trialStep_rejected _ _ _ _ _ _ _ hc] at hstep
      cases hstep
      have := bisectionSteps_halve (st.maxSize - st.minSize + 1)
        (st.mid - 1 - st.minSize + 1) (by omega) (by omega)
      simp only
      omega
    · rw [trialStep_transient _ _ _ _ _ _ _ hc] at hstep
      by_cases h6 : st.errorCount + 1 > 5
      · rw [if_pos h6] at hstep
        cases hstep
      · rw [if_neg h6] at hstep
        cases hstep
        simp only
        omega
    · rw [trialStep_unexpected _ _ _ _ _ _ _ hc] at hstep
      cases hstep

theorem decisiveCount_add_transientCount_le (refStatus codeOk codeBad : Int)
    (l : List Probe) :
    decisiveCount refStatus codeOk codeBad l + transientCount refStatus codeOk codeBad l
      ≤ l.length := by
  induction l with
  | nil => simp [decisiveCount, transientCount]
  | cons p l ih =>
    unfold decisiveCount transientCount at ih ⊢
    rw [List.countP_cons, List.countP_cons, List.length_cons]
    cases hc : classify p.status refStatus codeOk codeBad <;> simp at ih ⊢ <;> omega

/-- As long as no sum `minSize + maxSize` wraps around, the trials classified
Accepted or Rejected are at most the bisection steps of the interval the loop
starts on. -/
theorem detectLoop_decisive_in_range (req : Request)
    (maxLine refStatus codeOk codeBad : Int) (Do : Transport) (fuel : Nat) (st : DetectState)
    (hlo : MinInt64 ≤ 2 * st.minSize) (hhi : 2 * st.maxSize ≤ MaxInt64) :
    ∃ trials : List Probe,
      (detectLoop req maxLine refStatus codeOk codeBad Do fuel st).final.probes
        = st.probes ++ trials ∧
      decisiveCount refStatus codeOk codeBad trials
        ≤ bisectionSteps (st.maxSize - st.minSize + 1) := by
  obtain ⟨trials, h1, h2⟩ :=
    detectLoop_probe_count req maxLine refStatus codeOk codeBad Do fuel st hlo hhi
  have h3 := decisiveCount_add_transientCount_le refStatus codeOk codeBad trials
  exact ⟨trials, h1, by omega⟩

/-- C10 as amended: when the loop starts on an interval with
`N = maxSize - minSize + 1 ≥ 1` candidate sizes, twice whose bounds are values
of `int`, then for every sequence of responses it sends at most
`⌊log₂ N⌋ + 1` requests plus one for each trial classified TransientError,
however many trials are followed; and it is over once `⌊log₂ N⌋ + 1` trials
plus the transient errors the counter still allows have been followed. -/
theorem detectLoop_probe_bound (req : Request) (maxLine refStatus codeOk codeBad : Int)
    (Do : Transport) (st : DetectState) (fuel : Nat)
    (hN : 1 ≤ st.maxSize - st.minSize + 1)
    (hlo : MinInt64 ≤ 2 * st.minSize) (hhi : 2 * st.maxSize ≤ MaxInt64) :
    (∃ trials : List Probe,
      (detectLoop req maxLine refStatus codeOk codeBad Do fuel st).final.probes
        = st.probes ++ trials ∧
      trials.length ≤ Nat.log 2 (st.maxSize - st.minSize + 1).toNat + 1
        + transientCount refStatus codeOk codeBad trials) ∧
      (Nat.log 2 (st.maxSize - st.minSize + 1).toNat + 1 + (6 - st.errorCount).toNat ≤ fuel →
        (detectLoop req maxLine refStatus codeOk codeBad Do fuel st).running = false) := by
  have hsteps : bisectionSteps (st.maxSize - st.minSize + 1)
      = Nat.log 2 (st.maxSize - st.minSize + 1).toNat + 1 := by
    unfold bisectionSteps
    rw [if_pos (by omega)]
  constructor
  · obtain ⟨trials, h1, h2⟩ :=
      detectLoop_probe_count req maxLine refStatus codeOk codeBad Do fuel st hlo hhi
    rw [hsteps] at h2
    exact ⟨trials, h1, h2⟩
  · intro hfuel
    apply detectLoop_ends req maxLine refStatus codeOk codeBad Do fuel st hlo hhi
    rw [hsteps]
    exact hfuel

/-- The run of the loop on the single candidate size 101 when the server
answers 200: one trial at 101, accepted. -/
theorem detectLoop_singletonState (fuel : Nat) :
    detectLoop testRequest 8192 200 0 0 (constantServer 200) (fuel + 1) singletonState
      = { final :=
            { singletonState with
              minSize := 102, detectedSize := 101, successResponse := 200,
              probes := singletonState.probes ++
                [{ size := 101, pad := padRequest testRequest 8192 101, status := 200 }] },
          fatal := none, running := false } := by
  have hmid : singletonState.mid = 101 := by decide
  have hc : classify 200 200 0 0 = Outcome.Accepted := by decide
  rw [detectLoop_next testRequest 8192 200 0 0 (constantServer 200) fuel singletonState _ 200
    (by decide) rfl (trialStep_accepted 200 0 0 singletonState singletonState.mid
      (padRequest testRequest 8192 singletonState.mid) 200 hc)]
  rw [detectLoop_done _ _ _ _ _ _ _ _ (by rw [hmid]; decide), hmid]
  rfl

/-- Witness for the amended C10: the loop started on the single candidate
size 101 against a server that always answers 200, followed for 7 trials. -/
theorem detectLoop_probe_bound_witness :
    1 ≤ singletonState.maxSize - singletonState.minSize + 1 ∧
      MinInt64 ≤ 2 * singletonState.minSize ∧ 2 * singletonState.maxSize ≤ MaxInt64 ∧
      (∃ trials : List Probe,
        (detectLoop testRequest 8192 200 0 0 (constantServer 200) 7 singletonState).final.probes
          = singletonState.probes ++ trials ∧
        trials.length ≤ Nat.log 2 (singletonState.maxSize - singletonState.minSize + 1).toNat + 1
          + transientCount 200 0 0 trials) ∧
      (detectLoop testRequest 8192 200 0 0 (constantServer 200) 7 singletonState).running
        = false :=
  have h := detectLoop_probe_bound testRequest 8192 200 0 0 (constantServer 200) singletonState 7
    (by decide) (by decide) (by decide)
  ⟨by decide, by decide, by decide, h.1, h.2 (by
    have e : (singletonState.maxSize - singletonState.minSize + 1).toNat = 1 := by decide
    have e6 : ((6 : Int) - singletonState.errorCount).toNat = 6 := by decide
    rw [e, e6]
    simp)⟩

/-- C10 fails as stated: started on `N = 1` candidate size with a server that
always answers 200, the loop sends one request and is over, none of its trials
is classified TransientError, it ends without a fatal error, and
`⌈log₂ 1⌉ = 0`. -/
theorem detectLoop_exceeds_clog :
    singletonState.maxSize - singletonState.minSize + 1 = 1 ∧
      (detectLoop testRequest 8192 200 0 0 (constantServer 200) 7 singletonState).running
        = false ∧
      (detectLoop testRequest 8192 200 0 0 (constantServer 200) 7 singletonState).fatal = none ∧
      ∃ trials : List Probe,
        (detectLoop testRequest 8192 200 0 0 (constantServer 200) 7 singletonState).final.probes
          = singletonState.probes ++ trials ∧
        ¬ (trials.length ≤ Nat.clog 2 1 + transientCount 200 0 0 trials) := by
  rw [detectLoop_singletonState 6]
  refine ⟨by decide, rfl, rfl,
    [{ size := 101, pad := padRequest testRequest 8192 101, status := 200 }], rfl, ?_⟩
  have hc : Nat.clog 2 1 = 0 := by simp
  rw [hc, transientCount_single]
  decide

/-! ## Runs trial by trial -/

theorem detectLoop_accept (req : Request) (maxLine refStatus codeOk codeBad : Int)
    (Do : Transport) (fuel : Nat) (st : DetectState) (status : Int)
    (h : st.minSize ≤ st.maxSize)
    (hdo : Do st.probes.length (padRequest req maxLine st.mid).r = Except.ok status)
    (hc : classify status refStatus codeOk codeBad = Outcome.Accepted) :
    detectLoop req maxLine refStatus codeOk codeBad Do (fuel + 1) st
      = detectLoop req maxLine refStatus codeOk codeBad Do fuel
          { st with minSize := st.mid + 1, detectedSize := st.mid, successResponse := status,
                    probes := st.probes ++
                      [{ size := st.mid, pad := padRequest req maxLine st.mid,
                         status := status }] } :=
  detectLoop_next req maxLine refStatus codeOk codeBad Do fuel st _ status h hdo
    (trialStep_accepted _ _ _ _ _ _ _ hc)

theorem detectLoop_reject (req : Request) (maxLine refStatus codeOk codeBad : Int)
    (Do : Transport) (fuel : Nat) (st : DetectState) (status : Int)
    (h : st.minSize ≤ st.maxSize)
    (hdo : Do st.probes.length (padRequest req maxLine st.mid).r = Except.ok status)
    (hc : classify status refStatus codeOk codeBad = Outcome.Rejected) :
    detectLoop req maxLine refStatus codeOk codeBad Do (fuel + 1) st
      = detectLoop req maxLine refStatus codeOk codeBad Do fuel
          { st with maxSize := st.mid - 1, badResponse := some status,
                    probes := st.probes ++
                      [{ size := st.mid, pad := padRequest req maxLine st.mid,
                         status := status }] } :=
  detectLoop_next req maxLine refStatus codeOk codeBad Do fuel st _ status h hdo
    (trialStep_rejected _ _ _ _ _ _ _ hc)

/-- A budget that is not positive: the loop of `padRequest` is not entered. -/
theorem padRequest_nonpositive (req : Request) (maxLine target : Int)
    (h : intSub target (measure req) ≤ 0) :
    padRequest req maxLine target = { r := req, sets := [], shortfall := none } := by
  rw [padRequest_loop]
  exact padLoop_done maxLine req [] _ _ 0 h

/-- A target at or below the base size, with `target - B` a value of `int`: the
base request is returned, no field is set and there is no warning. -/
theorem padRequest_below_base_in_range (req : Request) (maxLine target : Int)
    (h : target ≤ measure req) (hr : InRange (target - measure req)) :
    padRequest req maxLine target = { r := req, sets := [], shortfall := none } :=
  padRequest_nonpositive req maxLine target (by
    rw [intSub_eq_sub (fun _ _ => hr)]
    omega)

theorem start_eq (lo hi refStatus : Int) (r : PadResult) (lo1 : Int) (h : intAdd lo 1 = lo1) :
    DetectState.start lo hi refStatus r
      = { minSize := lo1, maxSize := hi, detectedSize := lo, errorCount := 0,
          successResponse := refStatus, badResponse := none,
          probes := [{ size := lo, pad := r, status := refStatus }] } := by
  subst h
  rfl

/-- A trial at `m` that is classified Accepted, on a state given by its
fields. -/
theorem detectLoop_accept_at (req : Request) (maxLine refStatus codeOk codeBad : Int)
    (Do : Transport) (fuel : Nat) (a b d e sr : Int) (br : Option Int) (ps : List Probe)
    (m a1 status : Int) (hm : (intAdd a b).tdiv 2 = m) (ha1 : m + 1 = a1) (hle : a ≤ b)
    (hdo : Do ps.length (padRequest req maxLine m).r = Except.ok status)
    (hc : classify status refStatus codeOk codeBad = Outcome.Accepted) :
    detectLoop req maxLine refStatus codeOk codeBad Do (fuel + 1)
        { minSize := a, maxSize := b, detectedSize := d, errorCount := e,
          successResponse := sr, badResponse := br, probes := ps }
      = detectLoop req maxLine refStatus codeOk codeBad Do fuel
          { minSize := a1, maxSize := b, detectedSize := m, errorCount := e,
            successResponse := status, badResponse := br,
            probes := ps ++ [{ size := m, pad := padRequest req maxLine m, status := status }] } := by
  subst hm ha1
  exact detectLoop_accept req maxLine refStatus codeOk codeBad Do fuel _ status hle hdo hc

/-- A trial at `m` that is classified Rejected, on a state given by its
fields. -/
theorem detectLoop_reject_at (req : Request) (maxLine refStatus codeOk codeBad : Int)
    (Do : Transport) (fuel : Nat) (a b d e sr : Int) (br : Option Int) (ps : List Probe)
    (m b1 status : Int) (hm : (intAdd a b).tdiv 2 = m) (hb1 : m - 1 = b1) (hle : a ≤ b)
    (hdo : Do ps.length (padRequest req maxLine m).r = Except.ok status)
    (hc : classify status refStatus codeOk codeBad = Outcome.Rejected) :
    detectLoop req maxLine refStatus codeOk codeBad Do (fuel + 1)
        { minSize := a, maxSize := b, detectedSize := d, errorCount := e,
          successResponse := sr, badResponse := br, probes := ps }
      = detectLoop req maxLine refStatus codeOk codeBad Do fuel
          { minSize := a, maxSize := b1, detectedSize := d, errorCount := e,
            successResponse := sr, badResponse := some status,
            probes := ps ++ [{ size := m, pad := padRequest req maxLine m, status := status }] } := by
  subst hm hb1
  exact detectLoop_reject req maxLine refStatus codeOk codeBad Do fuel _ status hle hdo hc

/-! ## Sizes the controller records and sizes it sends -/

theorem measure_baseRequest_gapFlags : measure (baseRequest gapFlags) = 36 :=
  measure_baseRequest_exampleFlags

/-- On the command line `gapFlags` a size from 37 to 44 is not delivered: the
request sent is the base request of 36 bytes. -/
theorem padRequest_gapFlags_gap (s : Int) (h1 : 36 < s) (h2 : s < 45) :
    (padRequest (baseRequest gapFlags) 8192 s).r = baseRequest gapFlags ∧
      measure (padRequest (baseRequest gapFlags) 8192 s).r = 36 := by
  have hB := measure_baseRequest_gapFlags
  rw [padRequest_gap _ _ _ (by omega) (by omega)]
  exact ⟨rfl, hB⟩

theorem padRequest_gapFlags_exact (s : Int) (h1 : 45 ≤ s) (h2 : s ≤ 200) :
    measure (padRequest (baseRequest gapFlags) 8192 s).r = s := by
  have hB := measure_baseRequest_gapFlags
  exact (padRequest_exact_ten_lines (baseRequest gapFlags) 8192 s
    (noPadHeader_baseRequest _) (by decide) (by omega) (by omega)).1

theorem padRequest_gapFlags_base :
    measure (padRequest (baseRequest gapFlags) 8192 36).r = 36 := by
  have hB := measure_baseRequest_gapFlags
  rw [padRequest_nonpositive _ _ _ (by rw [hB]; decide)]
  exact hB

/-- C6 at a failing input: `-detect -min-size 0 -max-size 56` for a base
request of 36 bytes, against a server that accepts requests of at most 40
bytes.  The start-up checks pass and `maxSize` stays 56.  The trials at 41, 43
and 44 are recorded with these sizes and send the unpadded request of 36
bytes, which the server accepts; the run ends without a fatal error and prints
44 as the detected size, a size of no request that was sent and above the 40
bytes the server accepts. -/
theorem main_detects_unsent_size :
    minimumOverhead ≤ gapFlags.maxLine ∧ gapFlags.minSize ≤ gapFlags.maxSize ∧
      validMethod (baseRequest gapFlags).Method = true ∧
      effectiveMinSize gapFlags = 36 ∧ effectiveMaxSize gapFlags = 56 ∧
      (main gapFlags (thresholdServer 40) 5).running = false ∧
      (main gapFlags (thresholdServer 40) 5).fatal = none ∧
      (main gapFlags (thresholdServer 40) 5).detected = some 44 ∧
      (main gapFlags (thresholdServer 40) 5).probes.map Probe.summary
        = [(36, 36, 200), (46, 46, 431), (41, 36, 200), (43, 36, 200), (44, 36, 200),
            (45, 45, 431)] := by
  have hB := measure_baseRequest_gapFlags
  have hlo : effectiveMinSize gapFlags = 36 := by
    unfold effectiveMinSize
    rw [hB]
    decide
  have hhi : effectiveMaxSize gapFlags = 56 := by
    unfold effectiveMaxSize
    rw [hB]
    decide
  have hpad : referencePad gapFlags = padRequest (baseRequest gapFlags) 8192 36 := by
    unfold referencePad
    rw [hlo]
    rfl
  have h36 := padRequest_gapFlags_base
  have h41 := (padRequest_gapFlags_gap 41 (by decide) (by decide)).2
  have h43 := (padRequest_gapFlags_gap 43 (by decide) (by decide)).2
  have h44 := (padRequest_gapFlags_gap 44 (by decide) (by decide)).2
  have h45 := padRequest_gapFlags_exact 45 (by decide) (by decide)
  have h46 := padRequest_gapFlags_exact 46 (by decide) (by decide)
  have hdo : ∀ (k : Nat) (s m : Int),
      measure (padRequest (baseRequest gapFlags) 8192 s).r = m →
      thresholdServer 40 k (padRequest (baseRequest gapFlags) 8192 s).r
        = Except.ok (if m ≤ 40 then 200 else 431) := by
    intro k s m hm
    show Except.ok (if measure (padRequest (baseRequest gapFlags) 8192 s).r ≤ 40
      then 200 else 431) = _
    rw [hm]
  have hrun : detectRun gapFlags (thresholdServer 40) 200 5
      = { final :=
            { minSize := 45, maxSize := 44, detectedSize := 44, errorCount := 0,
              successResponse := 200, badResponse := some 431,
              probes :=
                [{ size := 36, pad := padRequest (baseRequest gapFlags) 8192 36, status := 200 }]
                ++ [{ size := 46, pad := padRequest (baseRequest gapFlags) 8192 46, status := 431 }]
                ++ [{ size := 41, pad := padRequest (baseRequest gapFlags) 8192 41, status := 200 }]
                ++ [{ size := 43, pad := padRequest (baseRequest gapFlags) 8192 43, status := 200 }]
                ++ [{ size := 44, pad := padRequest (baseRequest gapFlags) 8192 44, status := 200 }]
                ++ [{ size := 45, pad := padRequest (baseRequest gapFlags) 8192 45, status := 431 }] },
          fatal := none, running := false } := by
    unfold detectRun
    rw [hlo, hhi, hpad, start_eq 36 56 200 _ 37 (by decide)]
    show detectLoop (baseRequest gapFlags) 8192 200 0 0 (thresholdServer 40) (4 + 1) _ = _
    rw [detectLoop_reject_at (baseRequest gapFlags) 8192 200 0 0 (thresholdServer 40) 4 37 56 36
      0 200 none _ 46 45 431 (by decide) (by decide) (by decide) (hdo _ 46 46 h46) (by decide)]
    rw [detectLoop_accept_at (baseRequest gapFlags) 8192 200 0 0 (thresholdServer 40) 3 37 45 36
      0 200 (some 431) _ 41 42 200 (by decide) (by decide) (by decide) (hdo _ 41 36 h41)
      (by decide)]
    rw [detectLoop_accept_at (baseRequest gapFlags) 8192 200 0 0 (thresholdServer 40) 2 42 45 41
      0 200 (some 431) _ 43 44 200 (by decide) (by decide) (by decide) (hdo _ 43 36 h43)
      (by decide)]
    rw [detectLoop_accept_at (baseRequest gapFlags) 8192 200 0 0 (thresholdServer 40) 1 44 45 43
      0 200 (some 431) _ 44 45 200 (by decide) (by decide) (by decide) (hdo _ 44 36 h44)
      (by decide)]
    rw [detectLoop_reject_at (baseRequest gapFlags) 8192 200 0 0 (thresholdServer 40) 0 45 45 44
      0 200 (some 431) _ 45 44 431 (by decide) (by decide) (by decide) (hdo _ 45 45 h45)
      (by decide)]
    rw [detectLoop_done _ _ _ _ _ _ _ _ (by decide)]
  have href : thresholdServer 40 0 (referencePad gapFlags).r = Except.ok 200 := by
    rw [hpad]
    exact hdo 0 36 36 h36
  rw [main_detect gapFlags (thresholdServer 40) 200 5 (by decide) rfl (by decide) (by decide)
    href (by decide), hrun]
  refine ⟨by decide, by decide, by decide, hlo, hhi, rfl, rfl, rfl, ?_⟩
  simp [Probe.summary, h36, h41, h43, h44, h45, h46]

/-! ## The invariants of the loop while no midpoint wraps around -/

/-- What the loop keeps when it is started with `detectedSize = minSize - 1`
and `minSize ≤ maxSize + 1` on bounds twice which are values of `int`: both
relations, `minSize` and `detectedSize` only grow, `maxSize` only shrinks, a
loop that is over without a fatal error has `detectedSize = maxSize`, and
`maxSize` is unchanged as long as `badResponse` is nil. -/
theorem detectLoop_invariant (req : Request) (maxLine refStatus codeOk codeBad : Int)
    (Do : Transport) (fuel : Nat) (st : DetectState) :
    st.detectedSize = st.minSize - 1 → st.minSize ≤ st.maxSize + 1 →
    MinInt64 ≤ 2 * st.minSize → 2 * st.maxSize ≤ MaxInt64 →
      (detectLoop req maxLine refStatus codeOk codeBad Do fuel st).final.detectedSize
          = (detectLoop req maxLine refStatus codeOk codeBad Do fuel st).final.minSize - 1 ∧
        (detectLoop req maxLine refStatus codeOk codeBad Do fuel st).final.minSize
          ≤ (detectLoop req maxLine refStatus codeOk codeBad Do fuel st).final.maxSize + 1 ∧
        st.minSize ≤ (detectLoop req maxLine refStatus codeOk codeBad Do fuel st).final.minSize ∧
        (detectLoop req maxLine refStatus codeOk codeBad Do fuel st).final.maxSize
          ≤ st.maxSize ∧
        st.detectedSize
          ≤ (detectLoop req maxLine refStatus codeOk codeBad Do fuel st).final.detectedSize ∧
        ((detectLoop req maxLine refStatus codeOk codeBad Do fuel st).running = false →
          (detectLoop req maxLine refStatus codeOk codeBad Do fuel st).fatal = none →
          (detectLoop req maxLine refStatus codeOk codeBad Do fuel st).final.detectedSize
            = (detectLoop req maxLine refStatus codeOk codeBad Do fuel st).final.maxSize) ∧
        ((detectLoop req maxLine refStatus codeOk codeBad Do fuel st).final.badResponse = none →
          st.badResponse = none ∧
          (detectLoop req maxLine refStatus codeOk codeBad Do fuel st).final.maxSize
            = st.maxSize) := by
  refine detectLoop_induct req maxLine refStatus codeOk codeBad Do
    (fun _ st run => st.detectedSize = st.minSize - 1 → st.minSize ≤ st.maxSize + 1 →
      MinInt64 ≤ 2 * st.minSize → 2 * st.maxSize ≤ MaxInt64 →
        run.final.detectedSize = run.final.minSize - 1 ∧
        run.final.minSize ≤ run.final.maxSize + 1 ∧
        st.minSize ≤ run.final.minSize ∧
        run.final.maxSize ≤ st.maxSize ∧
        st.detectedSize ≤ run.final.detectedSize ∧
        (run.running = false → run.fatal = none →
          run.final.detectedSize = run.final.maxSize) ∧
        (run.final.badResponse = none →
          st.badResponse = none ∧ run.final.maxSize = st.maxSize))
    ?_ ?_ ?_ ?_ ?_ fuel st
  · intro st _ hinv hle1 _ _
    exact ⟨hinv, hle1, le_refl _, le_refl _, le_refl _, fun h => (by cases h),
      fun h => ⟨h, rfl⟩⟩
  · intro _ st hdone hinv hle1 _ _
    refine ⟨hinv, hle1, le_refl _, le_refl _, le_refl _, fun _ _ => ?_, fun h => ⟨h, rfl⟩⟩
    show st.detectedSize = st.maxSize
    omega
  · intro _ st err _ _ hinv hle1 _ _
    exact ⟨hinv, hle1, le_refl _, le_refl _, le_refl _, fun _ h => (by cases h),
      fun h => ⟨h, rfl⟩⟩
  · intro _ st st1 status f _ _ hstep hinv hle1 _ _
    rcases trialStep_fatal_cases _ _ _ _ _ _ _ _ _ hstep with ⟨hc, _, _⟩ | ⟨hc, _⟩
    · rw [trialStep_transient _ _ _ _ _ _ _ hc] at hstep
      have hst1 := congrArg Prod.fst hstep
      simp only at hst1
      rw [← hst1]
      exact ⟨hinv, hle1, le_refl _, le_refl _, le_refl _, fun _ h => (by cases h),
        fun h => ⟨h, rfl⟩⟩
    · rw [trialStep_unexpected _ _ _ _ _ _ _ hc] at hstep
      have hst1 := congrArg Prod.fst hstep
      simp only at hst1
      rw [← hst1]
      exact ⟨hinv, hle1, le_refl _, le_refl _, le_refl _, fun _ h => (by cases h),
        fun h => ⟨h, rfl⟩⟩
  · intro _ st st1 status run hle _ hstep ih hinv hle1 hlo hhi
    have hm := mid_bounds st hle hlo hhi
    have hr := trialStep_range refStatus codeOk codeBad st st1 _ status none hle hlo hhi hstep
    cases hc : classify status refStatus codeOk codeBad
    · rw [trialStep_accepted _ _ _ _ _ _ _ hc] at hstep
      cases hstep
      obtain ⟨h1, h2, h3, h4, h5, h6, h7⟩ := ih (by simp) (by simp; omega) hr.1 hr.2
      simp only at h3 h4 h5 h7
      exact ⟨h1, h2, by omega, h4, by omega, h6, h7⟩
    · rw [trialStep_rejected _ _ _ _ _ _ _ hc] at hstep
      cases hstep
      obtain ⟨h1, h2, h3, h4, h5, h6, h7⟩ := ih hinv (by simp; omega) hr.1 hr.2
      simp only at h3 h4 h5 h7
      refine ⟨h1, h2, h3, by omega, h5, h6, fun h => ?_⟩
      have := (h7 h).1
      cases this
    · rw [trialStep_transient _ _ _ _ _ _ _ hc] at hstep
      by_cases h6' : st.errorCount + 1 > 5
      · rw [if_pos h6'] at hstep
        cases hstep
      · rw [if_neg h6'] at hstep
        cases hstep
        exact ih hinv hle1 hr.1 hr.2
    · rw [trialStep_unexpected _ _ _ _ _ _ _ hc] at hstep
      cases hstep

/-- A run of `main` with `-detect` on effective bounds `lo ≤ hi` with twice
`hi` a value of `int`, once the loop is over without a fatal error: the size
printed is the final `maxSize`, it is at least `lo`, and it is `hi` when the
"was not exceeded" warning is printed. -/
theorem main_detected_in_range (flags : Flags) (Do : Transport) (refStatus : Int) (fuel : Nat)
    (hml : minimumOverhead ≤ flags.maxLine) (hdet : flags.detect = true)
    (hmm : flags.minSize ≤ flags.maxSize)
    (hmeth : validMethod (baseRequest flags).Method = true)
    (hlohi : effectiveMinSize flags ≤ effectiveMaxSize flags)
    (hrange : 2 * effectiveMaxSize flags ≤ MaxInt64)
    (href : Do 0 (referencePad flags).r = Except.ok refStatus)
    (hrun : (main flags Do fuel).running = false)
    (hfatal : (main flags Do fuel).fatal = none) :
    (main flags Do fuel).detected = some (detectRun flags Do refStatus fuel).final.maxSize ∧
      effectiveMinSize flags ≤ (detectRun flags Do refStatus fuel).final.detectedSize ∧
      (detectRun flags Do refStatus fuel).final.maxSize ≤ effectiveMaxSize flags ∧
      ((main flags Do fuel).notExceeded = true →
        (main flags Do fuel).detected = some (effectiveMaxSize flags)) := by
  have hpass : initialRejected refStatus = false := by
    cases h : initialRejected refStatus with
    | false => rfl
    | true =>
      rw [main_initial_rejected flags Do refStatus fuel hml hdet hmm hmeth href h] at hfatal
      cases hfatal
  have hmain := main_detect flags Do refStatus fuel hml hdet hmm hmeth href hpass
  have h0 : 0 ≤ effectiveMinSize flags :=
    le_trans (measure_nonneg _) (le_effectiveMinSize flags)
  have hM : MaxInt64 = 9223372036854775807 := rfl
  have hm : MinInt64 = -9223372036854775808 := rfl
  have hs : (DetectState.start (effectiveMinSize flags) (effectiveMaxSize flags) refStatus
      (referencePad flags)).minSize = effectiveMinSize flags + 1 :=
    start_minSize _ _ _ _ h0 (by omega)
  have hinv := detectLoop_invariant (baseRequest flags) flags.maxLine refStatus flags.codeOk
    flags.codeBad Do fuel (DetectState.start (effectiveMinSize flags) (effectiveMaxSize flags)
      refStatus (referencePad flags))
    (by rw [hs]; show effectiveMinSize flags = _; omega)
    (by rw [hs]; show _ ≤ effectiveMaxSize flags + 1; omega)
    (by rw [hs]; omega) (by show 2 * effectiveMaxSize flags ≤ _; exact hrange)
  obtain ⟨h1, h2, h3, h4, h5, h6, h7⟩ := hinv
  change (detectRun flags Do refStatus fuel).final.detectedSize = _ at h1
  change _ ≤ (detectRun flags Do refStatus fuel).final.maxSize + 1 at h2
  change _ ≤ (detectRun flags Do refStatus fuel).final.minSize at h3
  change (detectRun flags Do refStatus fuel).final.maxSize ≤ effectiveMaxSize flags at h4
  change effectiveMinSize flags ≤ (detectRun flags Do refStatus fuel).final.detectedSize at h5
  change (detectRun flags Do refStatus fuel).running = false →
    (detectRun flags Do refStatus fuel).fatal = none →
    (detectRun flags Do refStatus fuel).final.detectedSize
      = (detectRun flags Do refStatus fuel).final.maxSize at h6
  change (detectRun flags Do refStatus fuel).final.badResponse = none →
    _ ∧ (detectRun flags Do refStatus fuel).final.maxSize = effectiveMaxSize flags at h7
  cases hf : (detectRun flags Do refStatus fuel).fatal with
  | some f =>
    rw [hmain, hf] at hfatal
    cases hfatal
  | none =>
    cases hr : (detectRun flags Do refStatus fuel).running with
    | true =>
      rw [hmain, hf, hr] at hrun
      cases hrun
    | false =>
      have hd := h6 hr hf
      rw [hmain, hf, hr]
      simp only [Bool.false_eq_true, if_false]
      refine ⟨by rw [hd], h5, h4, fun hne => ?_⟩
      have hb : (detectRun flags Do refStatus fuel).final.badResponse = none := by
        cases hbr : (detectRun flags Do refStatus fuel).final.badResponse with
        | none => rfl
        | some b =>
          rw [hbr] at hne
          cases hne
      rw [hd, (h7 hb).2]

/-! ## A midpoint that wraps around -/

theorem measure_baseRequest_overflowFlags : measure (baseRequest overflowFlags) = 36 :=
  measure_baseRequest_exampleFlags

theorem effectiveMinSize_overflowFlags : effectiveMinSize overflowFlags = 36 := by
  unfold effectiveMinSize
  rw [measure_baseRequest_overflowFlags]
  decide

theorem effectiveMaxSize_overflowFlags : effectiveMaxSize overflowFlags = MaxInt64 := by
  unfold effectiveMaxSize
  rw [measure_baseRequest_overflowFlags]
  decide

theorem referencePad_overflowFlags :
    referencePad overflowFlags = padRequest (baseRequest overflowFlags) 8192 36 := by
  unfold referencePad
  rw [effectiveMinSize_overflowFlags]
  rfl

/-- The requests of the first two probes on the command line `overflowFlags`:
for the size 36 and for the negative size the first trial asks for,
`padRequest` returns the base request of 36 bytes. -/
theorem padRequest_overflowFlags :
    measure (padRequest (baseRequest overflowFlags) 8192 36).r = 36 ∧
      measure (padRequest (baseRequest overflowFlags) 8192 (-4611686018427387886)).r = 36 := by
  have hB := measure_baseRequest_overflowFlags
  rw [padRequest_nonpositive _ _ _ (by rw [hB]; decide),
    padRequest_nonpositive _ _ _ (by rw [hB]; decide)]
  exact ⟨hB, hB⟩

/-- The state in which the loop is entered on the command line
`overflowFlags`, for a reference response with status 200. -/
theorem detectRun_overflowFlags_zero (Do : Transport) :
    detectRun overflowFlags Do 200 0
      = { final :=
            { minSize := 37, maxSize := MaxInt64, detectedSize := 36, errorCount := 0,
              successResponse := 200, badResponse := none,
              probes :=
                [{ size := 36, pad := padRequest (baseRequest overflowFlags) 8192 36,
                   status := 200 }] },
          fatal := none, running := true } := by
  unfold detectRun
  rw [effectiveMinSize_overflowFlags, effectiveMaxSize_overflowFlags,
    referencePad_overflowFlags, start_eq 36 MaxInt64 200 _ 37 (by decide)]
  exact detectLoop_out _ _ _ _ _ _ _ (by decide)

/-- The first trial on the command line `overflowFlags`: the sum
`37 + 9223372036854775807` wraps around, the trial is made at
`-4611686018427387886`, and an accepted response moves `minSize` and
`detectedSize` there. -/
theorem detectRun_overflowFlags_accepted :
    detectRun overflowFlags (constantServer 200) 200 1
      = { final :=
            { minSize := -4611686018427387885, maxSize := MaxInt64,
              detectedSize := -4611686018427387886, errorCount := 0,
              successResponse := 200, badResponse := none,
              probes :=
                [{ size := 36, pad := padRequest (baseRequest overflowFlags) 8192 36,
                   status := 200 }]
                ++ [{ size := -4611686018427387886,
                      pad := padRequest (baseRequest overflowFlags) 8192 (-4611686018427387886),
                      status := 200 }] },
          fatal := none, running := true } := by
  unfold detectRun
  rw [effectiveMinSize_overflowFlags, effectiveMaxSize_overflowFlags,
    referencePad_overflowFlags, start_eq 36 MaxInt64 200 _ 37 (by decide)]
  show detectLoop (baseRequest overflowFlags) 8192 200 0 0 (constantServer 200) (0 + 1) _ = _
  rw [detectLoop_accept_at (baseRequest overflowFlags) 8192 200 0 0 (constantServer 200) 0 37
    MaxInt64 36 0 200 none _ (-4611686018427387886) (-4611686018427387885) 200 (by decide)
    (by decide) (by decide) rfl (by decide)]
  exact detectLoop_out _ _ _ _ _ _ _ (by decide)

/-- The first trial on the command line `overflowFlags` when its response is
431: `maxSize` drops to `-4611686018427387887` and the loop is over. -/
theorem detectRun_overflowFlags_rejected :
    detectRun overflowFlags rejectingServer 200 1
      = { final :=
            { minSize := 37, maxSize := -4611686018427387887,
              detectedSize := 36, errorCount := 0,
              successResponse := 200, badResponse := some 431,
              probes :=
                [{ size := 36, pad := padRequest (baseRequest overflowFlags) 8192 36,
                   status := 200 }]
                ++ [{ size := -4611686018427387886,
                      pad := padRequest (baseRequest overflowFlags) 8192 (-4611686018427387886),
                      status := 431 }] },
          fatal := none, running := false } := by
  unfold detectRun
  rw [effectiveMinSize_overflowFlags, effectiveMaxSize_overflowFlags,
    referencePad_overflowFlags, start_eq 36 MaxInt64 200 _ 37 (by decide)]
  show detectLoop (baseRequest overflowFlags) 8192 200 0 0 rejectingServer (0 + 1) _ = _
  rw [detectLoop_reject_at (baseRequest overflowFlags) 8192 200 0 0 rejectingServer 0 37
    MaxInt64 36 0 200 none
    [{ size := 36, pad := padRequest (baseRequest overflowFlags) 8192 36, status := 200 }]
    (-4611686018427387886) (-4611686018427387887) 431 (by decide)
    (by decide) (by decide) rfl (by decide)]
  exact detectLoop_done _ _ _ _ _ _ _ _ (by decide)

/-- C16 at a failing input: `-detect -min-size 0 -max-size 9223372036854775807`
for a base request of 36 bytes, against a server that answers 200.  The
start-up checks pass; the loop is entered with `minSize = 37` and
`detectedSize = 36`.  The first sum `minSize + maxSize` wraps around, the trial
is made at `-4611686018427387886` with the unpadded request, it is classified
Accepted, and it moves `minSize` from 37 down to `-4611686018427387885` and
`detectedSize` from 36 down to `-4611686018427387886`. -/
theorem main_detected_decreases :
    minimumOverhead ≤ overflowFlags.maxLine ∧ overflowFlags.minSize ≤ overflowFlags.maxSize ∧
      validMethod (baseRequest overflowFlags).Method = true ∧
      effectiveMinSize overflowFlags = 36 ∧ effectiveMaxSize overflowFlags = MaxInt64 ∧
      (detectRun overflowFlags (constantServer 200) 200 0).final.minSize = 37 ∧
      (detectRun overflowFlags (constantServer 200) 200 0).final.detectedSize = 36 ∧
      (detectRun overflowFlags (constantServer 200) 200 0).final.mid = -4611686018427387886 ∧
      classify 200 200 overflowFlags.codeOk overflowFlags.codeBad = Outcome.Accepted ∧
      (detectRun overflowFlags (constantServer 200) 200 1).final.minSize
        = -4611686018427387885 ∧
      (detectRun overflowFlags (constantServer 200) 200 1).final.detectedSize
        = -4611686018427387886 ∧
      (detectRun overflowFlags (constantServer 200) 200 1).final.maxSize = MaxInt64 ∧
      (main overflowFlags (constantServer 200) 1).probes.map Probe.summary
        = [(36, 36, 200), (-4611686018427387886, 36, 200)] := by
  have hpad := padRequest_overflowFlags
  have hmain : (main overflowFlags (constantServer 200) 1).probes
      = (detectRun overflowFlags (constantServer 200) 200 1).final.probes := by
    rw [main_detect overflowFlags (constantServer 200) 200 1 (by decide) rfl (by decide)
      (by decide) rfl (by decide), detectRun_overflowFlags_accepted]
    rfl
  rw [hmain, detectRun_overflowFlags_zero, detectRun_overflowFlags_accepted]
  refine ⟨by decide, by decide, by decide, effectiveMinSize_overflowFlags,
    effectiveMaxSize_overflowFlags, rfl, rfl, by decide, by decide, rfl, rfl, rfl, ?_⟩
  simp [Probe.summary, hpad.1, hpad.2]

/-- C19 at a failing input: `-detect -min-size 0 -max-size 9223372036854775807`
for a base request of 36 bytes, against a server that answers the reference
probe with 200 and the trial with 431.  The effective bounds are
`36 ≤ 9223372036854775807`.  The first sum `minSize + maxSize` wraps around,
the trial at `-4611686018427387886` is classified Rejected and sets `maxSize`
to `-4611686018427387887`; the loop is over with `minSize = 37`, far above
`maxSize + 1`, and `main` prints 36 as the detected size, which is not the
final `maxSize`. -/
theorem main_detected_differs_from_maxSize :
    minimumOverhead ≤ overflowFlags.maxLine ∧ overflowFlags.minSize ≤ overflowFlags.maxSize ∧
      validMethod (baseRequest overflowFlags).Method = true ∧
      effectiveMinSize overflowFlags ≤ effectiveMaxSize overflowFlags ∧
      classify 431 200 overflowFlags.codeOk overflowFlags.codeBad = Outcome.Rejected ∧
      (main overflowFlags rejectingServer 1).running = false ∧
      (main overflowFlags rejectingServer 1).fatal = none ∧
      (main overflowFlags rejectingServer 1).detected = some 36 ∧
      (detectRun overflowFlags rejectingServer 200 1).final.minSize = 37 ∧
      (detectRun overflowFlags rejectingServer 200 1).final.maxSize = -4611686018427387887 ∧
      (detectRun overflowFlags rejectingServer 200 1).final.detectedSize = 36 ∧
      ¬ ((detectRun overflowFlags rejectingServer 200 1).final.minSize
          ≤ (detectRun overflowFlags rejectingServer 200 1).final.maxSize + 1) := by
  rw [main_detect overflowFlags rejectingServer 200 1 (by decide) rfl (by decide)
    (by decide) rfl (by decide), detectRun_overflowFlags_rejected,
    effectiveMinSize_overflowFlags, effectiveMaxSize_overflowFlags]
  exact ⟨by decide, by decide, by decide, by decide, by decide, rfl, rfl, rfl, rfl, rfl, rfl,
    by decide⟩

/-! ## A loop that does not end -/

theorem classify_refStatus (refStatus codeOk codeBad : Int) :
    classify refStatus refStatus codeOk codeBad = Outcome.Accepted := by
  unfold classify
  simp

/-- Half of a value of `int`, plus one, is a value of `int`. -/
theorem inRange_half_succ (x : Int) (h : InRange x) : InRange (x.tdiv 2 + 1) := by
  unfold InRange MinInt64 MaxInt64 at *
  rcases le_or_lt 0 x with h0 | h0
  · rw [Int.tdiv_eq_ediv h0 (by decide)]
    omega
  · have e : x.tdiv 2 = -((-x) / 2) := by
      rw [← Int.tdiv_eq_ediv (by omega) (by decide), Int.neg_tdiv, neg_neg]
    rw [e]
    omega

theorem decisiveCount_of_refStatus (refStatus codeOk codeBad : Int) (trials : List Probe)
    (h : ∀ p ∈ trials, p.status = refStatus) :
    decisiveCount refStatus codeOk codeBad trials = trials.length := by
  unfold decisiveCount
  rw [List.countP_eq_length]
  intro p hp
  rw [h p hp, classify_refStatus]
  simp

/-- With `maxSize = MaxInt64` and a server that answers every request with the
reference status, the loop goes on for ever: whatever number of trials is
followed, that many were made, all answered with the reference status, and
the loop is still running. -/
theorem detectLoop_accepting (req : Request) (maxLine refStatus codeOk codeBad : Int)
    (Do : Transport) (hdo : ∀ (k : Nat) (r : Request), Do k r = Except.ok refStatus)
    (fuel : Nat) :
    ∀ st : DetectState, InRange st.minSize → st.maxSize = MaxInt64 →
      (detectLoop req maxLine refStatus codeOk codeBad Do fuel st).running = true ∧
        (detectLoop req maxLine refStatus codeOk codeBad Do fuel st).fatal = none ∧
        ∃ trials : List Probe,
          (detectLoop req maxLine refStatus codeOk codeBad Do fuel st).final.probes
            = st.probes ++ trials ∧
          trials.length = fuel ∧ ∀ p ∈ trials, p.status = refStatus := by
  induction fuel with
  | zero =>
    intro st hmin hmax
    have hle : st.minSize ≤ st.maxSize := by
      rw [hmax]
      exact hmin.2
    rw [detectLoop_out _ _ _ _ _ _ _ hle]
    exact ⟨rfl, rfl, [], by simp, rfl, by simp⟩
  | succ fuel ih =>
    intro st hmin hmax
    have hle : st.minSize ≤ st.maxSize := by
      rw [hmax]
      exact hmin.2
    have hmaxr : InRange st.maxSize := by
      rw [hmax]
      decide
    rw [detectLoop_accept req maxLine refStatus codeOk codeBad Do fuel st refStatus hle
      (hdo _ _) (classify_refStatus _ _ _)]
    obtain ⟨h1, h2, trials, h3, h4, h5⟩ := ih
      { st with minSize := st.mid + 1, detectedSize := st.mid, successResponse := refStatus,
                probes := st.probes ++
                  [{ size := st.mid, pad := padRequest req maxLine st.mid,
                     status := refStatus }] }
      (inRange_half_succ _ (inRange_intAdd hmin hmaxr)) hmax
    refine ⟨h1, h2,
      { size := st.mid, pad := padRequest req maxLine st.mid, status := refStatus } :: trials,
      ?_, ?_, ?_⟩
    · rw [h3]
      simp
    · rw [List.length_cons, h4]
    · intro p hp
      rcases List.mem_cons.mp hp with h | h
      · rw [h]
      · exact h5 p h

theorem clog_overflowFlags :
    Nat.clog 2 (effectiveMaxSize overflowFlags - effectiveMinSize overflowFlags + 1).toNat
      = 63 := by
  rw [effectiveMinSize_overflowFlags, effectiveMaxSize_overflowFlags]
  have e : (MaxInt64 - 36 + 1).toNat = 9223372036854775772 := by
    unfold MaxInt64
    omega
  rw [e]
  have h1 : Nat.clog 2 9223372036854775772 ≤ 63 :=
    (Nat.le_pow_iff_clog_le (by decide)).mp (by norm_num)
  have h2 : 62 < Nat.clog 2 9223372036854775772 :=
    (Nat.pow_lt_iff_lt_clog (by decide)).mp (by norm_num)
  omega

/-- C11 at a failing input: `-detect -min-size 0 -max-size 9223372036854775807`
for a base request of 36 bytes, against a server that answers 200.  The
effective bounds are 36 and `9223372036854775807`, and
`⌈log₂ (maxSize - minSize + 1)⌉ = 63`.  The first trial, made at a wrapped
`midSize` with the unpadded request, is classified Accepted and widens
`maxSize - minSize`.  From there on the interval is halved and widened in
turn: with requests as large as the sizes asked for, 64 trials are made, all
of them classified Accepted, and the loop is still running. -/
theorem main_decisive_trials_unbounded :
    minimumOverhead ≤ overflowFlags.maxLine ∧ overflowFlags.minSize ≤ overflowFlags.maxSize ∧
      validMethod (baseRequest overflowFlags).Method = true ∧
      effectiveMinSize overflowFlags ≤ effectiveMaxSize overflowFlags ∧
      Nat.clog 2 (effectiveMaxSize overflowFlags - effectiveMinSize overflowFlags + 1).toNat
        = 63 ∧
      (detectRun overflowFlags (constantServer 200) 200 0).final.maxSize
          - (detectRun overflowFlags (constantServer 200) 200 0).final.minSize
        < (detectRun overflowFlags (constantServer 200) 200 1).final.maxSize
          - (detectRun overflowFlags (constantServer 200) 200 1).final.minSize ∧
      (main overflowFlags (constantServer 200) 64).running = true ∧
      (main overflowFlags (constantServer 200) 64).fatal = none ∧
      decisiveTrials overflowFlags.codeOk overflowFlags.codeBad
        (main overflowFlags (constantServer 200) 64).probes = 64 := by
  have hgrow : (detectRun overflowFlags (constantServer 200) 200 0).final.maxSize
        - (detectRun overflowFlags (constantServer 200) 200 0).final.minSize
      < (detectRun overflowFlags (constantServer 200) 200 1).final.maxSize
        - (detectRun overflowFlags (constantServer 200) 200 1).final.minSize := by
    rw [detectRun_overflowFlags_zero, detectRun_overflowFlags_accepted]
    decide
  obtain ⟨h1, h2, trials, h3, h4, h5⟩ := detectLoop_accepting (baseRequest overflowFlags)
    overflowFlags.maxLine 200 overflowFlags.codeOk overflowFlags.codeBad (constantServer 200)
    (fun _ _ => rfl) 64
    (DetectState.start (effectiveMinSize overflowFlags) (effectiveMaxSize overflowFlags) 200
      (referencePad overflowFlags))
    (by
      rw [effectiveMinSize_overflowFlags]
      show InRange (intAdd 36 1)
      decide)
    effectiveMaxSize_overflowFlags
  have hr : (detectRun overflowFlags (constantServer 200) 200 64).running = true := h1
  have hf : (detectRun overflowFlags (constantServer 200) 200 64).fatal = none := h2
  have hp : (detectRun overflowFlags (constantServer 200) 200 64).final.probes
      = { size := effectiveMinSize overflowFlags, pad := referencePad overflowFlags,
          status := 200 } :: trials := h3
  have hmain : main overflowFlags (constantServer 200) 64
      = { probes := (detectRun overflowFlags (constantServer 200) 200 64).final.probes,
          fatal := none, detected := none, notExceeded := false, running := true } := by
    rw [main_detect overflowFlags (constantServer 200) 200 64 (by decide) rfl (by decide)
      (by decide) rfl (by decide), hf]
    simp only [hr, if_true]
  refine ⟨by decide, by decide, by decide, ?_, clog_overflowFlags, hgrow, ?_, ?_, ?_⟩
  · rw [effectiveMinSize_overflowFlags, effectiveMaxSize_overflowFlags]
    decide
  · rw [hmain]
  · rw [hmain]
  · rw [hmain, hp]
    show decisiveCount 200 overflowFlags.codeOk overflowFlags.codeBad trials = 64
    rw [decisiveCount_of_refStatus _ _ _ _ h5, h4]

end ProxyProber
